import Mathlib

/-!
Shallow embedding of the KLEE-float Z3 expression builder
(src/lib/Solver/Z3Builder.cpp) and proofs about its translation from the
KLEE expression IR into Z3 ASTs.

The embedding models the Z3 AST as an inductive type whose constructors
mirror the Z3_mk_* C API calls the builder performs.  Z3 bitvector
numerals are stored with their value reduced modulo 2^width, which is how
Z3 canonicalises numerals of a given bitvector sort.  The construct cache
(hash consing) is semantically transparent (it stores and returns exactly
the pair that constructActual produced), so the embedding models the
translation as the pure recursive function constructActual.
-/

set_option maxHeartbeats 1600000

namespace KleeZ3

/-- Rounding mode constants of the Z3 FPA theory, as selected by
Z3Builder::getRoundingModeAST. -/
inductive RM where
  | rne | rtp | rtn | rtz | rna
deriving DecidableEq, Repr

/-- Z3 sorts used by the builder: Boolean, bitvector, floating point
(ebits, sbits with sbits counting the hidden bit), and arrays. -/
inductive Z3Sort where
  | boolS : Z3Sort
  | bvS (w : Nat) : Z3Sort
  | fpS (ebits sbits : Nat) : Z3Sort
  | arrS (dom rng : Z3Sort) : Z3Sort
deriving DecidableEq, Repr

/-- Z3 AST nodes, one constructor per Z3_mk_* operation that
Z3Builder.cpp performs.  The three- and four-argument concatExpr
overloads in the source build nested binary Z3_mk_concat applications, so
a binary concat constructor suffices. -/
inductive Z3Ast where
  | trueE : Z3Ast
  | falseE : Z3Ast
  | numeral (w v : Nat) : Z3Ast
  | fpNumeral32 (bits : Nat) : Z3Ast
  | fpNumeral64 (bits : Nat) : Z3Ast
  | constE (name : String) (s : Z3Sort) : Z3Ast
  | eqE (a b : Z3Ast) : Z3Ast
  | notE (a : Z3Ast) : Z3Ast
  | andE (a b : Z3Ast) : Z3Ast
  | orE (a b : Z3Ast) : Z3Ast
  | orE3 (a b c : Z3Ast) : Z3Ast
  | iffE (a b : Z3Ast) : Z3Ast
  | iteE (c a b : Z3Ast) : Z3Ast
  | bvnotE (a : Z3Ast) : Z3Ast
  | bvandE (a b : Z3Ast) : Z3Ast
  | bvorE (a b : Z3Ast) : Z3Ast
  | bvxorE (a b : Z3Ast) : Z3Ast
  | bvredorE (a : Z3Ast) : Z3Ast
  | bvaddE (a b : Z3Ast) : Z3Ast
  | bvsubE (a b : Z3Ast) : Z3Ast
  | bvmulE (a b : Z3Ast) : Z3Ast
  | bvudivE (a b : Z3Ast) : Z3Ast
  | bvsdivE (a b : Z3Ast) : Z3Ast
  | bvuremE (a b : Z3Ast) : Z3Ast
  | bvsremE (a b : Z3Ast) : Z3Ast
  | bvultE (a b : Z3Ast) : Z3Ast
  | bvuleE (a b : Z3Ast) : Z3Ast
  | bvsltE (a b : Z3Ast) : Z3Ast
  | bvsleE (a b : Z3Ast) : Z3Ast
  | extractE (hi lo : Nat) (a : Z3Ast) : Z3Ast
  | concatE (a b : Z3Ast) : Z3Ast
  | signExtE (extra : Nat) (a : Z3Ast) : Z3Ast
  | storeE (a i v : Z3Ast) : Z3Ast
  | selectE (a i : Z3Ast) : Z3Ast
  | isNanE (a : Z3Ast) : Z3Ast
  | isInfE (a : Z3Ast) : Z3Ast
  | isZeroE (a : Z3Ast) : Z3Ast
  | isSubnormalE (a : Z3Ast) : Z3Ast
  | isNegE (a : Z3Ast) : Z3Ast
  | fpAbsE (a : Z3Ast) : Z3Ast
  | fpSqrtE (rm : RM) (a : Z3Ast) : Z3Ast
  | fpRoundIntE (rm : RM) (a : Z3Ast) : Z3Ast
  | fpAddE (rm : RM) (a b : Z3Ast) : Z3Ast
  | fpSubE (rm : RM) (a b : Z3Ast) : Z3Ast
  | fpMulE (rm : RM) (a b : Z3Ast) : Z3Ast
  | fpDivE (rm : RM) (a b : Z3Ast) : Z3Ast
  | fpRemE (a b : Z3Ast) : Z3Ast
  | fpMinE (a b : Z3Ast) : Z3Ast
  | fpMaxE (a b : Z3Ast) : Z3Ast
  | fpEqE (a b : Z3Ast) : Z3Ast
  | fpLtE (a b : Z3Ast) : Z3Ast
  | fpLeqE (a b : Z3Ast) : Z3Ast
  | fpGtE (a b : Z3Ast) : Z3Ast
  | fpGeqE (a b : Z3Ast) : Z3Ast
  | fpNanE (ebits sbits : Nat) : Z3Ast
  | fpZeroE (ebits sbits : Nat) : Z3Ast
  | fpFpE (sign exp sig : Z3Ast) : Z3Ast
  | fpToFpBvE (a : Z3Ast) (ebits sbits : Nat) : Z3Ast
  | fpToFpFloatE (rm : RM) (a : Z3Ast) (ebits sbits : Nat) : Z3Ast
  | fpToFpSignedE (rm : RM) (a : Z3Ast) (ebits sbits : Nat) : Z3Ast
  | fpToFpUnsignedE (rm : RM) (a : Z3Ast) (ebits sbits : Nat) : Z3Ast
  | fpToUbvE (rm : RM) (a : Z3Ast) (w : Nat) : Z3Ast
  | fpToSbvE (rm : RM) (a : Z3Ast) (w : Nat) : Z3Ast
  | fpToIeeeBvE (a : Z3Ast) : Z3Ast
deriving Repr

namespace Z3Ast

/-- Z3 canonicalises a bitvector numeral of sort width w to its value
modulo 2^w; this smart constructor performs that reduction. -/
def mkNumeral (w v : Nat) : Z3Ast := .numeral w (v % 2 ^ w)

end Z3Ast

open Z3Ast

/-- Z3Builder::bvConst32: Z3_mk_unsigned_int with a 32-bit value into a
bitvector sort of the given width. -/
def bvConst32 (width value : Nat) : Z3Ast := mkNumeral width (value % 2 ^ 32)

/-- Z3Builder::bvConst64: Z3_mk_unsigned_int64 with a 64-bit value into a
bitvector sort of the given width. -/
def bvConst64 (width value : Nat) : Z3Ast := mkNumeral width (value % 2 ^ 64)

/-- Loop body of Z3Builder::bvZExtConst for widths above 64: prepend
64-bit zero chunks while more than 64 bits remain, then prepend a final
chunk of the remaining width. -/
def bvZExtConstLoop (width : Nat) (expr : Z3Ast) : Z3Ast :=
  if 64 < width then bvZExtConstLoop (width - 64) (.concatE (bvConst64 64 0) expr)
  else .concatE (bvConst64 width 0) expr
termination_by width

/-- Z3Builder::bvZExtConst. -/
def bvZExtConst (width value : Nat) : Z3Ast :=
  if width ≤ 64 then bvConst64 width value
  else bvZExtConstLoop (width - 64) (bvConst64 64 value)

/-- Z3Builder::bvSExtConst.  The value parameter is the uint64_t bit
pattern the C++ receives; Z3_mk_int64 with -1 into a sort of width k
denotes the all-ones numeral of that sort. -/
def bvSExtConst (width value : Nat) : Z3Ast :=
  if width ≤ 64 then bvConst64 width value
  else if value >>> 63 ≠ 0 then
    .concatE (mkNumeral (width - 64) (2 ^ (width - 64) - 1)) (bvConst64 64 value)
  else
    .concatE (mkNumeral (width - 64) 0) (bvConst64 64 value)

/-- Z3Builder::bvOne. -/
def bvOne (width : Nat) : Z3Ast := bvZExtConst width 1

/-- Z3Builder::bvZero. -/
def bvZero (width : Nat) : Z3Ast := bvZExtConst width 0

/-- Z3Builder::bvMinusOne; the int64_t -1 arrives as the uint64_t
all-ones pattern. -/
def bvMinusOne (width : Nat) : Z3Ast := bvSExtConst width (2 ^ 64 - 1)

/-- Z3Builder::bvExtract. -/
def bvExtract (expr : Z3Ast) (top bottom : Nat) : Z3Ast := .extractE top bottom expr

/-- Z3Builder::bvBoolExtract. -/
def bvBoolExtract (expr : Z3Ast) (bit : Nat) : Z3Ast :=
  .eqE (bvExtract expr bit bit) (bvOne 1)

/-- Z3Builder::bvRightShift (logical right shift by a constant).  The
width argument is the bitvector length of expr, which the C++ reads back
from the Z3 sort via getBVLength. -/
def bvRightShift (width : Nat) (expr : Z3Ast) (shift : Nat) : Z3Ast :=
  if shift = 0 then expr
  else if width ≤ shift then bvZero width
  else .concatE (bvZero shift) (bvExtract expr (width - 1) shift)

/-- Z3Builder::bvLeftShift (logical left shift by a constant). -/
def bvLeftShift (width : Nat) (expr : Z3Ast) (shift : Nat) : Z3Ast :=
  if shift = 0 then expr
  else if width ≤ shift then bvZero width
  else .concatE (bvExtract expr (width - shift - 1) 0) (bvZero shift)

/-- Z3Builder::constructAShrByConstant (arithmetic right shift by a
constant, taking the sign condition as a Boolean term). -/
def constructAShrByConstant (width : Nat) (expr : Z3Ast) (shift : Nat)
    (isSigned : Z3Ast) : Z3Ast :=
  if shift = 0 then expr
  else if width ≤ shift then bvZero width
  else
    .iteE isSigned
      (.concatE (bvMinusOne shift) (bvExtract expr (width - 1) shift))
      (bvRightShift width expr shift)

/-- Ite chain built by the loop in Z3Builder::bvVarLeftShift.  The C++
loop runs i from width-1 down to 0 with accumulator res, starting from
bvZero; its result is the nesting with the i = 0 test outermost, which
this function produces when called with i = 0. -/
def bvVarLeftShiftChain (width : Nat) (expr shift : Z3Ast) (i : Nat) : Z3Ast :=
  if i < width then
    .iteE (.eqE shift (bvConst32 width i)) (bvLeftShift width expr i)
      (bvVarLeftShiftChain width expr shift (i + 1))
  else bvZero width
termination_by width - i

/-- Z3Builder::bvVarLeftShift.  The widths are the bitvector lengths of
expr and shift as read back from their Z3 sorts. -/
def bvVarLeftShift (width shiftWidth : Nat) (expr shift : Z3Ast) : Z3Ast :=
  .iteE (.bvultE shift (bvConst32 shiftWidth width))
    (bvVarLeftShiftChain width expr shift 0) (bvZero width)

/-- Ite chain built by the loop in Z3Builder::bvVarRightShift. -/
def bvVarRightShiftChain (width : Nat) (expr shift : Z3Ast) (i : Nat) : Z3Ast :=
  if i < width then
    .iteE (.eqE shift (bvConst32 width i)) (bvRightShift width expr i)
      (bvVarRightShiftChain width expr shift (i + 1))
  else bvZero width
termination_by width - i

/-- Z3Builder::bvVarRightShift. -/
def bvVarRightShift (width shiftWidth : Nat) (expr shift : Z3Ast) : Z3Ast :=
  .iteE (.bvultE shift (bvConst32 shiftWidth width))
    (bvVarRightShiftChain width expr shift 0) (bvZero width)

/-- Ite chain built by the loop in Z3Builder::bvVarArithRightShift: the
accumulator starts from the shift-by-(width-1) result and the loop runs i
from width-2 down to 0, so the i = 0 test is outermost and the base case
is the shift by width-1. -/
def bvVarAShrChain (width : Nat) (expr shift signedBool : Z3Ast) (i : Nat) : Z3Ast :=
  if i < width - 1 then
    .iteE (.eqE shift (bvConst32 width i))
      (constructAShrByConstant width expr i signedBool)
      (bvVarAShrChain width expr shift signedBool (i + 1))
  else constructAShrByConstant width expr (width - 1) signedBool
termination_by width - 1 - i

/-- Z3Builder::bvVarArithRightShift. -/
def bvVarArithRightShift (width shiftWidth : Nat) (expr shift : Z3Ast) : Z3Ast :=
  .iteE (.bvultE shift (bvConst32 shiftWidth width))
    (bvVarAShrChain width expr shift (bvBoolExtract expr (width - 1)) 0)
    (bvZero width)

/-- FP sort used for the 80-bit extended-precision encoding:
Z3_mk_fpa_sort(ctx, 15, 64). -/
def f80Sort : Z3Sort := .fpS 15 64

/-- Sort of the array used by the F80 unnormal encoding: an array from a
1-bit index to the FP(15, 64) sort. -/
def f80ArrSort : Z3Sort := .arrS (.bvS 1) f80Sort

/-- The fresh array constant plus the two writes that every F80 producer
in Z3Builder.cpp performs: index 0 receives the number, index 1 the
unnormal sentinel. -/
def mkF80Arr (v0 v1 : Z3Ast) : Z3Ast :=
  .storeE (.storeE (.constE "[F80, unnormal]" f80ArrSort) (bvZero 1) v0) (bvOne 1) v1

/-- Modelled from the spec: klee/util/Bits.h (bits64::isPowerOfTwo) is
not among the translated sources; the spec asks whether the constant
divisor is a power of two. -/
def isPowerOfTwo64 (x : Nat) : Bool := x ≠ 0 && x &&& (x - 1) = 0

/-- Fuel-bounded base-2 logarithm used by indexOfSingleBit64; structural
recursion on the fuel keeps it kernel-evaluable. -/
def indexOfSingleBitAux : Nat → Nat → Nat
  | 0, _ => 0
  | fuel + 1, x => if x ≤ 1 then 0 else indexOfSingleBitAux fuel (x / 2) + 1

/-- Modelled from the spec: klee/util/Bits.h (bits64::indexOfSingleBit),
the index k of the single set bit of a power of two 2^k; 64 fuel covers
every uint64_t value. -/
def indexOfSingleBit64 (x : Nat) : Nat := indexOfSingleBitAux 64 x

/-- ConstantExpr::getLimitedValue() caps the value at UINT64_MAX and the
call sites cast the result to a 32-bit unsigned. -/
def limited32 (v : Nat) : Nat := min v (2 ^ 64 - 1) % 2 ^ 32

/-- FP_NAN as defined by the C library headers under which the source is
compiled (glibc math.h). -/
def fpNanC : Nat := 0

/-- FP_INFINITE from the C library headers. -/
def fpInfiniteC : Nat := 1

/-- FP_ZERO from the C library headers. -/
def fpZeroC : Nat := 2

/-- FP_SUBNORMAL from the C library headers. -/
def fpSubnormalC : Nat := 3

/-- FP_NORMAL from the C library headers. -/
def fpNormalC : Nat := 4

/-- The uint64_t bit pattern of int32_t minimum after the implicit
integer conversions in the call bvSExtConst(Expr::Int32, INT32_MIN). -/
def int32MinPat : Nat := 0xFFFFFFFF80000000

/-- The uint64_t bit pattern of int64_t minimum. -/
def int64MinPat : Nat := 0x8000000000000000

/-- Loop of the wide-constant path in constructActual (Expr::Constant,
width above 64): while more than 64 bits remain in Tmp, shift Tmp right
by 64 and prepend a chunk numeral of width min(64, remaining) holding the
low bits of the shifted Tmp. -/
def constantWideLoop (tmpVal tmpW : Nat) (res : Z3Ast) : Z3Ast :=
  if 64 < tmpW then
    constantWideLoop (tmpVal >>> 64) (tmpW - 64)
      (.concatE
        (bvConst64 (min 64 (tmpW - 64)) ((tmpVal >>> 64) % 2 ^ min 64 (tmpW - 64)))
        res)
  else res
termination_by tmpW

/-- Body of the Expr::Constant case of constructActual: width 1 becomes
the Boolean literal (ConstantExpr::isTrue tests width 1 and value 1),
width up to 32 and 64 become numerals via bvConst32 and bvConst64, wider
constants start from the low 64 bits and prepend chunks. -/
def constantZ3 (w v : Nat) : Z3Ast :=
  if w = 1 then (if v = 1 then .trueE else .falseE)
  else if w ≤ 32 then bvConst32 w v
  else if w ≤ 64 then bvConst64 w v
  else constantWideLoop v w (bvConst64 64 v)

/-- Body of the Expr::FConstant case at width 80: the APFloat raw words
give sign (bit 79), exponent (bits 64..78) and the 64-bit significand
word whose top bit is the explicit integer bit; the hidden bit is
canonical iff it is 0 exactly when the exponent is 0. -/
def f80ConstArr (bits : Nat) : Z3Ast :=
  let sign := (bits >>> 79) % 2
  let exp := (bits >>> 64) % 2 ^ 15
  let mntRaw := bits % 2 ^ 64
  let correctHiddenBit := (exp == 0) == ((mntRaw >>> 63) % 2 == 0)
  let mnt := mntRaw % 2 ^ 63
  let conv := Z3Ast.fpFpE (.numeral 1 sign) (.numeral 15 exp) (.numeral 63 mnt)
  if correctHiddenBit then mkF80Arr conv (.fpZeroE 15 64)
  else mkF80Arr conv (.fpNanE 15 64)

/-- Dimensions of the Z3 FP sorts selected by the width switches in the
cast cases (Z3_mk_fpa_sort_16/32/64/128); widths outside the switch leave
the sort unset and the subsequent Z3 call fails. -/
def fpDims (w : Nat) : Option (Nat × Nat) :=
  match w with
  | 16 => some (5, 11)
  | 32 => some (8, 24)
  | 64 => some (11, 53)
  | 128 => some (15, 113)
  | _ => none

/-- readExpr(a, bvZero(1)): the number channel of the F80 encoding. -/
def sel0 (a : Z3Ast) : Z3Ast := .selectE a (bvZero 1)

/-- readExpr(a, bvOne(1)): the unnormal sentinel channel. -/
def sel1 (a : Z3Ast) : Z3Ast := .selectE a (bvOne 1)

/-- The wrongHiddenBit term common to the binary F80 operations:
is_nan of either operand's sentinel channel. -/
def f80Wrong (la ra : Z3Ast) : Z3Ast := .orE (.isNanE (sel1 la)) (.isNanE (sel1 ra))

/-- KLEE Array objects as consumed by the builder. -/
structure ArrayIR where
  name : String
  domain : Nat
  range : Nat
  size : Nat
  isConstantArr : Bool
  constantValues : List Nat
deriving DecidableEq, Repr

mutual

/-- The KLEE expression IR kinds dispatched by constructActual.  The
kinds eliminated by canonicalisation (Ne, Ugt, Uge, Sgt, Sge) are not
representable, which models the UnhandledKind contract.  Constants carry
their width and value; FConstant carries the width and the raw bit
pattern of its APFloat value. -/
inductive Expr where
  | Constant (w v : Nat)
  | FConstant (w bits : Nat)
  | NotOptimized (src : Expr)
  | Read (root : ArrayIR) (updates : UpdList) (index : Expr)
  | Select (cond tExpr fExpr : Expr)
  | FSelect (cond tExpr fExpr : Expr)
  | Concat (left right : Expr)
  | Extract (src : Expr) (offset w : Nat)
  | ZExt (src : Expr) (w : Nat)
  | SExt (src : Expr) (w : Nat)
  | FExt (rm : RM) (src : Expr) (w : Nat)
  | FToU (rm : RM) (src : Expr) (w : Nat)
  | FToS (rm : RM) (src : Expr) (w : Nat)
  | UToF (rm : RM) (src : Expr) (w : Nat)
  | SToF (rm : RM) (src : Expr) (w : Nat)
  | ExplicitFloat (src : Expr)
  | ExplicitInt (src : Expr)
  | FAbs (e : Expr)
  | FpClassify (e : Expr)
  | FIsFinite (e : Expr)
  | FIsNan (e : Expr)
  | FIsInf (e : Expr)
  | FSqrt (rm : RM) (e : Expr)
  | FNearbyInt (rm : RM) (e : Expr)
  | Add (left right : Expr)
  | Sub (left right : Expr)
  | Mul (left right : Expr)
  | UDiv (left right : Expr)
  | SDiv (left right : Expr)
  | URem (left right : Expr)
  | SRem (left right : Expr)
  | Not (e : Expr)
  | And (left right : Expr)
  | Or (left right : Expr)
  | Xor (left right : Expr)
  | Shl (left right : Expr)
  | LShr (left right : Expr)
  | AShr (left right : Expr)
  | FAdd (rm : RM) (left right : Expr)
  | FSub (rm : RM) (left right : Expr)
  | FMul (rm : RM) (left right : Expr)
  | FDiv (rm : RM) (left right : Expr)
  | FRem (left right : Expr)
  | FMin (left right : Expr)
  | FMax (left right : Expr)
  | Eq (left right : Expr)
  | Ult (left right : Expr)
  | Ule (left right : Expr)
  | Slt (left right : Expr)
  | Sle (left right : Expr)
  | FOrd (left right : Expr)
  | FUno (left right : Expr)
  | FUeq (left right : Expr)
  | FOeq (left right : Expr)
  | FUgt (left right : Expr)
  | FOgt (left right : Expr)
  | FUge (left right : Expr)
  | FOge (left right : Expr)
  | FUlt (left right : Expr)
  | FOlt (left right : Expr)
  | FUle (left right : Expr)
  | FOle (left right : Expr)
  | FUne (left right : Expr)
  | FOne (left right : Expr)

/-- UpdateNode chains: a singly linked list of (index, value) writes
layered over the root array. -/
inductive UpdList where
  | nil : UpdList
  | cons (index value : Expr) (rest : UpdList) : UpdList

end

/-- Modelled from the spec: the width declared by each IR node
(klee/Expr.h is not among the translated sources).  Spec sections 3, 4.3
and 4.5: every node carries a positive width, a Read has the range width
of its root, comparisons have width 1, the classification operations
produce a C int (width 32), bit-casts preserve their operand width, casts
and extracts carry their target width and a Concat the sum of its kids'
widths. -/
def getWidth : Expr → Nat
  | .Constant w _ => w
  | .FConstant w _ => w
  | .NotOptimized src => getWidth src
  | .Read root _ _ => root.range
  | .Select _ t _ => getWidth t
  | .FSelect _ t _ => getWidth t
  | .Concat l r => getWidth l + getWidth r
  | .Extract _ _ w => w
  | .ZExt _ w => w
  | .SExt _ w => w
  | .FExt _ _ w => w
  | .FToU _ _ w => w
  | .FToS _ _ w => w
  | .UToF _ _ w => w
  | .SToF _ _ w => w
  | .ExplicitFloat src => getWidth src
  | .ExplicitInt src => getWidth src
  | .FAbs e => getWidth e
  | .FpClassify _ => 32
  | .FIsFinite _ => 32
  | .FIsNan _ => 32
  | .FIsInf _ => 32
  | .FSqrt _ e => getWidth e
  | .FNearbyInt _ e => getWidth e
  | .Add l _ => getWidth l
  | .Sub l _ => getWidth l
  | .Mul l _ => getWidth l
  | .UDiv l _ => getWidth l
  | .SDiv l _ => getWidth l
  | .URem l _ => getWidth l
  | .SRem l _ => getWidth l
  | .Not e => getWidth e
  | .And l _ => getWidth l
  | .Or l _ => getWidth l
  | .Xor l _ => getWidth l
  | .Shl l _ => getWidth l
  | .LShr l _ => getWidth l
  | .AShr l _ => getWidth l
  | .FAdd _ l _ => getWidth l
  | .FSub _ l _ => getWidth l
  | .FMul _ l _ => getWidth l
  | .FDiv _ l _ => getWidth l
  | .FRem l _ => getWidth l
  | .FMin l _ => getWidth l
  | .FMax l _ => getWidth l
  | .Eq _ _ => 1
  | .Ult _ _ => 1
  | .Ule _ _ => 1
  | .Slt _ _ => 1
  | .Sle _ _ => 1
  | .FOrd _ _ => 1
  | .FUno _ _ => 1
  | .FUeq _ _ => 1
  | .FOeq _ _ => 1
  | .FUgt _ _ => 1
  | .FOgt _ _ => 1
  | .FUge _ _ => 1
  | .FOge _ _ => 1
  | .FUlt _ _ => 1
  | .FOlt _ _ => 1
  | .FUle _ _ => 1
  | .FOle _ _ => 1
  | .FUne _ _ => 1
  | .FOne _ _ => 1

/-- Whether an IR node is a ConstantExpr, i.e. whether the
dyn_cast to ConstantExpr at the special-case sites succeeds. -/
def isConstantKind : Expr → Bool
  | .Constant _ _ => true
  | _ => false

/-- The dyn_cast plus power-of-two test shared by the UDiv and URem
cases: a ConstantExpr divisor of width at most 64 whose value is a power
of two yields the index of its single set bit. -/
def powerOfTwoShift : Expr → Option Nat
  | .Constant cw cv =>
    if cw ≤ 64 && isPowerOfTwo64 cv then some (indexOfSingleBit64 cv) else none
  | _ => none

/-- The dyn_cast plus getLimitedValue conversion shared by the three
shift cases: a ConstantExpr shift operand yields its amount as the C++
unsigned cast of getLimitedValue(). -/
def constShiftAmount : Expr → Option Nat
  | .Constant _ cv => some (limited32 cv)
  | _ => none

/-- The dyn_cast to ConstantExpr on the left operand of Eq, yielding
width and value. -/
def constKindVal : Expr → Option (Nat × Nat)
  | .Constant w v => some (w, v)
  | _ => none

/-- Name uniquification in Z3Builder::getInitialArray: the root's name is
truncated so that name plus uid stay within 32 characters; the uid is the
decimal rendering of the array cache size at the time of construction,
which the embedding abstracts as a per-root string (it never affects
sorts or semantics). -/
def uniqueName (root : ArrayIR) (uid : String) : String :=
  root.name.take
    (if root.name.length > 32 - uid.length then 32 - uid.length
     else root.name.length) ++ uid

/-- The loop in Z3Builder::getInitialArray that flushes the values of a
constant array with one store per cell, index i receiving
constantValues[i]. -/
def buildConstWrites (dom rng : Nat) (i : Nat) (vals : List Nat) (acc : Z3Ast) : Z3Ast :=
  match vals with
  | [] => acc
  | v :: vs =>
    buildConstWrites dom rng (i + 1) vs
      (.storeE acc (constantZ3 dom i) (constantZ3 rng v))

/-- Z3Builder::getInitialArray without the cache (the cache stores and
returns exactly this expression). -/
def getInitialArray (uid : String) (root : ArrayIR) : Z3Ast :=
  let base := Z3Ast.constE (uniqueName root uid)
    (.arrS (.bvS root.domain) (.bvS root.range))
  if root.isConstantArr then
    buildConstWrites root.domain root.range 0 root.constantValues base
  else base

mutual

/-- Z3Builder::constructActual, the operator dispatch, with uidOf
abstracting the array-cache counter used for fresh array names.  Cases
where the C++ would hand Z3 an unset sort or fall off a switch (contract
violations or aborts) return none. -/
def constructActual (uidOf : ArrayIR → String) : Expr → Option (Z3Ast × Nat)
  | .Constant w v => some (constantZ3 w v, w)
  | .FConstant w bits =>
    match w with
    | 32 => some (.fpNumeral32 bits, 32)
    | 64 => some (.fpNumeral64 bits, 64)
    | 80 => some (f80ConstArr bits, 80)
    | _ => none
  | .NotOptimized src => constructActual uidOf src
  | .Read root ul idx => do
    let arr ← constructUpdates uidOf root ul
    let (ia, _) ← constructActual uidOf idx
    some (.selectE arr ia, root.range)
  | .Select c t f => do
    let (ca, _) ← constructActual uidOf c
    let (ta, _) ← constructActual uidOf t
    let (fa, wf) ← constructActual uidOf f
    some (.iteE ca ta fa, wf)
  | .FSelect c t f => do
    let (ca, _) ← constructActual uidOf c
    let (ta, _) ← constructActual uidOf t
    let (fa, wf) ← constructActual uidOf f
    some (.iteE ca ta fa, wf)
  | .Concat l r => do
    let (ra, _) ← constructActual uidOf r
    let (la, _) ← constructActual uidOf l
    some (.concatE la ra, getWidth l + getWidth r)
  | .Extract src off w => do
    let (sa, _) ← constructActual uidOf src
    if w = 1 then some (bvBoolExtract sa off, w)
    else some (bvExtract sa (off + w - 1) off, w)
  | .ZExt src w => do
    let (sa, sw) ← constructActual uidOf src
    if sw = 1 then some (.iteE sa (bvOne w) (bvZero w), w)
    else some (.concatE (bvZero (w - sw)) sa, w)
  | .SExt src w => do
    let (sa, sw) ← constructActual uidOf src
    if sw = 1 then some (.iteE sa (bvMinusOne w) (bvZero w), w)
    else some (.signExtE (w - sw) sa, w)
  | .FExt rm src w => do
    let (sa, sw) ← constructActual uidOf src
    if w = 80 then
      some (mkF80Arr (.fpToFpFloatE rm sa 15 64) (.fpZeroE 15 64), w)
    else do
      let (eb, sb) ← fpDims w
      if sw = 80 then
        some (.iteE (.isNanE (sel1 sa)) (.fpNanE eb sb)
          (.fpToFpFloatE rm (sel0 sa) eb sb), w)
      else some (.fpToFpFloatE rm sa eb sb, w)
  | .FToU rm src w => do
    let (sa, sw) ← constructActual uidOf src
    if sw = 80 then
      some (.iteE (.isNanE (sel1 sa)) (bvZero w) (.fpToUbvE rm (sel0 sa) w), w)
    else some (.fpToUbvE rm sa w, w)
  | .FToS rm src w => do
    let (sa, sw) ← constructActual uidOf src
    if sw = 80 then
      -- the source computes num = readExpr(src, bvZero(1)) here but then
      -- passes src itself, i.e. the F80 array, to Z3_mk_fpa_to_sbv
      let wrong := Z3Ast.isNanE (sel1 sa)
      if w = 32 then
        some (.iteE wrong (bvSExtConst 32 int32MinPat) (.fpToSbvE rm sa 32), w)
      else if w = 64 then
        some (.iteE wrong (bvSExtConst 64 int64MinPat) (.fpToSbvE rm sa 64), w)
      else
        some (.iteE wrong (bvZero w) (.fpToSbvE rm sa w), w)
    else some (.fpToSbvE rm sa w, w)
  | .UToF rm src w => do
    let (sa, _) ← constructActual uidOf src
    if w = 80 then
      some (mkF80Arr (.fpToFpUnsignedE rm sa 15 64) (.fpZeroE 15 64), w)
    else do
      let (eb, sb) ← fpDims w
      some (.fpToFpUnsignedE rm sa eb sb, w)
  | .SToF rm src w => do
    let (sa, _) ← constructActual uidOf src
    if w = 80 then
      -- the source calls Z3_mk_fpa_to_fp_unsigned on this path as well
      some (mkF80Arr (.fpToFpUnsignedE rm sa 15 64) (.fpZeroE 15 64), w)
    else do
      let (eb, sb) ← fpDims w
      some (.fpToFpSignedE rm sa eb sb, w)
  | .ExplicitFloat src => do
    let (sa, sw) ← constructActual uidOf src
    if sw = 80 then
      let sign := Z3Ast.extractE 79 79 sa
      let exp := Z3Ast.extractE 78 64 sa
      let hiddenBit := Z3Ast.extractE 63 63 sa
      let mnt := Z3Ast.extractE 62 0 sa
      let correctHiddenBit := Z3Ast.eqE hiddenBit
        (.iteE (.eqE (.bvredorE exp) (bvZero 1)) (bvZero 1) (bvOne 1))
      some (mkF80Arr (.fpToFpBvE (.concatE (.concatE sign exp) mnt) 15 64)
        (.iteE correctHiddenBit (.fpZeroE 15 64) (.fpNanE 15 64)), sw)
    else do
      let (eb, sb) ← fpDims sw
      some (.fpToFpBvE sa eb sb, sw)
  | .ExplicitInt src => do
    let (sa, sw) ← constructActual uidOf src
    let ret := Z3Ast.fpToIeeeBvE sa
    if sw = 80 then
      let sign := Z3Ast.extractE 78 78 ret
      let exp := Z3Ast.extractE 77 63 ret
      let mnt := Z3Ast.extractE 62 0 ret
      let hid := Z3Ast.iteE (.eqE (.bvredorE exp) (bvZero 1)) (bvZero 1) (bvOne 1)
      some (.concatE (.concatE (.concatE sign exp) hid) mnt, sw)
    else some (ret, sw)
  | .FAbs e => do
    let (ea, w) ← constructActual uidOf e
    if w = 80 then
      some (.storeE ea (bvZero 1) (.fpAbsE (sel0 ea)), w)
    else some (.fpAbsE ea, w)
  | .FpClassify e => do
    let (ea, w) ← constructActual uidOf e
    let x := if w = 80 then sel0 ea else ea
    some (.iteE (.isNanE x) (bvSExtConst 32 fpNanC)
      (.iteE (.isInfE x) (bvSExtConst 32 fpInfiniteC)
        (.iteE (.isZeroE x) (bvSExtConst 32 fpZeroC)
          (.iteE (.isSubnormalE x) (bvSExtConst 32 fpSubnormalC)
            (bvSExtConst 32 fpNormalC)))), 32)
  | .FIsFinite e => do
    let (ea, w) ← constructActual uidOf e
    let x := if w = 80 then sel0 ea else ea
    some (.iteE (.orE (.isNanE x) (.isInfE x)) (bvZero 32) (bvOne 32), 32)
  | .FIsNan e => do
    let (ea, w) ← constructActual uidOf e
    let x := if w = 80 then sel0 ea else ea
    some (.iteE (.isNanE x) (bvOne 32) (bvZero 32), 32)
  | .FIsInf e => do
    let (ea, w) ← constructActual uidOf e
    if w = 80 then
      some (.iteE (.isNanE (sel1 ea)) (bvZero 32)
        (.iteE (.isInfE (sel0 ea))
          (.iteE (.isNegE (sel0 ea)) (bvMinusOne 32) (bvOne 32))
          (bvZero 32)), 32)
    else
      some (.iteE (.isInfE ea)
        (.iteE (.isNegE ea) (bvMinusOne 32) (bvOne 32)) (bvZero 32), 32)
  | .FSqrt rm e => do
    let (ea, w) ← constructActual uidOf e
    if w = 80 then
      some (mkF80Arr (.iteE (.isNanE (sel1 ea)) (.fpNanE 15 64)
        (.fpSqrtE rm (sel0 ea))) (.fpZeroE 15 64), w)
    else some (.fpSqrtE rm ea, w)
  | .FNearbyInt rm e => do
    let (ea, w) ← constructActual uidOf e
    if w = 80 then
      some (mkF80Arr (.iteE (.isNanE (sel1 ea)) (.fpNanE 15 64)
        (.fpRoundIntE rm (sel0 ea))) (.fpZeroE 15 64), w)
    else some (.fpRoundIntE rm ea, w)
  | .Add l r => do
    let (la, _) ← constructActual uidOf l
    let (ra, wr) ← constructActual uidOf r
    some (.bvaddE la ra, wr)
  | .Sub l r => do
    let (la, _) ← constructActual uidOf l
    let (ra, wr) ← constructActual uidOf r
    some (.bvsubE la ra, wr)
  | .Mul l r => do
    let (ra, _) ← constructActual uidOf r
    let (la, wl) ← constructActual uidOf l
    some (.bvmulE la ra, wl)
  | .UDiv l r => do
    let (la, wl) ← constructActual uidOf l
    match powerOfTwoShift r with
    | some k => some (bvRightShift wl la k, wl)
    | none => do
      let (ra, wr) ← constructActual uidOf r
      some (.bvudivE la ra, wr)
  | .SDiv l r => do
    let (la, _) ← constructActual uidOf l
    let (ra, wr) ← constructActual uidOf r
    some (.bvsdivE la ra, wr)
  | .URem l r => do
    let (la, wl) ← constructActual uidOf l
    match powerOfTwoShift r with
    | some bits =>
      if bits = 0 then some (bvZero wl, wl)
      else some (.concatE (bvZero (wl - bits)) (bvExtract la (bits - 1) 0), wl)
    | none => do
      let (ra, wr) ← constructActual uidOf r
      some (.bvuremE la ra, wr)
  | .SRem l r => do
    let (la, _) ← constructActual uidOf l
    let (ra, wr) ← constructActual uidOf r
    some (.bvsremE la ra, wr)
  | .Not e => do
    let (ea, w) ← constructActual uidOf e
    if w = 1 then some (.notE ea, w) else some (.bvnotE ea, w)
  | .And l r => do
    let (la, _) ← constructActual uidOf l
    let (ra, wr) ← constructActual uidOf r
    if wr = 1 then some (.andE la ra, wr) else some (.bvandE la ra, wr)
  | .Or l r => do
    let (la, _) ← constructActual uidOf l
    let (ra, wr) ← constructActual uidOf r
    if wr = 1 then some (.orE la ra, wr) else some (.bvorE la ra, wr)
  | .Xor l r => do
    let (la, _) ← constructActual uidOf l
    let (ra, wr) ← constructActual uidOf r
    if wr = 1 then some (.iteE la (.notE ra) ra, wr)
    else some (.bvxorE la ra, wr)
  | .Shl l r => do
    let (la, wl) ← constructActual uidOf l
    match constShiftAmount r with
    | some k => some (bvLeftShift wl la k, wl)
    | none => do
      let (ra, wr) ← constructActual uidOf r
      some (bvVarLeftShift wl wr la ra, wl)
  | .LShr l r => do
    let (la, wl) ← constructActual uidOf l
    match constShiftAmount r with
    | some k => some (bvRightShift wl la k, wl)
    | none => do
      let (ra, wr) ← constructActual uidOf r
      some (bvVarRightShift wl wr la ra, wl)
  | .AShr l r => do
    let (la, wl) ← constructActual uidOf l
    match constShiftAmount r with
    | some k =>
      some (constructAShrByConstant wl la k (bvBoolExtract la (wl - 1)), wl)
    | none => do
      let (ra, wr) ← constructActual uidOf r
      some (bvVarArithRightShift wl wr la ra, wl)
  | .FAdd rm l r => do
    let (la, _) ← constructActual uidOf l
    let (ra, wr) ← constructActual uidOf r
    if wr = 80 then
      some (mkF80Arr (.iteE (f80Wrong la ra) (.fpNanE 15 64)
        (.fpAddE rm (sel0 la) (sel0 ra))) (.fpZeroE 15 64), wr)
    else some (.fpAddE rm la ra, wr)
  | .FSub rm l r => do
    let (la, _) ← constructActual uidOf l
    let (ra, wr) ← constructActual uidOf r
    if wr = 80 then
      some (mkF80Arr (.iteE (f80Wrong la ra) (.fpNanE 15 64)
        (.fpSubE rm (sel0 la) (sel0 ra))) (.fpZeroE 15 64), wr)
    else some (.fpSubE rm la ra, wr)
  | .FMul rm l r => do
    let (la, _) ← constructActual uidOf l
    let (ra, wr) ← constructActual uidOf r
    if wr = 80 then
      some (mkF80Arr (.iteE (f80Wrong la ra) (.fpNanE 15 64)
        (.fpMulE rm (sel0 la) (sel0 ra))) (.fpZeroE 15 64), wr)
    else some (.fpMulE rm la ra, wr)
  | .FDiv rm l r => do
    let (la, _) ← constructActual uidOf l
    let (ra, wr) ← constructActual uidOf r
    if wr = 80 then
      some (mkF80Arr (.iteE (f80Wrong la ra) (.fpNanE 15 64)
        (.fpDivE rm (sel0 la) (sel0 ra))) (.fpZeroE 15 64), wr)
    else some (.fpDivE rm la ra, wr)
  | .FRem l r => do
    let (la, _) ← constructActual uidOf l
    let (ra, wr) ← constructActual uidOf r
    if wr = 80 then
      some (mkF80Arr (.iteE (f80Wrong la ra) (.fpNanE 15 64)
        (.fpRemE (sel0 la) (sel0 ra))) (.fpZeroE 15 64), wr)
    else some (.fpRemE la ra, wr)
  | .FMin l r => do
    let (la, _) ← constructActual uidOf l
    let (ra, wr) ← constructActual uidOf r
    if wr = 80 then
      some (mkF80Arr
        (.iteE (.isNanE (sel1 la))
          (.iteE (.isNanE (sel1 ra)) (sel0 la) (sel0 ra))
          (.iteE (.isNanE (sel1 ra)) (sel0 la) (.fpMinE (sel0 la) (sel0 ra))))
        (.fpZeroE 15 64), wr)
    else some (.fpMinE la ra, wr)
  | .FMax l r => do
    let (la, _) ← constructActual uidOf l
    let (ra, wr) ← constructActual uidOf r
    if wr = 80 then
      some (mkF80Arr
        (.iteE (.isNanE (sel1 la))
          (.iteE (.isNanE (sel1 ra)) (sel0 la) (sel0 ra))
          (.iteE (.isNanE (sel1 ra)) (sel0 la) (.fpMaxE (sel0 la) (sel0 ra))))
        (.fpZeroE 15 64), wr)
    else some (.fpMaxE la ra, wr)
  | .Eq l r => do
    let (la, _) ← constructActual uidOf l
    let (ra, wr) ← constructActual uidOf r
    if wr = 1 then
      match constKindVal l with
      | some (cw, cv) =>
        if cw = 1 && cv = 1 then some (ra, 1) else some (.notE ra, 1)
      | none => some (.iffE la ra, 1)
    else some (.eqE la ra, 1)
  | .Ult l r => do
    let (la, _) ← constructActual uidOf l
    let (ra, _) ← constructActual uidOf r
    some (.bvultE la ra, 1)
  | .Ule l r => do
    let (la, _) ← constructActual uidOf l
    let (ra, _) ← constructActual uidOf r
    some (.bvuleE la ra, 1)
  | .Slt l r => do
    let (la, _) ← constructActual uidOf l
    let (ra, _) ← constructActual uidOf r
    some (.bvsltE la ra, 1)
  | .Sle l r => do
    let (la, _) ← constructActual uidOf l
    let (ra, _) ← constructActual uidOf r
    some (.bvsleE la ra, 1)
  | .FOrd l r => do
    let (la, _) ← constructActual uidOf l
    let (ra, wr) ← constructActual uidOf r
    if wr = 80 then
      some (.andE (.notE (.isNanE (sel0 la))) (.notE (.isNanE (sel0 ra))), 1)
    else some (.andE (.notE (.isNanE la)) (.notE (.isNanE ra)), 1)
  | .FUno l r => do
    let (la, _) ← constructActual uidOf l
    let (ra, wr) ← constructActual uidOf r
    if wr = 80 then
      some (.orE (.isNanE (sel0 la)) (.isNanE (sel0 ra)), 1)
    else some (.orE (.isNanE la) (.isNanE ra), 1)
  | .FUeq l r => do
    let (la, _) ← constructActual uidOf l
    let (ra, wr) ← constructActual uidOf r
    if wr = 80 then
      some (.andE (.notE (f80Wrong la ra))
        (.orE3 (.isNanE (sel0 la)) (.isNanE (sel0 ra))
          (.fpEqE (sel0 la) (sel0 ra))), 1)
    else some (.orE3 (.isNanE la) (.isNanE ra) (.fpEqE la ra), 1)
  | .FOeq l r => do
    let (la, _) ← constructActual uidOf l
    let (ra, wr) ← constructActual uidOf r
    if wr = 80 then
      some (.andE (.notE (f80Wrong la ra)) (.fpEqE (sel0 la) (sel0 ra)), 1)
    else some (.fpEqE la ra, 1)
  | .FUgt l r => do
    let (la, _) ← constructActual uidOf l
    let (ra, wr) ← constructActual uidOf r
    if wr = 80 then
      some (.andE (.notE (f80Wrong la ra))
        (.orE3 (.isNanE (sel0 la)) (.isNanE (sel0 ra))
          (.fpGtE (sel0 la) (sel0 ra))), 1)
    else some (.orE3 (.isNanE la) (.isNanE ra) (.fpGtE la ra), 1)
  | .FOgt l r => do
    let (la, _) ← constructActual uidOf l
    let (ra, wr) ← constructActual uidOf r
    if wr = 80 then
      some (.andE (.notE (f80Wrong la ra)) (.fpGtE (sel0 la) (sel0 ra)), 1)
    else some (.fpGtE la ra, 1)
  | .FUge l r => do
    let (la, _) ← constructActual uidOf l
    let (ra, wr) ← constructActual uidOf r
    if wr = 80 then
      some (.andE (.notE (f80Wrong la ra))
        (.orE3 (.isNanE (sel0 la)) (.isNanE (sel0 ra))
          (.fpGeqE (sel0 la) (sel0 ra))), 1)
    else some (.orE3 (.isNanE la) (.isNanE ra) (.fpGeqE la ra), 1)
  | .FOge l r => do
    let (la, _) ← constructActual uidOf l
    let (ra, wr) ← constructActual uidOf r
    if wr = 80 then
      some (.andE (.notE (f80Wrong la ra)) (.fpGeqE (sel0 la) (sel0 ra)), 1)
    else some (.fpGeqE la ra, 1)
  | .FUlt l r => do
    let (la, _) ← constructActual uidOf l
    let (ra, wr) ← constructActual uidOf r
    if wr = 80 then
      some (.andE (.notE (f80Wrong la ra))
        (.orE3 (.isNanE (sel0 la)) (.isNanE (sel0 ra))
          (.fpLtE (sel0 la) (sel0 ra))), 1)
    else some (.orE3 (.isNanE la) (.isNanE ra) (.fpLtE la ra), 1)
  | .FOlt l r => do
    let (la, _) ← constructActual uidOf l
    let (ra, wr) ← constructActual uidOf r
    if wr = 80 then
      some (.andE (.notE (f80Wrong la ra)) (.fpLtE (sel0 la) (sel0 ra)), 1)
    else some (.fpLtE la ra, 1)
  | .FUle l r => do
    let (la, _) ← constructActual uidOf l
    let (ra, wr) ← constructActual uidOf r
    if wr = 80 then
      some (.andE (.notE (f80Wrong la ra))
        (.orE3 (.isNanE (sel0 la)) (.isNanE (sel0 ra))
          (.fpLeqE (sel0 la) (sel0 ra))), 1)
    else some (.orE3 (.isNanE la) (.isNanE ra) (.fpLeqE la ra), 1)
  | .FOle l r => do
    let (la, _) ← constructActual uidOf l
    let (ra, wr) ← constructActual uidOf r
    if wr = 80 then
      some (.andE (.notE (f80Wrong la ra)) (.fpLeqE (sel0 la) (sel0 ra)), 1)
    else some (.fpLeqE la ra, 1)
  | .FUne l r => do
    let (la, _) ← constructActual uidOf l
    let (ra, wr) ← constructActual uidOf r
    if wr = 80 then
      some (.orE (f80Wrong la ra) (.notE (.fpEqE (sel0 la) (sel0 ra))), 1)
    else some (.notE (.fpEqE la ra), 1)
  | .FOne l r => do
    let (la, _) ← constructActual uidOf l
    let (ra, wr) ← constructActual uidOf r
    if wr = 80 then
      some (.orE (f80Wrong la ra)
        (.notE (.orE3 (.isNanE (sel0 la)) (.isNanE (sel0 ra))
          (.fpEqE (sel0 la) (sel0 ra)))), 1)
    else
      some (.notE (.orE3 (.isNanE la) (.isNanE ra) (.fpEqE la ra)), 1)

/-- Z3Builder::getArrayForUpdate without the per-node cache (which stores
and returns exactly this expression). -/
def constructUpdates (uidOf : ArrayIR → String) (root : ArrayIR) :
    UpdList → Option Z3Ast
  | .nil => some (getInitialArray (uidOf root) root)
  | .cons i v rest => do
    let arr ← constructUpdates uidOf root rest
    let (ia, _) ← constructActual uidOf i
    let (va, _) ← constructActual uidOf v
    some (.storeE arr ia va)

end

/-- Z3Builder::construct, the memoised entry point.  The construct cache
stores and returns exactly the pair produced by constructActual, so at
the logical level (and with hash consing disabled, literally) construct
coincides with constructActual. -/
def construct (uidOf : ArrayIR → String) (e : Expr) : Option (Z3Ast × Nat) :=
  constructActual uidOf e

/-- Sort of an and/or/iff argument pair: both Boolean. -/
def boolBinS : Option Z3Sort → Option Z3Sort → Option Z3Sort
  | some .boolS, some .boolS => some .boolS
  | _, _ => none

/-- Sort of a binary bitvector operation: both arguments bitvectors of
the same width. -/
def bvBinS : Option Z3Sort → Option Z3Sort → Option Z3Sort
  | some (.bvS w), some (.bvS w') => if w = w' then some (.bvS w) else none
  | _, _ => none

/-- Sort of a bitvector comparison: Boolean when the arguments agree. -/
def bvCmpS (a b : Option Z3Sort) : Option Z3Sort :=
  match bvBinS a b with
  | some _ => some .boolS
  | none => none

/-- Sort of an FP classification predicate: Boolean on an FP argument. -/
def fpPredS : Option Z3Sort → Option Z3Sort
  | some (.fpS _ _) => some .boolS
  | _ => none

/-- Sort of a unary FP operation. -/
def fpUnS : Option Z3Sort → Option Z3Sort
  | some (.fpS e s) => some (.fpS e s)
  | _ => none

/-- Sort of a binary FP operation: both arguments of the same FP sort. -/
def fpBinS : Option Z3Sort → Option Z3Sort → Option Z3Sort
  | some (.fpS e s), some (.fpS e' s') =>
    if e = e' ∧ s = s' then some (.fpS e s) else none
  | _, _ => none

/-- Sort of an FP comparison: Boolean when the FP sorts agree. -/
def fpCmpS (a b : Option Z3Sort) : Option Z3Sort :=
  match fpBinS a b with
  | some _ => some .boolS
  | none => none

/-- Sort inference for the embedded Z3 AST: the sort Z3's term
constructors would assign, with none where Z3 would reject the
application (its error handler then aborts the process).  Bitvector sorts
must have positive width. -/
def sortOf : Z3Ast → Option Z3Sort
  | .trueE => some .boolS
  | .falseE => some .boolS
  | .numeral w _ => if 0 < w then some (.bvS w) else none
  | .fpNumeral32 _ => some (.fpS 8 24)
  | .fpNumeral64 _ => some (.fpS 11 53)
  | .constE _ s => some s
  | .eqE a b =>
    match sortOf a, sortOf b with
    | some sa, some sb => if sa = sb then some .boolS else none
    | _, _ => none
  | .notE a =>
    match sortOf a with
    | some .boolS => some .boolS
    | _ => none
  | .andE a b => boolBinS (sortOf a) (sortOf b)
  | .orE a b => boolBinS (sortOf a) (sortOf b)
  | .orE3 a b c => boolBinS (sortOf a) (boolBinS (sortOf b) (sortOf c))
  | .iffE a b => boolBinS (sortOf a) (sortOf b)
  | .iteE c a b =>
    match sortOf c, sortOf a, sortOf b with
    | some .boolS, some sa, some sb => if sa = sb then some sa else none
    | _, _, _ => none
  | .bvnotE a =>
    match sortOf a with
    | some (.bvS w) => some (.bvS w)
    | _ => none
  | .bvandE a b => bvBinS (sortOf a) (sortOf b)
  | .bvorE a b => bvBinS (sortOf a) (sortOf b)
  | .bvxorE a b => bvBinS (sortOf a) (sortOf b)
  | .bvredorE a =>
    match sortOf a with
    | some (.bvS _) => some (.bvS 1)
    | _ => none
  | .bvaddE a b => bvBinS (sortOf a) (sortOf b)
  | .bvsubE a b => bvBinS (sortOf a) (sortOf b)
  | .bvmulE a b => bvBinS (sortOf a) (sortOf b)
  | .bvudivE a b => bvBinS (sortOf a) (sortOf b)
  | .bvsdivE a b => bvBinS (sortOf a) (sortOf b)
  | .bvuremE a b => bvBinS (sortOf a) (sortOf b)
  | .bvsremE a b => bvBinS (sortOf a) (sortOf b)
  | .bvultE a b => bvCmpS (sortOf a) (sortOf b)
  | .bvuleE a b => bvCmpS (sortOf a) (sortOf b)
  | .bvsltE a b => bvCmpS (sortOf a) (sortOf b)
  | .bvsleE a b => bvCmpS (sortOf a) (sortOf b)
  | .extractE hi lo a =>
    match sortOf a with
    | some (.bvS w) => if hi < w ∧ lo ≤ hi then some (.bvS (hi - lo + 1)) else none
    | _ => none
  | .concatE a b =>
    match sortOf a, sortOf b with
    | some (.bvS w1), some (.bvS w2) => some (.bvS (w1 + w2))
    | _, _ => none
  | .signExtE i a =>
    match sortOf a with
    | some (.bvS w) => some (.bvS (w + i))
    | _ => none
  | .storeE a i v =>
    match sortOf a, sortOf i, sortOf v with
    | some (.arrS d r), some si, some sv =>
      if si = d ∧ sv = r then some (.arrS d r) else none
    | _, _, _ => none
  | .selectE a i =>
    match sortOf a, sortOf i with
    | some (.arrS d r), some si => if si = d then some r else none
    | _, _ => none
  | .isNanE a => fpPredS (sortOf a)
  | .isInfE a => fpPredS (sortOf a)
  | .isZeroE a => fpPredS (sortOf a)
  | .isSubnormalE a => fpPredS (sortOf a)
  | .isNegE a => fpPredS (sortOf a)
  | .fpAbsE a => fpUnS (sortOf a)
  | .fpSqrtE _ a => fpUnS (sortOf a)
  | .fpRoundIntE _ a => fpUnS (sortOf a)
  | .fpAddE _ a b => fpBinS (sortOf a) (sortOf b)
  | .fpSubE _ a b => fpBinS (sortOf a) (sortOf b)
  | .fpMulE _ a b => fpBinS (sortOf a) (sortOf b)
  | .fpDivE _ a b => fpBinS (sortOf a) (sortOf b)
  | .fpRemE a b => fpBinS (sortOf a) (sortOf b)
  | .fpMinE a b => fpBinS (sortOf a) (sortOf b)
  | .fpMaxE a b => fpBinS (sortOf a) (sortOf b)
  | .fpEqE a b => fpCmpS (sortOf a) (sortOf b)
  | .fpLtE a b => fpCmpS (sortOf a) (sortOf b)
  | .fpLeqE a b => fpCmpS (sortOf a) (sortOf b)
  | .fpGtE a b => fpCmpS (sortOf a) (sortOf b)
  | .fpGeqE a b => fpCmpS (sortOf a) (sortOf b)
  | .fpNanE e s => some (.fpS e s)
  | .fpZeroE e s => some (.fpS e s)
  | .fpFpE sign exp sig =>
    match sortOf sign, sortOf exp, sortOf sig with
    | some (.bvS 1), some (.bvS e), some (.bvS m) => some (.fpS e (m + 1))
    | _, _, _ => none
  | .fpToFpBvE a e s =>
    match sortOf a with
    | some (.bvS w) => if w = e + s then some (.fpS e s) else none
    | _ => none
  | .fpToFpFloatE _ a e s =>
    match sortOf a with
    | some (.fpS _ _) => some (.fpS e s)
    | _ => none
  | .fpToFpSignedE _ a e s =>
    match sortOf a with
    | some (.bvS _) => some (.fpS e s)
    | _ => none
  | .fpToFpUnsignedE _ a e s =>
    match sortOf a with
    | some (.bvS _) => some (.fpS e s)
    | _ => none
  | .fpToUbvE _ a w =>
    match sortOf a with
    | some (.fpS _ _) => if 0 < w then some (.bvS w) else none
    | _ => none
  | .fpToSbvE _ a w =>
    match sortOf a with
    | some (.fpS _ _) => if 0 < w then some (.bvS w) else none
    | _ => none
  | .fpToIeeeBvE a =>
    match sortOf a with
    | some (.fpS e s) => some (.bvS (e + s))
    | _ => none

/-- Values of the FP sorts, as far as the evaluator needs them: the
canonical NaN, positive zero, and a bit-pattern value (sign, biased
exponent, stored significand without the hidden bit). -/
inductive FPVal where
  | nanV (ebits sbits : Nat)
  | zeroV (ebits sbits : Nat)
  | bitsV (ebits sbits : Nat) (sign exp sig : Nat)
deriving DecidableEq, Repr

namespace FPVal

/-- NaN test: the nan constant, or a bit pattern with all-ones exponent
and nonzero significand. -/
def isNanV : FPVal → Bool
  | .nanV _ _ => true
  | .zeroV _ _ => false
  | .bitsV e _ _ exp sig => exp == 2 ^ e - 1 && sig != 0

/-- Infinity test: all-ones exponent with zero significand. -/
def isInfV : FPVal → Bool
  | .bitsV e _ _ exp sig => exp == 2 ^ e - 1 && sig == 0
  | _ => false

/-- Zero test. -/
def isZeroV : FPVal → Bool
  | .zeroV _ _ => true
  | .bitsV _ _ _ exp sig => exp == 0 && sig == 0
  | _ => false

/-- Subnormal test: zero exponent with nonzero significand. -/
def isSubnormalV : FPVal → Bool
  | .bitsV _ _ _ exp sig => exp == 0 && sig != 0
  | _ => false

/-- Sign test (negative). -/
def isNegV : FPVal → Bool
  | .bitsV _ _ sign _ _ => sign != 0
  | _ => false

/-- Absolute value: clear the sign. -/
def absV : FPVal → FPVal
  | .nanV e s => .nanV e s
  | .zeroV e s => .zeroV e s
  | .bitsV e s _ exp sig => .bitsV e s 0 exp sig

/-- Comparison key for IEEE equality within one sort: none for NaN, the
two zeros collapse to one key, and any other value is uniquely
represented by its bit pattern. -/
def key : FPVal → Option (Bool × Nat × Nat)
  | .nanV _ _ => none
  | .zeroV _ _ => some (false, 0, 0)
  | .bitsV e _ sign exp sig =>
    if exp == 2 ^ e - 1 && sig != 0 then none
    else if exp = 0 ∧ sig = 0 then some (false, 0, 0)
    else some (sign != 0, exp, sig)

end FPVal

/-- Values of the evaluator: Booleans, bitvector values of a width (kept
reduced below 2^width), FP values, and arrays as partial maps from index
values. -/
inductive Value where
  | boolV (b : Bool)
  | bvV (w v : Nat)
  | fpV (f : FPVal)
  | arrV (f : Nat → Option Value)

/-- Environments give values to the free constants of a term. -/
def Env := String → Z3Sort → Option Value

/-- Kleene disjunction on partially evaluated Booleans: sound for Z3's or
since a true disjunct decides the disjunction. -/
def orK : Option Value → Option Value → Option Value
  | some (.boolV true), _ => some (.boolV true)
  | _, some (.boolV true) => some (.boolV true)
  | some (.boolV false), some (.boolV false) => some (.boolV false)
  | _, _ => none

/-- Kleene conjunction. -/
def andK : Option Value → Option Value → Option Value
  | some (.boolV false), _ => some (.boolV false)
  | _, some (.boolV false) => some (.boolV false)
  | some (.boolV true), some (.boolV true) => some (.boolV true)
  | _, _ => none

/-- Boolean negation on a partially evaluated value. -/
def notK : Option Value → Option Value
  | some (.boolV b) => some (.boolV (!b))
  | _ => none

/-- Lift a width-indexed binary operation to bitvector values of equal
width. -/
def bvOp2 (f : Nat → Nat → Nat → Nat) : Option Value → Option Value → Option Value
  | some (.bvV w x), some (.bvV w' y) =>
    if w = w' then some (.bvV w (f w x y)) else none
  | _, _ => none

/-- Lift a relation to bitvector values of equal width. -/
def bvRel2 (f : Nat → Nat → Bool) : Option Value → Option Value → Option Value
  | some (.bvV w x), some (.bvV w' y) =>
    if w = w' then some (.boolV (f x y)) else none
  | _, _ => none

/-- Two's-complement reading of a width-w bitvector value. -/
def toIntW (w v : Nat) : Int :=
  if v < 2 ^ (w - 1) then (v : Int) else (v : Int) - 2 ^ w

/-- Lift an FP predicate. -/
def fpPred (f : FPVal → Bool) : Option Value → Option Value
  | some (.fpV x) => some (.boolV (f x))
  | _ => none

/-- Partial evaluator for the embedded Z3 AST.  It returns none for the
FP arithmetic operators (whose rounding behaviour the claims never
evaluate) and follows SMT-LIB semantics elsewhere: division by zero is
all-ones, remainder by zero is the dividend, numerals reduce modulo their
sort width. -/
def eval (env : Env) : Z3Ast → Option Value
  | .trueE => some (.boolV true)
  | .falseE => some (.boolV false)
  | .numeral w v => some (.bvV w (v % 2 ^ w))
  | .fpNumeral32 _ => none
  | .fpNumeral64 _ => none
  | .constE n s => env n s
  | .eqE a b =>
    match eval env a, eval env b with
    | some (.boolV x), some (.boolV y) => some (.boolV (x == y))
    | some (.bvV w x), some (.bvV w' y) =>
      if w = w' then some (.boolV (x == y)) else none
    | _, _ => none
  | .notE a => notK (eval env a)
  | .andE a b => andK (eval env a) (eval env b)
  | .orE a b => orK (eval env a) (eval env b)
  | .orE3 a b c => orK (eval env a) (orK (eval env b) (eval env c))
  | .iffE a b =>
    match eval env a, eval env b with
    | some (.boolV x), some (.boolV y) => some (.boolV (x == y))
    | _, _ => none
  | .iteE c a b =>
    match eval env c with
    | some (.boolV true) => eval env a
    | some (.boolV false) => eval env b
    | _ => none
  | .bvnotE a =>
    match eval env a with
    | some (.bvV w v) => some (.bvV w (2 ^ w - 1 - v))
    | _ => none
  | .bvandE a b => bvOp2 (fun _ x y => x &&& y) (eval env a) (eval env b)
  | .bvorE a b => bvOp2 (fun _ x y => x ||| y) (eval env a) (eval env b)
  | .bvxorE a b => bvOp2 (fun _ x y => x ^^^ y) (eval env a) (eval env b)
  | .bvredorE a =>
    match eval env a with
    | some (.bvV _ v) => some (.bvV 1 (if v = 0 then 0 else 1))
    | _ => none
  | .bvaddE a b => bvOp2 (fun w x y => (x + y) % 2 ^ w) (eval env a) (eval env b)
  | .bvsubE a b => bvOp2 (fun w x y => (x + (2 ^ w - y)) % 2 ^ w) (eval env a) (eval env b)
  | .bvmulE a b => bvOp2 (fun w x y => x * y % 2 ^ w) (eval env a) (eval env b)
  | .bvudivE a b =>
    bvOp2 (fun w x y => if y = 0 then 2 ^ w - 1 else x / y) (eval env a) (eval env b)
  | .bvsdivE _ _ => none
  | .bvuremE a b =>
    bvOp2 (fun _ x y => if y = 0 then x else x % y) (eval env a) (eval env b)
  | .bvsremE _ _ => none
  | .bvultE a b => bvRel2 (fun x y => decide (x < y)) (eval env a) (eval env b)
  | .bvuleE a b => bvRel2 (fun x y => decide (x ≤ y)) (eval env a) (eval env b)
  | .bvsltE a b =>
    match eval env a, eval env b with
    | some (.bvV w x), some (.bvV w' y) =>
      if w = w' then some (.boolV (decide (toIntW w x < toIntW w y))) else none
    | _, _ => none
  | .bvsleE a b =>
    match eval env a, eval env b with
    | some (.bvV w x), some (.bvV w' y) =>
      if w = w' then some (.boolV (decide (toIntW w x ≤ toIntW w y))) else none
    | _, _ => none
  | .extractE hi lo a =>
    match eval env a with
    | some (.bvV w v) =>
      if hi < w ∧ lo ≤ hi then some (.bvV (hi - lo + 1) ((v >>> lo) % 2 ^ (hi - lo + 1)))
      else none
    | _ => none
  | .concatE a b =>
    match eval env a, eval env b with
    | some (.bvV w1 x), some (.bvV w2 y) => some (.bvV (w1 + w2) (x * 2 ^ w2 + y))
    | _, _ => none
  | .signExtE i a =>
    match eval env a with
    | some (.bvV w v) =>
      some (.bvV (w + i) (v + if v < 2 ^ (w - 1) then 0 else 2 ^ (w + i) - 2 ^ w))
    | _ => none
  | .storeE a i v =>
    match eval env a, eval env i, eval env v with
    | some (.arrV f), some (.bvV _ n), some vv =>
      some (.arrV (fun m => if m = n then some vv else f m))
    | _, _, _ => none
  | .selectE a i =>
    match eval env a, eval env i with
    | some (.arrV f), some (.bvV _ n) => f n
    | _, _ => none
  | .isNanE a => fpPred FPVal.isNanV (eval env a)
  | .isInfE a => fpPred FPVal.isInfV (eval env a)
  | .isZeroE a => fpPred FPVal.isZeroV (eval env a)
  | .isSubnormalE a => fpPred FPVal.isSubnormalV (eval env a)
  | .isNegE a => fpPred FPVal.isNegV (eval env a)
  | .fpAbsE a =>
    match eval env a with
    | some (.fpV x) => some (.fpV x.absV)
    | _ => none
  | .fpSqrtE _ _ => none
  | .fpRoundIntE _ _ => none
  | .fpAddE _ _ _ => none
  | .fpSubE _ _ _ => none
  | .fpMulE _ _ _ => none
  | .fpDivE _ _ _ => none
  | .fpRemE _ _ => none
  | .fpMinE _ _ => none
  | .fpMaxE _ _ => none
  | .fpEqE a b =>
    match eval env a, eval env b with
    | some (.fpV x), some (.fpV y) =>
      match x.key, y.key with
      | some kx, some ky => some (.boolV (decide (kx = ky)))
      | _, _ => some (.boolV false)
    | _, _ => none
  | .fpLtE _ _ => none
  | .fpLeqE _ _ => none
  | .fpGtE _ _ => none
  | .fpGeqE _ _ => none
  | .fpNanE e s => some (.fpV (.nanV e s))
  | .fpZeroE e s => some (.fpV (.zeroV e s))
  | .fpFpE sign exp sig =>
    match eval env sign, eval env exp, eval env sig with
    | some (.bvV 1 sv), some (.bvV eb ev), some (.bvV mb mv) =>
      some (.fpV (.bitsV eb (mb + 1) sv ev mv))
    | _, _, _ => none
  | .fpToFpBvE _ _ _ => none
  | .fpToFpFloatE _ _ _ _ => none
  | .fpToFpSignedE _ _ _ _ => none
  | .fpToFpUnsignedE _ _ _ _ => none
  | .fpToUbvE _ _ _ => none
  | .fpToSbvE _ _ _ => none
  | .fpToIeeeBvE _ => none

/-- A fixed uid assignment for concrete instances (the array-name counter
never influences sorts or semantics). -/
def uidOf0 : ArrayIR → String := fun _ => "0"

/-- An environment giving every free constant an initially unconstrained
array value, enough to evaluate the F80 encodings of concrete inputs. -/
def env0 : Env := fun _ _ => some (.arrV fun _ => none)

/-- Chunk list (width, value) of a wide constant, low to high, as the
spec words it: the low 64 bits first, then further chunks of 64 bits
while more than 64 bits remain, the final chunk sized to the
remainder. -/
def specChunks (w v : Nat) : List (Nat × Nat) :=
  if 64 < w then (64, v % 2 ^ 64) :: specChunks (w - 64) (v >>> 64)
  else [(w, v)]
termination_by w

/-- Assembly of a low-to-high chunk list: start from the low chunk's
numeral and concatenate each further chunk's numeral on the high side. -/
def assembleChunks : List (Nat × Nat) → Z3Ast
  | [] => bvConst64 0 0
  | c :: cs =>
    cs.foldl (fun acc ch => .concatE (bvConst64 ch.1 ch.2) acc) (bvConst64 c.1 c.2)

/-- Chunks emitted by the iterations of the wide-constant loop (all but
the initial low 64 bits). -/
def tailChunks (w v : Nat) : List (Nat × Nat) :=
  if 64 < w then
    (min 64 (w - 64), (v >>> 64) % 2 ^ min 64 (w - 64)) :: tailChunks (w - 64) (v >>> 64)
  else []
termination_by w

/-- The sort of a float-valued result of a given width: the native FP
sorts for 16, 32, 64 and 128 bits and the array encoding for 80 bits. -/
def floatOutSort (w : Nat) : Z3Sort :=
  match w with
  | 16 => .fpS 5 11
  | 32 => .fpS 8 24
  | 64 => .fpS 11 53
  | 80 => f80ArrSort
  | 128 => .fpS 15 113
  | _ => .boolS

/-- The sort that constructActual is expected to give the translation of
a node: Boolean for width-1 results, the FP or F80-array sorts for
float-valued nodes, and otherwise a bitvector of the node's width. -/
def outSort : Expr → Z3Sort
  | .Constant w _ => if w = 1 then .boolS else .bvS w
  | .FConstant w _ => floatOutSort w
  | .NotOptimized s => outSort s
  | .Read root _ _ => .bvS root.range
  | .Select _ t _ => outSort t
  | .FSelect _ t _ => outSort t
  | .Concat l r => .bvS (getWidth l + getWidth r)
  | .Extract _ _ w => if w = 1 then .boolS else .bvS w
  | .ZExt _ w => .bvS w
  | .SExt _ w => .bvS w
  | .FExt _ _ w => floatOutSort w
  | .FToU _ _ w => .bvS w
  | .FToS _ _ w => .bvS w
  | .UToF _ _ w => floatOutSort w
  | .SToF _ _ w => floatOutSort w
  | .ExplicitFloat src => floatOutSort (getWidth src)
  | .ExplicitInt src => .bvS (getWidth src)
  | .FAbs e => floatOutSort (getWidth e)
  | .FpClassify _ => .bvS 32
  | .FIsFinite _ => .bvS 32
  | .FIsNan _ => .bvS 32
  | .FIsInf _ => .bvS 32
  | .FSqrt _ e => floatOutSort (getWidth e)
  | .FNearbyInt _ e => floatOutSort (getWidth e)
  | .Add l _ => .bvS (getWidth l)
  | .Sub l _ => .bvS (getWidth l)
  | .Mul l _ => .bvS (getWidth l)
  | .UDiv l _ => .bvS (getWidth l)
  | .SDiv l _ => .bvS (getWidth l)
  | .URem l _ => .bvS (getWidth l)
  | .SRem l _ => .bvS (getWidth l)
  | .Not e => if getWidth e = 1 then .boolS else .bvS (getWidth e)
  | .And l _ => if getWidth l = 1 then .boolS else .bvS (getWidth l)
  | .Or l _ => if getWidth l = 1 then .boolS else .bvS (getWidth l)
  | .Xor l _ => if getWidth l = 1 then .boolS else .bvS (getWidth l)
  | .Shl l _ => .bvS (getWidth l)
  | .LShr l _ => .bvS (getWidth l)
  | .AShr l _ => .bvS (getWidth l)
  | .FAdd _ l _ => floatOutSort (getWidth l)
  | .FSub _ l _ => floatOutSort (getWidth l)
  | .FMul _ l _ => floatOutSort (getWidth l)
  | .FDiv _ l _ => floatOutSort (getWidth l)
  | .FRem l _ => floatOutSort (getWidth l)
  | .FMin l _ => floatOutSort (getWidth l)
  | .FMax l _ => floatOutSort (getWidth l)
  | .Eq _ _ => .boolS
  | .Ult _ _ => .boolS
  | .Ule _ _ => .boolS
  | .Slt _ _ => .boolS
  | .Sle _ _ => .boolS
  | .FOrd _ _ => .boolS
  | .FUno _ _ => .boolS
  | .FUeq _ _ => .boolS
  | .FOeq _ _ => .boolS
  | .FUgt _ _ => .boolS
  | .FOgt _ _ => .boolS
  | .FUge _ _ => .boolS
  | .FOge _ _ => .boolS
  | .FUlt _ _ => .boolS
  | .FOlt _ _ => .boolS
  | .FUle _ _ => .boolS
  | .FOle _ _ => .boolS
  | .FUne _ _ => .boolS
  | .FOne _ _ => .boolS

/-- The bit width a sort stands for: 1 for Boolean, the width of a
bitvector, ebits + sbits for an FP sort, and 80 for the array sort (the
only array sort a node result carries is the F80 encoding). -/
def sortWidth : Z3Sort → Nat
  | .boolS => 1
  | .bvS w => w
  | .fpS e s => e + s
  | .arrS _ _ => 80

mutual

/-- Well-formedness of IR nodes: the width and sort constraints the IR
guarantees before the builder runs (canonicalisation, equal operand
widths, positive widths, float widths among 32/64/80, cast targets among
the handled widths, constants within range).  It also excludes the two
paths on which the C++ hands Z3 an ill-sorted application and aborts:
ExplicitInt of an 80-bit float and FToS from an 80-bit float. -/
def wfB : Expr → Bool
  | .Constant w v => decide (0 < w) && decide (v < 2 ^ w)
  | .FConstant w _ => decide (w = 32 ∨ w = 64 ∨ w = 80)
  | .NotOptimized s => wfB s
  | .Read root ul idx =>
    wfB idx && wfUB root ul && (outSort idx == .bvS root.domain) &&
    decide (0 < root.domain) && decide (root.domain ≠ 1) &&
    decide (0 < root.range) && decide (root.range ≠ 1)
  | .Select c t f =>
    wfB c && wfB t && wfB f && (outSort c == .boolS) &&
    (outSort t == outSort f) && (getWidth t == getWidth f)
  | .FSelect c t f =>
    wfB c && wfB t && wfB f && (outSort c == .boolS) &&
    (outSort t == outSort f) && (getWidth t == getWidth f)
  | .Concat l r =>
    wfB l && wfB r && (outSort l == .bvS (getWidth l)) &&
    (outSort r == .bvS (getWidth r))
  | .Extract src off w =>
    wfB src && (outSort src == .bvS (getWidth src)) && decide (0 < w) &&
    decide (off + w ≤ getWidth src)
  | .ZExt src w =>
    wfB src && decide (getWidth src < w) &&
    (outSort src == (if getWidth src = 1 then .boolS else .bvS (getWidth src)))
  | .SExt src w =>
    wfB src && decide (getWidth src < w) &&
    (outSort src == (if getWidth src = 1 then .boolS else .bvS (getWidth src)))
  | .FExt _ src w =>
    wfB src && decide (getWidth src = 32 ∨ getWidth src = 64 ∨ getWidth src = 80) &&
    (outSort src == floatOutSort (getWidth src)) &&
    decide (w = 16 ∨ w = 32 ∨ w = 64 ∨ w = 80 ∨ w = 128) &&
    decide (¬ (w = 80 ∧ getWidth src = 80))
  | .FToU _ src w =>
    wfB src && decide (getWidth src = 32 ∨ getWidth src = 64 ∨ getWidth src = 80) &&
    (outSort src == floatOutSort (getWidth src)) && decide (1 < w)
  | .FToS _ src w =>
    wfB src && decide (getWidth src = 32 ∨ getWidth src = 64) &&
    (outSort src == floatOutSort (getWidth src)) && decide (1 < w)
  | .UToF _ src w =>
    wfB src && decide (getWidth src ≠ 1) && (outSort src == .bvS (getWidth src)) &&
    decide (w = 16 ∨ w = 32 ∨ w = 64 ∨ w = 80 ∨ w = 128)
  | .SToF _ src w =>
    wfB src && decide (getWidth src ≠ 1) && (outSort src == .bvS (getWidth src)) &&
    decide (w = 16 ∨ w = 32 ∨ w = 64 ∨ w = 80 ∨ w = 128)
  | .ExplicitFloat src =>
    wfB src && (outSort src == .bvS (getWidth src)) &&
    decide (getWidth src = 16 ∨ getWidth src = 32 ∨ getWidth src = 64 ∨
      getWidth src = 80 ∨ getWidth src = 128)
  | .ExplicitInt src =>
    wfB src && decide (getWidth src = 32 ∨ getWidth src = 64) &&
    (outSort src == floatOutSort (getWidth src))
  | .FAbs e =>
    wfB e && decide (getWidth e = 32 ∨ getWidth e = 64 ∨ getWidth e = 80) &&
    (outSort e == floatOutSort (getWidth e))
  | .FpClassify e =>
    wfB e && decide (getWidth e = 32 ∨ getWidth e = 64 ∨ getWidth e = 80) &&
    (outSort e == floatOutSort (getWidth e))
  | .FIsFinite e =>
    wfB e && decide (getWidth e = 32 ∨ getWidth e = 64 ∨ getWidth e = 80) &&
    (outSort e == floatOutSort (getWidth e))
  | .FIsNan e =>
    wfB e && decide (getWidth e = 32 ∨ getWidth e = 64 ∨ getWidth e = 80) &&
    (outSort e == floatOutSort (getWidth e))
  | .FIsInf e =>
    wfB e && decide (getWidth e = 32 ∨ getWidth e = 64 ∨ getWidth e = 80) &&
    (outSort e == floatOutSort (getWidth e))
  | .FSqrt _ e =>
    wfB e && decide (getWidth e = 32 ∨ getWidth e = 64 ∨ getWidth e = 80) &&
    (outSort e == floatOutSort (getWidth e))
  | .FNearbyInt _ e =>
    wfB e && decide (getWidth e = 32 ∨ getWidth e = 64 ∨ getWidth e = 80) &&
    (outSort e == floatOutSort (getWidth e))
  | .Add l r =>
    wfB l && wfB r && decide (getWidth l = getWidth r) && decide (getWidth l ≠ 1) &&
    (outSort l == .bvS (getWidth l)) && (outSort r == .bvS (getWidth r))
  | .Sub l r =>
    wfB l && wfB r && decide (getWidth l = getWidth r) && decide (getWidth l ≠ 1) &&
    (outSort l == .bvS (getWidth l)) && (outSort r == .bvS (getWidth r))
  | .Mul l r =>
    wfB l && wfB r && decide (getWidth l = getWidth r) && decide (getWidth l ≠ 1) &&
    (outSort l == .bvS (getWidth l)) && (outSort r == .bvS (getWidth r))
  | .UDiv l r =>
    wfB l && wfB r && decide (getWidth l = getWidth r) && decide (getWidth l ≠ 1) &&
    (outSort l == .bvS (getWidth l)) && (outSort r == .bvS (getWidth r))
  | .SDiv l r =>
    wfB l && wfB r && decide (getWidth l = getWidth r) && decide (getWidth l ≠ 1) &&
    (outSort l == .bvS (getWidth l)) && (outSort r == .bvS (getWidth r))
  | .URem l r =>
    wfB l && wfB r && decide (getWidth l = getWidth r) && decide (getWidth l ≠ 1) &&
    (outSort l == .bvS (getWidth l)) && (outSort r == .bvS (getWidth r))
  | .SRem l r =>
    wfB l && wfB r && decide (getWidth l = getWidth r) && decide (getWidth l ≠ 1) &&
    (outSort l == .bvS (getWidth l)) && (outSort r == .bvS (getWidth r))
  | .Not e =>
    wfB e &&
    (outSort e == (if getWidth e = 1 then .boolS else .bvS (getWidth e)))
  | .And l r =>
    wfB l && wfB r && decide (getWidth l = getWidth r) &&
    (outSort l == (if getWidth l = 1 then .boolS else .bvS (getWidth l))) &&
    (outSort r == (if getWidth r = 1 then .boolS else .bvS (getWidth r)))
  | .Or l r =>
    wfB l && wfB r && decide (getWidth l = getWidth r) &&
    (outSort l == (if getWidth l = 1 then .boolS else .bvS (getWidth l))) &&
    (outSort r == (if getWidth r = 1 then .boolS else .bvS (getWidth r)))
  | .Xor l r =>
    wfB l && wfB r && decide (getWidth l = getWidth r) &&
    (outSort l == (if getWidth l = 1 then .boolS else .bvS (getWidth l))) &&
    (outSort r == (if getWidth r = 1 then .boolS else .bvS (getWidth r)))
  | .Shl l r =>
    wfB l && wfB r && decide (getWidth l = getWidth r) && decide (getWidth l ≠ 1) &&
    (outSort l == .bvS (getWidth l)) && (outSort r == .bvS (getWidth r))
  | .LShr l r =>
    wfB l && wfB r && decide (getWidth l = getWidth r) && decide (getWidth l ≠ 1) &&
    (outSort l == .bvS (getWidth l)) && (outSort r == .bvS (getWidth r))
  | .AShr l r =>
    wfB l && wfB r && decide (getWidth l = getWidth r) && decide (getWidth l ≠ 1) &&
    (outSort l == .bvS (getWidth l)) && (outSort r == .bvS (getWidth r))
  | .FAdd _ l r =>
    wfB l && wfB r && decide (getWidth l = getWidth r) &&
    decide (getWidth l = 32 ∨ getWidth l = 64 ∨ getWidth l = 80) &&
    (outSort l == floatOutSort (getWidth l)) &&
    (outSort r == floatOutSort (getWidth r))
  | .FSub _ l r =>
    wfB l && wfB r && decide (getWidth l = getWidth r) &&
    decide (getWidth l = 32 ∨ getWidth l = 64 ∨ getWidth l = 80) &&
    (outSort l == floatOutSort (getWidth l)) &&
    (outSort r == floatOutSort (getWidth r))
  | .FMul _ l r =>
    wfB l && wfB r && decide (getWidth l = getWidth r) &&
    decide (getWidth l = 32 ∨ getWidth l = 64 ∨ getWidth l = 80) &&
    (outSort l == floatOutSort (getWidth l)) &&
    (outSort r == floatOutSort (getWidth r))
  | .FDiv _ l r =>
    wfB l && wfB r && decide (getWidth l = getWidth r) &&
    decide (getWidth l = 32 ∨ getWidth l = 64 ∨ getWidth l = 80) &&
    (outSort l == floatOutSort (getWidth l)) &&
    (outSort r == floatOutSort (getWidth r))
  | .FRem l r =>
    wfB l && wfB r && decide (getWidth l = getWidth r) &&
    decide (getWidth l = 32 ∨ getWidth l = 64 ∨ getWidth l = 80) &&
    (outSort l == floatOutSort (getWidth l)) &&
    (outSort r == floatOutSort (getWidth r))
  | .FMin l r =>
    wfB l && wfB r && decide (getWidth l = getWidth r) &&
    decide (getWidth l = 32 ∨ getWidth l = 64 ∨ getWidth l = 80) &&
    (outSort l == floatOutSort (getWidth l)) &&
    (outSort r == floatOutSort (getWidth r))
  | .FMax l r =>
    wfB l && wfB r && decide (getWidth l = getWidth r) &&
    decide (getWidth l = 32 ∨ getWidth l = 64 ∨ getWidth l = 80) &&
    (outSort l == floatOutSort (getWidth l)) &&
    (outSort r == floatOutSort (getWidth r))
  | .Eq l r =>
    wfB l && wfB r && decide (getWidth l = getWidth r) &&
    (outSort l == outSort r) &&
    (if getWidth r = 1 then outSort r == .boolS else true)
  | .Ult l r =>
    wfB l && wfB r && decide (getWidth l = getWidth r) && decide (getWidth l ≠ 1) &&
    (outSort l == .bvS (getWidth l)) && (outSort r == .bvS (getWidth r))
  | .Ule l r =>
    wfB l && wfB r && decide (getWidth l = getWidth r) && decide (getWidth l ≠ 1) &&
    (outSort l == .bvS (getWidth l)) && (outSort r == .bvS (getWidth r))
  | .Slt l r =>
    wfB l && wfB r && decide (getWidth l = getWidth r) && decide (getWidth l ≠ 1) &&
    (outSort l == .bvS (getWidth l)) && (outSort r == .bvS (getWidth r))
  | .Sle l r =>
    wfB l && wfB r && decide (getWidth l = getWidth r) && decide (getWidth l ≠ 1) &&
    (outSort l == .bvS (getWidth l)) && (outSort r == .bvS (getWidth r))
  | .FOrd l r =>
    wfB l && wfB r && decide (getWidth l = getWidth r) &&
    decide (getWidth l = 32 ∨ getWidth l = 64 ∨ getWidth l = 80) &&
    (outSort l == floatOutSort (getWidth l)) &&
    (outSort r == floatOutSort (getWidth r))
  | .FUno l r =>
    wfB l && wfB r && decide (getWidth l = getWidth r) &&
    decide (getWidth l = 32 ∨ getWidth l = 64 ∨ getWidth l = 80) &&
    (outSort l == floatOutSort (getWidth l)) &&
    (outSort r == floatOutSort (getWidth r))
  | .FUeq l r =>
    wfB l && wfB r && decide (getWidth l = getWidth r) &&
    decide (getWidth l = 32 ∨ getWidth l = 64 ∨ getWidth l = 80) &&
    (outSort l == floatOutSort (getWidth l)) &&
    (outSort r == floatOutSort (getWidth r))
  | .FOeq l r =>
    wfB l && wfB r && decide (getWidth l = getWidth r) &&
    decide (getWidth l = 32 ∨ getWidth l = 64 ∨ getWidth l = 80) &&
    (outSort l == floatOutSort (getWidth l)) &&
    (outSort r == floatOutSort (getWidth r))
  | .FUgt l r =>
    wfB l && wfB r && decide (getWidth l = getWidth r) &&
    decide (getWidth l = 32 ∨ getWidth l = 64 ∨ getWidth l = 80) &&
    (outSort l == floatOutSort (getWidth l)) &&
    (outSort r == floatOutSort (getWidth r))
  | .FOgt l r =>
    wfB l && wfB r && decide (getWidth l = getWidth r) &&
    decide (getWidth l = 32 ∨ getWidth l = 64 ∨ getWidth l = 80) &&
    (outSort l == floatOutSort (getWidth l)) &&
    (outSort r == floatOutSort (getWidth r))
  | .FUge l r =>
    wfB l && wfB r && decide (getWidth l = getWidth r) &&
    decide (getWidth l = 32 ∨ getWidth l = 64 ∨ getWidth l = 80) &&
    (outSort l == floatOutSort (getWidth l)) &&
    (outSort r == floatOutSort (getWidth r))
  | .FOge l r =>
    wfB l && wfB r && decide (getWidth l = getWidth r) &&
    decide (getWidth l = 32 ∨ getWidth l = 64 ∨ getWidth l = 80) &&
    (outSort l == floatOutSort (getWidth l)) &&
    (outSort r == floatOutSort (getWidth r))
  | .FUlt l r =>
    wfB l && wfB r && decide (getWidth l = getWidth r) &&
    decide (getWidth l = 32 ∨ getWidth l = 64 ∨ getWidth l = 80) &&
    (outSort l == floatOutSort (getWidth l)) &&
    (outSort r == floatOutSort (getWidth r))
  | .FOlt l r =>
    wfB l && wfB r && decide (getWidth l = getWidth r) &&
    decide (getWidth l = 32 ∨ getWidth l = 64 ∨ getWidth l = 80) &&
    (outSort l == floatOutSort (getWidth l)) &&
    (outSort r == floatOutSort (getWidth r))
  | .FUle l r =>
    wfB l && wfB r && decide (getWidth l = getWidth r) &&
    decide (getWidth l = 32 ∨ getWidth l = 64 ∨ getWidth l = 80) &&
    (outSort l == floatOutSort (getWidth l)) &&
    (outSort r == floatOutSort (getWidth r))
  | .FOle l r =>
    wfB l && wfB r && decide (getWidth l = getWidth r) &&
    decide (getWidth l = 32 ∨ getWidth l = 64 ∨ getWidth l = 80) &&
    (outSort l == floatOutSort (getWidth l)) &&
    (outSort r == floatOutSort (getWidth r))
  | .FUne l r =>
    wfB l && wfB r && decide (getWidth l = getWidth r) &&
    decide (getWidth l = 32 ∨ getWidth l = 64 ∨ getWidth l = 80) &&
    (outSort l == floatOutSort (getWidth l)) &&
    (outSort r == floatOutSort (getWidth r))
  | .FOne l r =>
    wfB l && wfB r && decide (getWidth l = getWidth r) &&
    decide (getWidth l = 32 ∨ getWidth l = 64 ∨ getWidth l = 80) &&
    (outSort l == floatOutSort (getWidth l)) &&
    (outSort r == floatOutSort (getWidth r))

/-- Well-formedness of update chains over a root: indices and values are
bitvector expressions of the root's domain and range widths. -/
def wfUB (root : ArrayIR) : UpdList → Bool
  | .nil => true
  | .cons i v rest =>
    wfB i && wfB v && (outSort i == .bvS root.domain) &&
    (outSort v == .bvS root.range) && wfUB root rest

end

theorem constKindVal_eq_none (l : Expr) (h : isConstantKind l = false) :
    constKindVal l = none := by
  cases l <;> simp [isConstantKind, constKindVal] at h ⊢

theorem powerOfTwoShift_eq_none (r : Expr) (h : isConstantKind r = false) :
    powerOfTwoShift r = none := by
  cases r <;> simp [isConstantKind, powerOfTwoShift] at h ⊢

theorem constShiftAmount_eq_none (r : Expr) (h : isConstantKind r = false) :
    constShiftAmount r = none := by
  cases r <;> simp [isConstantKind, constShiftAmount] at h ⊢

/-- C8: for a bitvector term x of width w, the constant logical shifts
return x unchanged at shift 0, the zero bitvector of width w on
over-shift (k at least w), and otherwise the concat/extract lowerings:
logical right shift is concat(zero_k, extract(x, w-1, k)) and left shift
is concat(extract(x, w-k-1, 0), zero_k). -/
theorem c8_constant_shift_lowering (x : Z3Ast) (w k : Nat) (hw : 0 < w) :
    bvLeftShift w x 0 = x ∧ bvRightShift w x 0 = x ∧
    (w ≤ k → bvLeftShift w x k = bvZero w ∧ bvRightShift w x k = bvZero w) ∧
    (0 < k → k < w →
      bvRightShift w x k = .concatE (bvZero k) (bvExtract x (w - 1) k) ∧
      bvLeftShift w x k = .concatE (bvExtract x (w - k - 1) 0) (bvZero k)) := by
  refine ⟨by simp [bvLeftShift], by simp [bvRightShift], ?_, ?_⟩
  · intro h
    have hk : ¬ (k = 0) := by omega
    exact ⟨by simp [bvLeftShift, hk, h], by simp [bvRightShift, hk, h]⟩
  · intro h1 h2
    have hk : ¬ (k = 0) := by omega
    have hkw : ¬ (w ≤ k) := by omega
    exact ⟨by simp [bvRightShift, hk, hkw], by simp [bvLeftShift, hk, hkw]⟩

/-- Witness for C8 at width 8 and shift 3. -/
theorem c8_constant_shift_lowering_witness :
    bvRightShift 8 (.numeral 8 170) 3 =
      .concatE (bvZero 3) (bvExtract (.numeral 8 170) 7 3) :=
  ((c8_constant_shift_lowering (.numeral 8 170) 8 3 (by decide)).2.2.2
    (by decide) (by decide)).1

/-- C10: the constant arithmetic right shift returns the zero bitvector
of width w (not a sign-filled value) whenever the shift amount is at
least w, regardless of the sign condition term, and returns the operand
unchanged at shift 0. -/
theorem c10_ashr_constant_overshift (x isSigned : Z3Ast) (w k : Nat)
    (hw : 0 < w) :
    constructAShrByConstant w x 0 isSigned = x ∧
    (w ≤ k → constructAShrByConstant w x k isSigned = bvZero w) := by
  refine ⟨by simp [constructAShrByConstant], ?_⟩
  intro h
  have hk : ¬ (k = 0) := by omega
  simp [constructAShrByConstant, hk, h]

/-- Witness for C10 at width 8 and shift 9, with a set sign bit. -/
theorem c10_ashr_constant_overshift_witness :
    constructAShrByConstant 8 (.numeral 8 255) 9 (.trueE) = bvZero 8 :=
  (c10_ashr_constant_overshift (.numeral 8 255) .trueE 8 9 (by decide)).2
    (by decide)

/-- C5: a UDiv or URem whose divisor is a constant power of two of width
at most 64 lowers to a right shift (UDiv) or a zero-extended low-bits
extract (URem); URem by the constant 1 yields the zero bitvector; any
other divisor (non-constant, non-power-of-two, or wider than 64 bits)
produces the native bvudiv/bvurem operator. -/
theorem c5_udiv_urem_pow2_lowering (uidOf : ArrayIR → String) (l : Expr)
    (la : Z3Ast) (w : Nat)
    (hl : constructActual uidOf l = some (la, w)) :
    (∀ cw cv, cw ≤ 64 → isPowerOfTwo64 cv = true →
      constructActual uidOf (.UDiv l (.Constant cw cv)) =
        some (bvRightShift w la (indexOfSingleBit64 cv), w)) ∧
    (∀ cw, cw ≤ 64 →
      constructActual uidOf (.URem l (.Constant cw 1)) = some (bvZero w, w)) ∧
    (∀ cw cv, cw ≤ 64 → isPowerOfTwo64 cv = true → indexOfSingleBit64 cv ≠ 0 →
      constructActual uidOf (.URem l (.Constant cw cv)) =
        some (.concatE (bvZero (w - indexOfSingleBit64 cv))
          (bvExtract la (indexOfSingleBit64 cv - 1) 0), w)) ∧
    (∀ cw cv ra wr, ¬ (cw ≤ 64 ∧ isPowerOfTwo64 cv = true) →
      constructActual uidOf (.Constant cw cv) = some (ra, wr) →
      constructActual uidOf (.UDiv l (.Constant cw cv)) =
        some (.bvudivE la ra, wr) ∧
      constructActual uidOf (.URem l (.Constant cw cv)) =
        some (.bvuremE la ra, wr)) ∧
    (∀ (d : Expr) ra wr, isConstantKind d = false →
      constructActual uidOf d = some (ra, wr) →
      constructActual uidOf (.UDiv l d) = some (.bvudivE la ra, wr) ∧
      constructActual uidOf (.URem l d) = some (.bvuremE la ra, wr)) := by
  refine ⟨?_, ?_, ?_, ?_, ?_⟩
  · intro cw cv h1 h2
    simp [constructActual, hl, powerOfTwoShift, h1, h2]
  · intro cw h1
    have hp : isPowerOfTwo64 1 = true := by decide
    have hz : indexOfSingleBit64 1 = 0 := by decide
    simp [constructActual, hl, powerOfTwoShift, h1, hp, hz]
  · intro cw cv h1 h2 h3
    simp [constructActual, hl, powerOfTwoShift, h1, h2, h3]
  · intro cw cv ra wr h1 h2
    have hb : (decide (cw ≤ 64) && isPowerOfTwo64 cv) = false := by
      by_cases hc : cw ≤ 64
      · have hp : isPowerOfTwo64 cv = false := by
          rcases Bool.eq_false_or_eq_true (isPowerOfTwo64 cv) with h | h
          · exact absurd ⟨hc, h⟩ h1
          · exact h
        simp [hp]
      · simp [hc]
    have hc2 : constructActual uidOf (.Constant cw cv) =
        some (constantZ3 cw cv, cw) := rfl
    rw [hc2] at h2
    obtain ⟨h3, h4⟩ := Prod.mk.inj (Option.some.inj h2)
    subst h3
    subst h4
    constructor <;> simp [constructActual, hl, powerOfTwoShift, hb]
  · intro d ra wr h1 h2
    simp [constructActual, hl, powerOfTwoShift_eq_none d h1, h2]

/-- Witness for C5: UDiv and URem of a 32-bit constant by 8. -/
theorem c5_udiv_urem_pow2_lowering_witness :
    constructActual uidOf0 (.UDiv (.Constant 32 100) (.Constant 32 8)) =
      some (bvRightShift 32 (constantZ3 32 100) (indexOfSingleBit64 8), 32) ∧
    constructActual uidOf0 (.URem (.Constant 32 100) (.Constant 32 1)) =
      some (bvZero 32, 32) :=
  ⟨(c5_udiv_urem_pow2_lowering uidOf0 (.Constant 32 100)
      (constantZ3 32 100) 32 rfl).1 32 8 (by decide) (by decide),
   (c5_udiv_urem_pow2_lowering uidOf0 (.Constant 32 100)
      (constantZ3 32 100) 32 rfl).2.1 32 (by decide)⟩

/-- Counterexample for C4: the code short-circuits a width-1 Eq only when
the LEFT operand is a constant.  With a non-constant left side and the
constant true on the right, the translation is iff(left, true), not the
translation of the left side as the claim requires. -/
theorem c4_counterexample :
    constructActual uidOf0 (.Eq (.Not (.Constant 1 1)) (.Constant 1 1)) =
      some (.iffE (.notE .trueE) .trueE, 1) ∧
    Z3Ast.iffE (.notE .trueE) .trueE ≠ .notE .trueE :=
  ⟨rfl, fun h => Z3Ast.noConfusion h⟩

/-- C4 (amended): for a width-1 Eq, a constant LEFT side short-circuits
to the right translation (constant true) or its Boolean negation
(otherwise); a non-constant left side emits iff even when the right side
is constant; wider operands emit bitvector equality with output width
1. -/
theorem c4_eq_translation_amended (uidOf : ArrayIR → String) (l r : Expr)
    (la ra : Z3Ast) (wl wr : Nat)
    (hl : constructActual uidOf l = some (la, wl))
    (hr : constructActual uidOf r = some (ra, wr)) :
    (wr = 1 → ∀ cw cv, l = .Constant cw cv →
      constructActual uidOf (.Eq l r) =
        some (if cw = 1 && cv = 1 then ra else .notE ra, 1)) ∧
    (wr = 1 → isConstantKind l = false →
      constructActual uidOf (.Eq l r) = some (.iffE la ra, 1)) ∧
    (wr ≠ 1 → constructActual uidOf (.Eq l r) = some (.eqE la ra, 1)) := by
  refine ⟨?_, ?_, ?_⟩
  · intro hw cw cv hlc
    subst hlc
    subst hw
    by_cases hb : (cw = 1 && cv = 1) = true
    · simp [constructActual, hl, hr, constKindVal, hb]
    · simp only [Bool.not_eq_true] at hb
      simp [constructActual, hl, hr, constKindVal, hb]
  · intro hw hnc
    subst hw
    simp [constructActual, hl, hr, constKindVal_eq_none l hnc]
  · intro hw
    simp [constructActual, hl, hr, hw]

/-- Witness for the amended C4: all three branches at concrete inputs. -/
theorem c4_eq_translation_amended_witness :
    constructActual uidOf0 (.Eq (.Constant 1 1) (.Not (.Constant 1 0))) =
      some (if (1 : Nat) = 1 && (1 : Nat) = 1 then Z3Ast.notE .falseE
        else .notE (.notE .falseE), 1) ∧
    constructActual uidOf0 (.Eq (.Not (.Constant 1 1)) (.Constant 1 1)) =
      some (.iffE (.notE .trueE) .trueE, 1) ∧
    constructActual uidOf0 (.Eq (.Constant 8 3) (.Constant 8 5)) =
      some (.eqE (constantZ3 8 3) (constantZ3 8 5), 1) :=
  ⟨(c4_eq_translation_amended uidOf0 (.Constant 1 1) (.Not (.Constant 1 0))
      .trueE (.notE .falseE) 1 1 rfl rfl).1 rfl 1 1 rfl,
   (c4_eq_translation_amended uidOf0 (.Not (.Constant 1 1)) (.Constant 1 1)
      (.notE .trueE) .trueE 1 1 rfl rfl).2.1 rfl rfl,
   (c4_eq_translation_amended uidOf0 (.Constant 8 3) (.Constant 8 5)
      (constantZ3 8 3) (constantZ3 8 5) 8 8 rfl rfl).2.2 (by decide)⟩

/-- C2 (failing input): for SToF to width 80 the code stores at index 0
the source converted with Z3_mk_fpa_to_fp_UNSIGNED, not the signed
conversion the IR operation requires; shown at the 32-bit constant
0xFFFFFFFF (signed value -1), together with the fact that the emitted
term differs from the signed-conversion encoding.  Index 1 does receive
fp_zero as the claim states. -/
theorem c2_stof80_emits_unsigned_conversion :
    constructActual uidOf0 (.SToF .rne (.Constant 32 4294967295) 80) =
      some (mkF80Arr (.fpToFpUnsignedE .rne (.numeral 32 4294967295) 15 64)
        (.fpZeroE 15 64), 80) ∧
    (∀ x : Z3Ast, ∀ e s : Nat,
      mkF80Arr (.fpToFpUnsignedE .rne x 15 64) (.fpZeroE 15 64) ≠
        mkF80Arr (.fpToFpSignedE .rne x e s) (.fpZeroE 15 64)) := by
  constructor
  · rfl
  · intro x e s
    simp [mkF80Arr]

/-- Evaluation of a store over an evaluated array, index and value. -/
theorem eval_store (env : Env) (a i v : Z3Ast) (f : Nat → Option Value)
    (wi ni : Nat) (x : Value) (ha : eval env a = some (.arrV f))
    (hi : eval env i = some (.bvV wi ni)) (hv : eval env v = some x) :
    eval env (.storeE a i v) =
      some (.arrV fun m => if m = ni then some x else f m) := by
  simp only [eval]
  rw [ha, hi, hv]

/-- Evaluation of a select over an evaluated array and index. -/
theorem eval_select (env : Env) (a i : Z3Ast) (f : Nat → Option Value)
    (wi ni : Nat) (ha : eval env a = some (.arrV f))
    (hi : eval env i = some (.bvV wi ni)) :
    eval env (.selectE a i) = f ni := by
  simp only [eval]
  rw [ha, hi]

/-- C9: FAbs at width 80 rewrites only index 0 of the operand's encoding
with fp_abs of the stored number; the written value reads only index 0,
and selecting index 1 of the result evaluates exactly as selecting index
1 of the operand (the sentinel is carried through unchanged). -/
theorem c9_fabs80_rewrites_only_index0 (uidOf : ArrayIR → String)
    (e : Expr) (ea : Z3Ast) (env : Env)
    (he : constructActual uidOf e = some (ea, 80))
    (ha : ∃ f, eval env ea = some (.arrV f))
    (hv : ∃ x, eval env (.fpAbsE (sel0 ea)) = some x) :
    constructActual uidOf (.FAbs e) =
      some (.storeE ea (bvZero 1) (.fpAbsE (sel0 ea)), 80) ∧
    eval env (sel1 (.storeE ea (bvZero 1) (.fpAbsE (sel0 ea)))) =
      eval env (sel1 ea) := by
  obtain ⟨f, hf⟩ := ha
  obtain ⟨x, hx⟩ := hv
  constructor
  · simp [constructActual, he]
  · have h1 := eval_store env ea (bvZero 1) (.fpAbsE (sel0 ea)) f 1 0 x hf rfl hx
    simp only [sel1]
    rw [eval_select env _ (bvOne 1) _ 1 1 h1 rfl,
      eval_select env ea (bvOne 1) f 1 1 hf rfl]
    simp

/-- Witness for C9 at a concrete 80-bit constant operand. -/
theorem c9_fabs80_rewrites_only_index0_witness :
    constructActual uidOf0 (.FAbs (.FConstant 80 0)) =
      some (.storeE (f80ConstArr 0) (bvZero 1)
        (.fpAbsE (sel0 (f80ConstArr 0))), 80) ∧
    eval env0 (sel1 (.storeE (f80ConstArr 0) (bvZero 1)
      (.fpAbsE (sel0 (f80ConstArr 0))))) =
      eval env0 (sel1 (f80ConstArr 0)) :=
  c9_fabs80_rewrites_only_index0 uidOf0 (.FConstant 80 0) (f80ConstArr 0)
    env0 rfl ⟨_, rfl⟩ ⟨_, rfl⟩

theorem wideLoop_foldl (w : Nat) : ∀ v res, constantWideLoop v w res =
    List.foldl (fun acc ch => Z3Ast.concatE (bvConst64 ch.1 ch.2) acc) res
      (tailChunks w v) := by
  induction w using Nat.strong_induction_on with
  | _ w ih =>
    intro v res
    rw [constantWideLoop, tailChunks]
    by_cases h : 64 < w
    · simp only [if_pos h, List.foldl_cons]
      exact ih (w - 64) (by omega) (v >>> 64) _
    · simp [if_neg h]

theorem tailChunks_eq_specChunks (w : Nat) : ∀ v, 64 < w → v < 2 ^ w →
    tailChunks w v = specChunks (w - 64) (v >>> 64) := by
  induction w using Nat.strong_induction_on with
  | _ w ih =>
    intro v h hv
    have hv' : v >>> 64 < 2 ^ (w - 64) := by
      rw [Nat.shiftRight_eq_div_pow]
      refine Nat.div_lt_of_lt_mul ?_
      calc v < 2 ^ w := hv
        _ = 2 ^ 64 * 2 ^ (w - 64) := by rw [← pow_add]; congr 1; omega
    rw [tailChunks, specChunks]
    by_cases h2 : 64 < w - 64
    · have hm : min 64 (w - 64) = 64 := by omega
      simp only [if_pos h, if_pos h2, hm]
      rw [ih (w - 64) (by omega) (v >>> 64) h2 hv']
    · have hm : min 64 (w - 64) = w - 64 := by omega
      have hmod : (v >>> 64) % 2 ^ (w - 64) = v >>> 64 := Nat.mod_eq_of_lt hv'
      simp only [if_pos h, if_neg h2, hm, hmod]
      rw [tailChunks]
      simp [if_neg h2]

theorem specChunks_cons (w v : Nat) (h : 64 < w) (hv : v < 2 ^ w) :
    specChunks w v = (64, v % 2 ^ 64) :: tailChunks w v := by
  rw [specChunks]
  simp only [if_pos h]
  rw [tailChunks_eq_specChunks w v h hv]

/-- C7: the integer constant encoding: width 1 becomes the Boolean
literal according to the value, widths up to 32 and up to 64 become a
numeral of the constant's width built from the 32-bit respectively 64-bit
value constructor, and wider constants are assembled from the low 64 bits
with 64-bit chunks concatenated on the high side, the final chunk sized
to the remainder. -/
theorem c7_integer_constant_encoding (uidOf : ArrayIR → String) (w v : Nat)
    (hv : v < 2 ^ w) :
    (w = 1 → constructActual uidOf (.Constant w v) =
      some (if v = 1 then .trueE else .falseE, w)) ∧
    (1 < w → w ≤ 32 → constructActual uidOf (.Constant w v) =
      some (.numeral w v, w)) ∧
    (32 < w → w ≤ 64 → constructActual uidOf (.Constant w v) =
      some (.numeral w v, w)) ∧
    (64 < w → constructActual uidOf (.Constant w v) =
      some (assembleChunks (specChunks w v), w)) := by
  have e1 : constructActual uidOf (.Constant w v) = some (constantZ3 w v, w) := rfl
  refine ⟨?_, ?_, ?_, ?_⟩
  · intro h
    subst h
    rw [e1]
    simp [constantZ3]
  · intro h1 h2
    have hn1 : ¬ (w = 1) := by omega
    have h32 : v < 2 ^ 32 := lt_of_lt_of_le hv (Nat.pow_le_pow_right (by norm_num) h2)
    have hmod : v % 2 ^ 32 % 2 ^ w = v := by
      rw [Nat.mod_eq_of_lt h32, Nat.mod_eq_of_lt hv]
    have e2 : constantZ3 w v = Z3Ast.numeral w (v % 2 ^ 32 % 2 ^ w) := by
      simp [constantZ3, hn1, h2, bvConst32, mkNumeral]
    rw [e1, e2, hmod]
  · intro h1 h2
    have hn1 : ¬ (w = 1) := by omega
    have hn2 : ¬ (w ≤ 32) := by omega
    have h64 : v < 2 ^ 64 := lt_of_lt_of_le hv (Nat.pow_le_pow_right (by norm_num) h2)
    have hmod : v % 2 ^ 64 % 2 ^ w = v := by
      rw [Nat.mod_eq_of_lt h64, Nat.mod_eq_of_lt hv]
    have e2 : constantZ3 w v = Z3Ast.numeral w (v % 2 ^ 64 % 2 ^ w) := by
      simp [constantZ3, hn1, hn2, h2, bvConst64, mkNumeral]
    rw [e1, e2, hmod]
  · intro h
    have hn1 : ¬ (w = 1) := by omega
    have hn2 : ¬ (w ≤ 32) := by omega
    have hn3 : ¬ (w ≤ 64) := by omega
    rw [e1]
    have e2 : constantZ3 w v = constantWideLoop v w (bvConst64 64 v) := by
      simp [constantZ3, hn1, hn2, hn3]
    rw [e2, wideLoop_foldl, specChunks_cons w v h hv]
    simp only [assembleChunks, List.foldl_cons]
    have : bvConst64 64 v = bvConst64 64 (v % 2 ^ 64) := by
      simp [bvConst64, mkNumeral, Nat.mod_mod_of_dvd]
    rw [this]

/-- Witness for C7 at width 128 and at a small width. -/
theorem c7_integer_constant_encoding_witness :
    constructActual uidOf0 (.Constant 128 (2 ^ 70 + 5)) =
      some (assembleChunks (specChunks 128 (2 ^ 70 + 5)), 128) ∧
    constructActual uidOf0 (.Constant 8 200) = some (.numeral 8 200, 8) :=
  ⟨(c7_integer_constant_encoding uidOf0 128 (2 ^ 70 + 5) (by decide)).2.2.2
      (by decide),
   (c7_integer_constant_encoding uidOf0 8 200 (by decide)).2.1
      (by decide) (by decide)⟩

theorem eval_zextLoop (env : Env) (k : Nat) : ∀ (e : Z3Ast) (m : Nat),
    eval env e = some (.bvV m 0) →
    eval env (bvZExtConstLoop k e) = some (.bvV (k + m) 0) := by
  induction k using Nat.strong_induction_on with
  | _ k ih =>
    intro e m he
    rw [bvZExtConstLoop]
    by_cases h : 64 < k
    · simp only [if_pos h]
      have hc : eval env (.concatE (bvConst64 64 0) e) = some (.bvV (64 + m) 0) := by
        simp only [eval, bvConst64, mkNumeral]
        rw [he]
        norm_num
      rw [ih (k - 64) (by omega) _ _ hc]
      congr 2
      omega
    · simp only [if_neg h, eval, bvConst64, mkNumeral]
      rw [he]
      norm_num

theorem eval_bvZero (env : Env) (w : Nat) :
    eval env (bvZero w) = some (.bvV w 0) := by
  rw [bvZero, bvZExtConst]
  by_cases h : w ≤ 64
  · simp [if_pos h, bvConst64, mkNumeral, eval]
  · simp only [if_neg h]
    have hb : eval env (bvConst64 64 0) = some (.bvV 64 0) := by
      simp [bvConst64, mkNumeral, eval]
    rw [eval_zextLoop env (w - 64) _ 64 hb]
    congr 2
    omega

theorem orK_true_left (x : Option Value) :
    orK (some (.boolV true)) x = some (.boolV true) := by
  cases x with
  | none => rfl
  | some v =>
    cases v with
    | boolV b => cases b <;> rfl
    | bvV w n => rfl
    | fpV f => rfl
    | arrV f => rfl

theorem andK_false_left (x : Option Value) :
    andK (some (.boolV false)) x = some (.boolV false) := by
  cases x with
  | none => rfl
  | some v =>
    cases v with
    | boolV b => cases b <;> rfl
    | bvV w n => rfl
    | fpV f => rfl
    | arrV f => rfl

theorem eval_ite_false (env : Env) (c a b : Z3Ast)
    (hc : eval env c = some (.boolV false)) :
    eval env (.iteE c a b) = eval env b := by
  simp only [eval]
  rw [hc]

/-- C6: a Shl, LShr or AShr whose shift operand is not a constant lowers
to the demultiplexed ite chain wrapped in the outer guard
ite(shift < w, chain, bv0), and under every assignment in which the
shift amount evaluates to at least w the translated term evaluates to
the zero bitvector of width w. -/
theorem c6_variable_shift_overshift (uidOf : ArrayIR → String)
    (l r : Expr) (la ra : Z3Ast) (w wr : Nat)
    (hl : constructActual uidOf l = some (la, w))
    (hnc : isConstantKind r = false)
    (hr : constructActual uidOf r = some (ra, wr)) :
    (constructActual uidOf (.Shl l r) = some (bvVarLeftShift w wr la ra, w) ∧
     constructActual uidOf (.LShr l r) = some (bvVarRightShift w wr la ra, w) ∧
     constructActual uidOf (.AShr l r) =
       some (bvVarArithRightShift w wr la ra, w)) ∧
    (bvVarLeftShift w wr la ra =
      .iteE (.bvultE ra (bvConst32 wr w)) (bvVarLeftShiftChain w la ra 0)
        (bvZero w) ∧
     bvVarRightShift w wr la ra =
      .iteE (.bvultE ra (bvConst32 wr w)) (bvVarRightShiftChain w la ra 0)
        (bvZero w) ∧
     bvVarArithRightShift w wr la ra =
      .iteE (.bvultE ra (bvConst32 wr w))
        (bvVarAShrChain w la ra (bvBoolExtract la (w - 1)) 0) (bvZero w)) ∧
    (∀ (env : Env) (s : Nat), eval env ra = some (.bvV wr s) → w ≤ s →
      w < 2 ^ 32 → w < 2 ^ wr →
      eval env (bvVarLeftShift w wr la ra) = some (.bvV w 0) ∧
      eval env (bvVarRightShift w wr la ra) = some (.bvV w 0) ∧
      eval env (bvVarArithRightShift w wr la ra) = some (.bvV w 0)) := by
  have hca := constShiftAmount_eq_none r hnc
  refine ⟨⟨?_, ?_, ?_⟩, ⟨rfl, rfl, rfl⟩, ?_⟩
  · simp [constructActual, hl, hr, hca]
  · simp [constructActual, hl, hr, hca]
  · simp [constructActual, hl, hr, hca]
  · intro env s hs hws h32 hwr
    have hw1 : w % 2 ^ 32 = w := Nat.mod_eq_of_lt h32
    have hw2 : w % 2 ^ wr = w := Nat.mod_eq_of_lt hwr
    have hcond : eval env (.bvultE ra (bvConst32 wr w)) = some (.boolV false) := by
      simp only [eval, bvConst32, mkNumeral]
      rw [hs]
      simp only [bvRel2, hw1, hw2]
      simp [Nat.not_lt.mpr hws]
    refine ⟨?_, ?_, ?_⟩
    · rw [bvVarLeftShift, eval_ite_false env _ _ _ hcond, eval_bvZero]
    · rw [bvVarRightShift, eval_ite_false env _ _ _ hcond, eval_bvZero]
    · rw [bvVarArithRightShift, eval_ite_false env _ _ _ hcond, eval_bvZero]

/-- Witness for C6: shifting an 8-bit value by bvnot(3) = 252. -/
theorem c6_variable_shift_overshift_witness :
    constructActual uidOf0 (.Shl (.Constant 8 5) (.Not (.Constant 8 3))) =
      some (bvVarLeftShift 8 8 (constantZ3 8 5) (.bvnotE (constantZ3 8 3)), 8) ∧
    eval env0 (bvVarLeftShift 8 8 (constantZ3 8 5) (.bvnotE (constantZ3 8 3))) =
      some (.bvV 8 0) :=
  have h := c6_variable_shift_overshift uidOf0 (.Constant 8 5)
    (.Not (.Constant 8 3)) (constantZ3 8 5) (.bvnotE (constantZ3 8 3)) 8 8
    rfl rfl rfl
  ⟨h.1.1, (h.2.2 env0 252 rfl (by decide) (by decide) (by decide)).1⟩

/-- Counterexample for C3: at the unnormal 80-bit constant with bit
pattern 2^64 (exponent 1, explicit integer bit 0), the FOne translation
evaluates to true, while the form the claim prescribes for it,
(NOT wrongHiddenBit) AND native comparison, evaluates to false; so FOne
does not follow the ordered pattern and FUne is not the only comparison
that is true on unnormal operands. -/
theorem c3_counterexample :
    constructActual uidOf0
        (.FOne (.FConstant 80 (2 ^ 64)) (.FConstant 80 (2 ^ 64))) =
      some (.orE (f80Wrong (f80ConstArr (2 ^ 64)) (f80ConstArr (2 ^ 64)))
        (.notE (.orE3 (.isNanE (sel0 (f80ConstArr (2 ^ 64))))
          (.isNanE (sel0 (f80ConstArr (2 ^ 64))))
          (.fpEqE (sel0 (f80ConstArr (2 ^ 64)))
            (sel0 (f80ConstArr (2 ^ 64)))))), 1) ∧
    eval env0 (.orE (f80Wrong (f80ConstArr (2 ^ 64)) (f80ConstArr (2 ^ 64)))
        (.notE (.orE3 (.isNanE (sel0 (f80ConstArr (2 ^ 64))))
          (.isNanE (sel0 (f80ConstArr (2 ^ 64))))
          (.fpEqE (sel0 (f80ConstArr (2 ^ 64)))
            (sel0 (f80ConstArr (2 ^ 64))))))) = some (.boolV true) ∧
    eval env0 (.andE
        (.notE (f80Wrong (f80ConstArr (2 ^ 64)) (f80ConstArr (2 ^ 64))))
        (.notE (.orE3 (.isNanE (sel0 (f80ConstArr (2 ^ 64))))
          (.isNanE (sel0 (f80ConstArr (2 ^ 64))))
          (.fpEqE (sel0 (f80ConstArr (2 ^ 64)))
            (sel0 (f80ConstArr (2 ^ 64))))))) = some (.boolV false) :=
  ⟨rfl, rfl, rfl⟩

/-- C3 (amended): at operand width 80 the five ordered comparisons FOeq,
FOgt, FOge, FOlt, FOle translate to (NOT wrongHiddenBit) AND the native
comparison on the index-0 values; FOne instead translates to
wrongHiddenBit OR NOT(isnan(L) OR isnan(R) OR native_eq) and FUne to
wrongHiddenBit OR NOT(native_eq), so FUne and FOne are the two
comparisons whose translations are true on unnormal operands, and every
ordered-pattern form evaluates to false there. -/
theorem c3_f80_comparisons_amended (uidOf : ArrayIR → String)
    (l r : Expr) (la ra : Z3Ast) (wl : Nat)
    (hl : constructActual uidOf l = some (la, wl))
    (hr : constructActual uidOf r = some (ra, 80)) :
    constructActual uidOf (.FOeq l r) =
      some (.andE (.notE (f80Wrong la ra)) (.fpEqE (sel0 la) (sel0 ra)), 1) ∧
    constructActual uidOf (.FOgt l r) =
      some (.andE (.notE (f80Wrong la ra)) (.fpGtE (sel0 la) (sel0 ra)), 1) ∧
    constructActual uidOf (.FOge l r) =
      some (.andE (.notE (f80Wrong la ra)) (.fpGeqE (sel0 la) (sel0 ra)), 1) ∧
    constructActual uidOf (.FOlt l r) =
      some (.andE (.notE (f80Wrong la ra)) (.fpLtE (sel0 la) (sel0 ra)), 1) ∧
    constructActual uidOf (.FOle l r) =
      some (.andE (.notE (f80Wrong la ra)) (.fpLeqE (sel0 la) (sel0 ra)), 1) ∧
    constructActual uidOf (.FOne l r) =
      some (.orE (f80Wrong la ra)
        (.notE (.orE3 (.isNanE (sel0 la)) (.isNanE (sel0 ra))
          (.fpEqE (sel0 la) (sel0 ra)))), 1) ∧
    constructActual uidOf (.FUne l r) =
      some (.orE (f80Wrong la ra) (.notE (.fpEqE (sel0 la) (sel0 ra))), 1) ∧
    (∀ env : Env, eval env (f80Wrong la ra) = some (.boolV true) →
      eval env (.orE (f80Wrong la ra)
        (.notE (.fpEqE (sel0 la) (sel0 ra)))) = some (.boolV true) ∧
      eval env (.orE (f80Wrong la ra)
        (.notE (.orE3 (.isNanE (sel0 la)) (.isNanE (sel0 ra))
          (.fpEqE (sel0 la) (sel0 ra))))) = some (.boolV true) ∧
      (∀ x : Z3Ast, eval env (.andE (.notE (f80Wrong la ra)) x) =
        some (.boolV false))) := by
  refine ⟨?_, ?_, ?_, ?_, ?_, ?_, ?_, ?_⟩
  · simp [constructActual, hl, hr]
  · simp [constructActual, hl, hr]
  · simp [constructActual, hl, hr]
  · simp [constructActual, hl, hr]
  · simp [constructActual, hl, hr]
  · simp [constructActual, hl, hr]
  · simp [constructActual, hl, hr]
  · intro env hw
    refine ⟨?_, ?_, ?_⟩
    · show orK (eval env (f80Wrong la ra)) _ = _
      rw [hw, orK_true_left]
    · show orK (eval env (f80Wrong la ra)) _ = _
      rw [hw, orK_true_left]
    · intro x
      show andK (notK (eval env (f80Wrong la ra))) _ = _
      rw [hw]
      show andK (some (.boolV false)) _ = _
      rw [andK_false_left]

/-- Witness for the amended C3 at concrete 80-bit constants (one unnormal
operand). -/
theorem c3_f80_comparisons_amended_witness :
    constructActual uidOf0
        (.FOeq (.FConstant 80 (2 ^ 64)) (.FConstant 80 0)) =
      some (.andE (.notE (f80Wrong (f80ConstArr (2 ^ 64)) (f80ConstArr 0)))
        (.fpEqE (sel0 (f80ConstArr (2 ^ 64))) (sel0 (f80ConstArr 0))), 1) ∧
    eval env0 (.andE
        (.notE (f80Wrong (f80ConstArr (2 ^ 64)) (f80ConstArr 0)))
        (.fpEqE (sel0 (f80ConstArr (2 ^ 64))) (sel0 (f80ConstArr 0)))) =
      some (.boolV false) :=
  have h := c3_f80_comparisons_amended uidOf0 (.FConstant 80 (2 ^ 64))
    (.FConstant 80 0) (f80ConstArr (2 ^ 64)) (f80ConstArr 0) 80 rfl rfl
  ⟨h.1, (h.2.2.2.2.2.2.2 env0 rfl).2.2 _⟩

/-- Under well-formedness, every node's width is positive, the expected
sort's bit width equals the node's width, and width 1 coincides with a
Boolean expected sort. -/
theorem widthA (e : Expr) (hw : wfB e = true) :
    0 < getWidth e ∧ sortWidth (outSort e) = getWidth e ∧
    (getWidth e = 1 ↔ outSort e = .boolS) := by
  cases e with
  | Constant w v =>
    simp only [wfB, Bool.and_eq_true, decide_eq_true_eq] at hw
    obtain ⟨h1, _⟩ := hw
    by_cases h : w = 1
    · subst h
      exact ⟨Nat.one_pos, rfl, by simp [getWidth, outSort, sortWidth]⟩
    · exact ⟨h1, by simp [getWidth, outSort, sortWidth, h],
        by simp [getWidth, outSort, h]⟩
  | FConstant w bits =>
    simp only [wfB, decide_eq_true_eq] at hw
    rcases hw with h | h | h <;> subst h <;>
      simp [getWidth, outSort, floatOutSort, sortWidth, f80ArrSort]
  | NotOptimized s => exact widthA s hw
  | Read root ul idx =>
    simp only [wfB, Bool.and_eq_true, beq_iff_eq, decide_eq_true_eq] at hw
    obtain ⟨⟨⟨⟨⟨⟨_, _⟩, _⟩, _⟩, _⟩, h0r⟩, hr1⟩ := hw
    exact ⟨h0r, rfl, by simp [getWidth, outSort, hr1]⟩
  | Select c t f =>
    simp only [wfB, Bool.and_eq_true, beq_iff_eq] at hw
    obtain ⟨⟨⟨⟨⟨_, ht⟩, _⟩, _⟩, _⟩, _⟩ := hw
    exact widthA t ht
  | FSelect c t f =>
    simp only [wfB, Bool.and_eq_true, beq_iff_eq] at hw
    obtain ⟨⟨⟨⟨⟨_, ht⟩, _⟩, _⟩, _⟩, _⟩ := hw
    exact widthA t ht
  | Concat l r =>
    simp only [wfB, Bool.and_eq_true, beq_iff_eq] at hw
    obtain ⟨⟨⟨hl, hr⟩, hol⟩, hor⟩ := hw
    have pl := (widthA l hl).1
    have pr := (widthA r hr).1
    refine ⟨by simp [getWidth]; omega, rfl, ?_⟩
    simp [getWidth, outSort]
    omega
  | Extract src off w =>
    simp only [wfB, Bool.and_eq_true, beq_iff_eq, decide_eq_true_eq] at hw
    obtain ⟨⟨⟨_, _⟩, h0w⟩, _⟩ := hw
    by_cases h : w = 1
    · subst h
      exact ⟨Nat.one_pos, rfl, by simp [getWidth, outSort, sortWidth]⟩
    · exact ⟨h0w, by simp [getWidth, outSort, sortWidth, h],
        by simp [getWidth, outSort, h]⟩
  | ZExt src w =>
    simp only [wfB, Bool.and_eq_true, beq_iff_eq, decide_eq_true_eq] at hw
    obtain ⟨⟨hs, hlt⟩, _⟩ := hw
    have ps := (widthA src hs).1
    refine ⟨by simp [getWidth]; omega, rfl, ?_⟩
    simp [getWidth, outSort]
    omega
  | SExt src w =>
    simp only [wfB, Bool.and_eq_true, beq_iff_eq, decide_eq_true_eq] at hw
    obtain ⟨⟨hs, hlt⟩, _⟩ := hw
    have ps := (widthA src hs).1
    refine ⟨by simp [getWidth]; omega, rfl, ?_⟩
    simp [getWidth, outSort]
    omega
  | FExt rm src w =>
    simp only [wfB, Bool.and_eq_true, beq_iff_eq, decide_eq_true_eq] at hw
    obtain ⟨⟨⟨⟨_, _⟩, _⟩, hset⟩, _⟩ := hw
    rcases hset with h | h | h | h | h <;> subst h <;>
      simp [getWidth, outSort, floatOutSort, sortWidth, f80ArrSort]
  | UToF rm src w =>
    simp only [wfB, Bool.and_eq_true, beq_iff_eq, decide_eq_true_eq] at hw
    obtain ⟨⟨⟨_, _⟩, _⟩, hset⟩ := hw
    rcases hset with h | h | h | h | h <;> subst h <;>
      simp [getWidth, outSort, floatOutSort, sortWidth, f80ArrSort]
  | SToF rm src w =>
    simp only [wfB, Bool.and_eq_true, beq_iff_eq, decide_eq_true_eq] at hw
    obtain ⟨⟨⟨_, _⟩, _⟩, hset⟩ := hw
    rcases hset with h | h | h | h | h <;> subst h <;>
      simp [getWidth, outSort, floatOutSort, sortWidth, f80ArrSort]
  | FToU rm src w =>
    simp only [wfB, Bool.and_eq_true, beq_iff_eq, decide_eq_true_eq] at hw
    obtain ⟨⟨⟨_, _⟩, _⟩, h1w⟩ := hw
    refine ⟨by simp [getWidth]; omega, rfl, ?_⟩
    simp [getWidth, outSort]
    omega
  | FToS rm src w =>
    simp only [wfB, Bool.and_eq_true, beq_iff_eq, decide_eq_true_eq] at hw
    obtain ⟨⟨⟨_, _⟩, _⟩, h1w⟩ := hw
    refine ⟨by simp [getWidth]; omega, rfl, ?_⟩
    simp [getWidth, outSort]
    omega
  | ExplicitFloat src =>
    simp only [wfB, Bool.and_eq_true, beq_iff_eq, decide_eq_true_eq] at hw
    obtain ⟨⟨_, _⟩, hset⟩ := hw
    rcases hset with h | h | h | h | h <;>
      simp [getWidth, outSort, floatOutSort, sortWidth, f80ArrSort, h]
  | ExplicitInt src =>
    simp only [wfB, Bool.and_eq_true, beq_iff_eq, decide_eq_true_eq] at hw
    obtain ⟨⟨_, hset⟩, _⟩ := hw
    rcases hset with h | h <;>
      simp [getWidth, outSort, sortWidth, h]
  | FAbs e =>
    simp only [wfB, Bool.and_eq_true, beq_iff_eq, decide_eq_true_eq] at hw
    obtain ⟨⟨_, hset⟩, _⟩ := hw
    rcases hset with h | h | h <;>
      simp [getWidth, outSort, floatOutSort, sortWidth, f80ArrSort, h]
  | FSqrt rm e =>
    simp only [wfB, Bool.and_eq_true, beq_iff_eq, decide_eq_true_eq] at hw
    obtain ⟨⟨_, hset⟩, _⟩ := hw
    rcases hset with h | h | h <;>
      simp [getWidth, outSort, floatOutSort, sortWidth, f80ArrSort, h]
  | FNearbyInt rm e =>
    simp only [wfB, Bool.and_eq_true, beq_iff_eq, decide_eq_true_eq] at hw
    obtain ⟨⟨_, hset⟩, _⟩ := hw
    rcases hset with h | h | h <;>
      simp [getWidth, outSort, floatOutSort, sortWidth, f80ArrSort, h]
  | FpClassify e =>
    exact ⟨by norm_num [getWidth], rfl, by simp [getWidth, outSort]⟩
  | FIsFinite e =>
    exact ⟨by norm_num [getWidth], rfl, by simp [getWidth, outSort]⟩
  | FIsNan e =>
    exact ⟨by norm_num [getWidth], rfl, by simp [getWidth, outSort]⟩
  | FIsInf e =>
    exact ⟨by norm_num [getWidth], rfl, by simp [getWidth, outSort]⟩
  | Add l r =>
    simp only [wfB, Bool.and_eq_true, beq_iff_eq, decide_eq_true_eq] at hw
    obtain ⟨⟨⟨⟨⟨hl, _⟩, _⟩, hn1⟩, _⟩, _⟩ := hw
    have pl := (widthA l hl).1
    exact ⟨pl, rfl, by simp [getWidth, outSort, hn1]⟩
  | Sub l r =>
    simp only [wfB, Bool.and_eq_true, beq_iff_eq, decide_eq_true_eq] at hw
    obtain ⟨⟨⟨⟨⟨hl, _⟩, _⟩, hn1⟩, _⟩, _⟩ := hw
    have pl := (widthA l hl).1
    exact ⟨pl, rfl, by simp [getWidth, outSort, hn1]⟩
  | Mul l r =>
    simp only [wfB, Bool.and_eq_true, beq_iff_eq, decide_eq_true_eq] at hw
    obtain ⟨⟨⟨⟨⟨hl, _⟩, _⟩, hn1⟩, _⟩, _⟩ := hw
    have pl := (widthA l hl).1
    exact ⟨pl, rfl, by simp [getWidth, outSort, hn1]⟩
  | UDiv l r =>
    simp only [wfB, Bool.and_eq_true, beq_iff_eq, decide_eq_true_eq] at hw
    obtain ⟨⟨⟨⟨⟨hl, _⟩, _⟩, hn1⟩, _⟩, _⟩ := hw
    have pl := (widthA l hl).1
    exact ⟨pl, rfl, by simp [getWidth, outSort, hn1]⟩
  | SDiv l r =>
    simp only [wfB, Bool.and_eq_true, beq_iff_eq, decide_eq_true_eq] at hw
    obtain ⟨⟨⟨⟨⟨hl, _⟩, _⟩, hn1⟩, _⟩, _⟩ := hw
    have pl := (widthA l hl).1
    exact ⟨pl, rfl, by simp [getWidth, outSort, hn1]⟩
  | URem l r =>
    simp only [wfB, Bool.and_eq_true, beq_iff_eq, decide_eq_true_eq] at hw
    obtain ⟨⟨⟨⟨⟨hl, _⟩, _⟩, hn1⟩, _⟩, _⟩ := hw
    have pl := (widthA l hl).1
    exact ⟨pl, rfl, by simp [getWidth, outSort, hn1]⟩
  | SRem l r =>
    simp only [wfB, Bool.and_eq_true, beq_iff_eq, decide_eq_true_eq] at hw
    obtain ⟨⟨⟨⟨⟨hl, _⟩, _⟩, hn1⟩, _⟩, _⟩ := hw
    have pl := (widthA l hl).1
    exact ⟨pl, rfl, by simp [getWidth, outSort, hn1]⟩
  | Shl l r =>
    simp only [wfB, Bool.and_eq_true, beq_iff_eq, decide_eq_true_eq] at hw
    obtain ⟨⟨⟨⟨⟨hl, _⟩, _⟩, hn1⟩, _⟩, _⟩ := hw
    have pl := (widthA l hl).1
    exact ⟨pl, rfl, by simp [getWidth, outSort, hn1]⟩
  | LShr l r =>
    simp only [wfB, Bool.and_eq_true, beq_iff_eq, decide_eq_true_eq] at hw
    obtain ⟨⟨⟨⟨⟨hl, _⟩, _⟩, hn1⟩, _⟩, _⟩ := hw
    have pl := (widthA l hl).1
    exact ⟨pl, rfl, by simp [getWidth, outSort, hn1]⟩
  | AShr l r =>
    simp only [wfB, Bool.and_eq_true, beq_iff_eq, decide_eq_true_eq] at hw
    obtain ⟨⟨⟨⟨⟨hl, _⟩, _⟩, hn1⟩, _⟩, _⟩ := hw
    have pl := (widthA l hl).1
    exact ⟨pl, rfl, by simp [getWidth, outSort, hn1]⟩
  | Not e =>
    simp only [wfB, Bool.and_eq_true, beq_iff_eq] at hw
    obtain ⟨he, _⟩ := hw
    have pe := (widthA e he).1
    by_cases h : getWidth e = 1 <;>
      exact ⟨pe, by simp [getWidth, outSort, sortWidth, h],
        by simp [getWidth, outSort, h]⟩
  | And l r =>
    simp only [wfB, Bool.and_eq_true, beq_iff_eq, decide_eq_true_eq] at hw
    obtain ⟨⟨⟨⟨hl, _⟩, _⟩, _⟩, _⟩ := hw
    have pl := (widthA l hl).1
    by_cases h : getWidth l = 1 <;>
      exact ⟨pl, by simp [getWidth, outSort, sortWidth, h],
        by simp [getWidth, outSort, h]⟩
  | Or l r =>
    simp only [wfB, Bool.and_eq_true, beq_iff_eq, decide_eq_true_eq] at hw
    obtain ⟨⟨⟨⟨hl, _⟩, _⟩, _⟩, _⟩ := hw
    have pl := (widthA l hl).1
    by_cases h : getWidth l = 1 <;>
      exact ⟨pl, by simp [getWidth, outSort, sortWidth, h],
        by simp [getWidth, outSort, h]⟩
  | Xor l r =>
    simp only [wfB, Bool.and_eq_true, beq_iff_eq, decide_eq_true_eq] at hw
    obtain ⟨⟨⟨⟨hl, _⟩, _⟩, _⟩, _⟩ := hw
    have pl := (widthA l hl).1
    by_cases h : getWidth l = 1 <;>
      exact ⟨pl, by simp [getWidth, outSort, sortWidth, h],
        by simp [getWidth, outSort, h]⟩
  | FAdd rm l r =>
    simp only [wfB, Bool.and_eq_true, beq_iff_eq, decide_eq_true_eq] at hw
    obtain ⟨⟨⟨⟨⟨_, _⟩, _⟩, hset⟩, _⟩, _⟩ := hw
    rcases hset with h | h | h <;>
      simp [getWidth, outSort, floatOutSort, sortWidth, f80ArrSort, h]
  | FSub rm l r =>
    simp only [wfB, Bool.and_eq_true, beq_iff_eq, decide_eq_true_eq] at hw
    obtain ⟨⟨⟨⟨⟨_, _⟩, _⟩, hset⟩, _⟩, _⟩ := hw
    rcases hset with h | h | h <;>
      simp [getWidth, outSort, floatOutSort, sortWidth, f80ArrSort, h]
  | FMul rm l r =>
    simp only [wfB, Bool.and_eq_true, beq_iff_eq, decide_eq_true_eq] at hw
    obtain ⟨⟨⟨⟨⟨_, _⟩, _⟩, hset⟩, _⟩, _⟩ := hw
    rcases hset with h | h | h <;>
      simp [getWidth, outSort, floatOutSort, sortWidth, f80ArrSort, h]
  | FDiv rm l r =>
    simp only [wfB, Bool.and_eq_true, beq_iff_eq, decide_eq_true_eq] at hw
    obtain ⟨⟨⟨⟨⟨_, _⟩, _⟩, hset⟩, _⟩, _⟩ := hw
    rcases hset with h | h | h <;>
      simp [getWidth, outSort, floatOutSort, sortWidth, f80ArrSort, h]
  | FRem l r =>
    simp only [wfB, Bool.and_eq_true, beq_iff_eq, decide_eq_true_eq] at hw
    obtain ⟨⟨⟨⟨⟨_, _⟩, _⟩, hset⟩, _⟩, _⟩ := hw
    rcases hset with h | h | h <;>
      simp [getWidth, outSort, floatOutSort, sortWidth, f80ArrSort, h]
  | FMin l r =>
    simp only [wfB, Bool.and_eq_true, beq_iff_eq, decide_eq_true_eq] at hw
    obtain ⟨⟨⟨⟨⟨_, _⟩, _⟩, hset⟩, _⟩, _⟩ := hw
    rcases hset with h | h | h <;>
      simp [getWidth, outSort, floatOutSort, sortWidth, f80ArrSort, h]
  | FMax l r =>
    simp only [wfB, Bool.and_eq_true, beq_iff_eq, decide_eq_true_eq] at hw
    obtain ⟨⟨⟨⟨⟨_, _⟩, _⟩, hset⟩, _⟩, _⟩ := hw
    rcases hset with h | h | h <;>
      simp [getWidth, outSort, floatOutSort, sortWidth, f80ArrSort, h]
  | Eq l r =>
    exact ⟨Nat.one_pos, rfl, by simp [getWidth, outSort]⟩
  | Ult l r =>
    exact ⟨Nat.one_pos, rfl, by simp [getWidth, outSort]⟩
  | Ule l r =>
    exact ⟨Nat.one_pos, rfl, by simp [getWidth, outSort]⟩
  | Slt l r =>
    exact ⟨Nat.one_pos, rfl, by simp [getWidth, outSort]⟩
  | Sle l r =>
    exact ⟨Nat.one_pos, rfl, by simp [getWidth, outSort]⟩
  | FOrd l r =>
    exact ⟨Nat.one_pos, rfl, by simp [getWidth, outSort]⟩
  | FUno l r =>
    exact ⟨Nat.one_pos, rfl, by simp [getWidth, outSort]⟩
  | FUeq l r =>
    exact ⟨Nat.one_pos, rfl, by simp [getWidth, outSort]⟩
  | FOeq l r =>
    exact ⟨Nat.one_pos, rfl, by simp [getWidth, outSort]⟩
  | FUgt l r =>
    exact ⟨Nat.one_pos, rfl, by simp [getWidth, outSort]⟩
  | FOgt l r =>
    exact ⟨Nat.one_pos, rfl, by simp [getWidth, outSort]⟩
  | FUge l r =>
    exact ⟨Nat.one_pos, rfl, by simp [getWidth, outSort]⟩
  | FOge l r =>
    exact ⟨Nat.one_pos, rfl, by simp [getWidth, outSort]⟩
  | FUlt l r =>
    exact ⟨Nat.one_pos, rfl, by simp [getWidth, outSort]⟩
  | FOlt l r =>
    exact ⟨Nat.one_pos, rfl, by simp [getWidth, outSort]⟩
  | FUle l r =>
    exact ⟨Nat.one_pos, rfl, by simp [getWidth, outSort]⟩
  | FOle l r =>
    exact ⟨Nat.one_pos, rfl, by simp [getWidth, outSort]⟩
  | FUne l r =>
    exact ⟨Nat.one_pos, rfl, by simp [getWidth, outSort]⟩
  | FOne l r =>
    exact ⟨Nat.one_pos, rfl, by simp [getWidth, outSort]⟩

theorem sortOf_numeral (w v : Nat) (h : 0 < w) :
    sortOf (.numeral w v) = some (.bvS w) := by
  simp [sortOf, h]

theorem sortOf_bvConst32 (w v : Nat) (h : 0 < w) :
    sortOf (bvConst32 w v) = some (.bvS w) := by
  simp [bvConst32, mkNumeral, sortOf, h]

theorem sortOf_bvConst64 (w v : Nat) (h : 0 < w) :
    sortOf (bvConst64 w v) = some (.bvS w) := by
  simp [bvConst64, mkNumeral, sortOf, h]

theorem sortOf_concatE (a b : Z3Ast) (wa wb : Nat)
    (ha : sortOf a = some (.bvS wa)) (hb : sortOf b = some (.bvS wb)) :
    sortOf (.concatE a b) = some (.bvS (wa + wb)) := by
  simp [sortOf, ha, hb]

theorem sortOf_zextLoop (k : Nat) : ∀ (e : Z3Ast) (m : Nat), 0 < k →
    sortOf e = some (.bvS m) →
    sortOf (bvZExtConstLoop k e) = some (.bvS (k + m)) := by
  induction k using Nat.strong_induction_on with
  | _ k ih =>
    intro e m hk he
    rw [bvZExtConstLoop]
    by_cases h : 64 < k
    · simp only [if_pos h]
      rw [ih (k - 64) (by omega) _ (64 + m) (by omega)
        (sortOf_concatE _ _ 64 m (sortOf_bvConst64 64 0 (by norm_num)) he)]
      congr 2
      omega
    · simp only [if_neg h]
      exact sortOf_concatE _ _ k m (sortOf_bvConst64 k 0 hk) he

theorem sortOf_bvZExtConst (w v : Nat) (h : 0 < w) :
    sortOf (bvZExtConst w v) = some (.bvS w) := by
  rw [bvZExtConst]
  by_cases h64 : w ≤ 64
  · simp [h64, sortOf_bvConst64 w v h]
  · simp only [if_neg h64]
    rw [sortOf_zextLoop (w - 64) _ 64 (by omega)
      (sortOf_bvConst64 64 v (by norm_num))]
    congr 2
    omega

theorem sortOf_bvZero (w : Nat) (h : 0 < w) :
    sortOf (bvZero w) = some (.bvS w) := sortOf_bvZExtConst w 0 h

theorem sortOf_bvOne (w : Nat) (h : 0 < w) :
    sortOf (bvOne w) = some (.bvS w) := sortOf_bvZExtConst w 1 h

theorem sortOf_bvSExtConst (w v : Nat) (h : 0 < w) :
    sortOf (bvSExtConst w v) = some (.bvS w) := by
  rw [bvSExtConst]
  by_cases h64 : w ≤ 64
  · simp [h64, sortOf_bvConst64 w v h]
  · have hp : 0 < w - 64 := by omega
    have hc : ∀ x : Nat, sortOf (Z3Ast.concatE (mkNumeral (w - 64) x)
        (bvConst64 64 v)) = some (.bvS w) := by
      intro x
      rw [sortOf_concatE _ _ (w - 64) 64
        (by simp [mkNumeral, sortOf, hp]) (sortOf_bvConst64 64 v (by norm_num))]
      congr 2
      omega
    by_cases hs : v >>> 63 ≠ 0
    · simp only [if_neg h64, if_pos hs, mkNumeral]
      have := hc (2 ^ (w - 64) - 1)
      simpa [mkNumeral] using this
    · simp only [if_neg h64, if_neg hs, mkNumeral]
      have := hc 0
      simpa [mkNumeral] using this

theorem sortOf_bvMinusOne (w : Nat) (h : 0 < w) :
    sortOf (bvMinusOne w) = some (.bvS w) := sortOf_bvSExtConst w _ h

theorem sortOf_extractE (a : Z3Ast) (hi lo w : Nat)
    (ha : sortOf a = some (.bvS w)) (h1 : hi < w) (h2 : lo ≤ hi) :
    sortOf (.extractE hi lo a) = some (.bvS (hi - lo + 1)) := by
  simp [sortOf, ha, h1, h2]

theorem sortOf_eqE (a b : Z3Ast) (sa : Z3Sort) (ha : sortOf a = some sa)
    (hb : sortOf b = some sa) : sortOf (.eqE a b) = some .boolS := by
  simp [sortOf, ha, hb]

theorem sortOf_bvBoolExtract (a : Z3Ast) (w bit : Nat)
    (ha : sortOf a = some (.bvS w)) (h : bit < w) :
    sortOf (bvBoolExtract a bit) = some .boolS := by
  have he := sortOf_extractE a bit bit w ha h le_rfl
  simp only [Nat.sub_self, Nat.zero_add] at he
  exact sortOf_eqE _ _ (.bvS 1) he (sortOf_bvOne 1 Nat.one_pos)

theorem sortOf_iteE (c a b : Z3Ast) (sa : Z3Sort)
    (hc : sortOf c = some .boolS) (ha : sortOf a = some sa)
    (hb : sortOf b = some sa) : sortOf (.iteE c a b) = some sa := by
  simp [sortOf, hc, ha, hb]

theorem sortOf_bvRightShift (w k : Nat) (e : Z3Ast) (h0 : 0 < w)
    (he : sortOf e = some (.bvS w)) :
    sortOf (bvRightShift w e k) = some (.bvS w) := by
  rw [bvRightShift]
  by_cases h1 : k = 0
  · simp [h1, he]
  by_cases h2 : w ≤ k
  · simp [h1, h2, sortOf_bvZero w h0]
  · have hk : 0 < k := by omega
    simp only [h1, h2, if_neg, if_false, ite_false, bvExtract]
    rw [sortOf_concatE _ _ k (w - 1 - k + 1) (sortOf_bvZero k hk)
      (sortOf_extractE e (w - 1) k w he (by omega) (by omega))]
    congr 2
    omega

theorem sortOf_bvLeftShift (w k : Nat) (e : Z3Ast) (h0 : 0 < w)
    (he : sortOf e = some (.bvS w)) :
    sortOf (bvLeftShift w e k) = some (.bvS w) := by
  rw [bvLeftShift]
  by_cases h1 : k = 0
  · simp [h1, he]
  by_cases h2 : w ≤ k
  · simp [h1, h2, sortOf_bvZero w h0]
  · have hk : 0 < k := by omega
    simp only [h1, h2, if_neg, if_false, ite_false, bvExtract]
    rw [sortOf_concatE _ _ (w - k - 1 - 0 + 1) k
      (sortOf_extractE e (w - k - 1) 0 w he (by omega) (by omega))
      (sortOf_bvZero k hk)]
    congr 2
    omega

theorem sortOf_constructAShrByConstant (w k : Nat) (e s : Z3Ast) (h0 : 0 < w)
    (he : sortOf e = some (.bvS w)) (hs : sortOf s = some .boolS) :
    sortOf (constructAShrByConstant w e k s) = some (.bvS w) := by
  rw [constructAShrByConstant]
  by_cases h1 : k = 0
  · simp [h1, he]
  by_cases h2 : w ≤ k
  · simp [h1, h2, sortOf_bvZero w h0]
  · have hk : 0 < k := by omega
    simp only [h1, h2, if_neg, if_false, ite_false, bvExtract]
    refine sortOf_iteE _ _ _ (.bvS w) hs ?_ (sortOf_bvRightShift w k e h0 he)
    rw [sortOf_concatE _ _ k (w - 1 - k + 1) (sortOf_bvMinusOne k hk)
      (sortOf_extractE e (w - 1) k w he (by omega) (by omega))]
    congr 2
    omega

theorem sortOf_varLeftChain (w : Nat) (e sh : Z3Ast) (h0 : 0 < w)
    (he : sortOf e = some (.bvS w)) (hsh : sortOf sh = some (.bvS w)) :
    ∀ i, sortOf (bvVarLeftShiftChain w e sh i) = some (.bvS w) := by
  have H : ∀ n i, w - i ≤ n →
      sortOf (bvVarLeftShiftChain w e sh i) = some (.bvS w) := by
    intro n
    induction n with
    | zero =>
      intro i hi
      rw [bvVarLeftShiftChain]
      have : ¬ i < w := by omega
      simp [this, sortOf_bvZero w h0]
    | succ n ih =>
      intro i hi
      rw [bvVarLeftShiftChain]
      by_cases h : i < w
      · simp only [if_pos h]
        exact sortOf_iteE _ _ _ (.bvS w)
          (sortOf_eqE _ _ (.bvS w) hsh (sortOf_bvConst32 w i h0))
          (sortOf_bvLeftShift w i e h0 he) (ih (i + 1) (by omega))
      · simp [h, sortOf_bvZero w h0]
  exact fun i => H (w - i) i le_rfl

theorem sortOf_varRightChain (w : Nat) (e sh : Z3Ast) (h0 : 0 < w)
    (he : sortOf e = some (.bvS w)) (hsh : sortOf sh = some (.bvS w)) :
    ∀ i, sortOf (bvVarRightShiftChain w e sh i) = some (.bvS w) := by
  have H : ∀ n i, w - i ≤ n →
      sortOf (bvVarRightShiftChain w e sh i) = some (.bvS w) := by
    intro n
    induction n with
    | zero =>
      intro i hi
      rw [bvVarRightShiftChain]
      have : ¬ i < w := by omega
      simp [this, sortOf_bvZero w h0]
    | succ n ih =>
      intro i hi
      rw [bvVarRightShiftChain]
      by_cases h : i < w
      · simp only [if_pos h]
        exact sortOf_iteE _ _ _ (.bvS w)
          (sortOf_eqE _ _ (.bvS w) hsh (sortOf_bvConst32 w i h0))
          (sortOf_bvRightShift w i e h0 he) (ih (i + 1) (by omega))
      · simp [h, sortOf_bvZero w h0]
  exact fun i => H (w - i) i le_rfl

theorem sortOf_varAShrChain (w : Nat) (e sh sb : Z3Ast) (h0 : 0 < w)
    (he : sortOf e = some (.bvS w)) (hsh : sortOf sh = some (.bvS w))
    (hsb : sortOf sb = some .boolS) :
    ∀ i, sortOf (bvVarAShrChain w e sh sb i) = some (.bvS w) := by
  have H : ∀ n i, w - 1 - i ≤ n →
      sortOf (bvVarAShrChain w e sh sb i) = some (.bvS w) := by
    intro n
    induction n with
    | zero =>
      intro i hi
      rw [bvVarAShrChain]
      have : ¬ i < w - 1 := by omega
      simp [this, sortOf_constructAShrByConstant w (w - 1) e sb h0 he hsb]
    | succ n ih =>
      intro i hi
      rw [bvVarAShrChain]
      by_cases h : i < w - 1
      · simp only [if_pos h]
        exact sortOf_iteE _ _ _ (.bvS w)
          (sortOf_eqE _ _ (.bvS w) hsh (sortOf_bvConst32 w i h0))
          (sortOf_constructAShrByConstant w i e sb h0 he hsb)
          (ih (i + 1) (by omega))
      · simp [h, sortOf_constructAShrByConstant w (w - 1) e sb h0 he hsb]
  exact fun i => H (w - 1 - i) i le_rfl

theorem sortOf_bvultE (a b : Z3Ast) (w : Nat)
    (ha : sortOf a = some (.bvS w)) (hb : sortOf b = some (.bvS w)) :
    sortOf (.bvultE a b) = some .boolS := by
  simp [sortOf, bvCmpS, bvBinS, ha, hb]

theorem sortOf_bvVarLeftShift (w : Nat) (e sh : Z3Ast) (h0 : 0 < w)
    (he : sortOf e = some (.bvS w)) (hsh : sortOf sh = some (.bvS w)) :
    sortOf (bvVarLeftShift w w e sh) = some (.bvS w) := by
  rw [bvVarLeftShift]
  exact sortOf_iteE _ _ _ (.bvS w)
    (sortOf_bvultE _ _ w hsh (sortOf_bvConst32 w w h0))
    (sortOf_varLeftChain w e sh h0 he hsh 0) (sortOf_bvZero w h0)

theorem sortOf_bvVarRightShift (w : Nat) (e sh : Z3Ast) (h0 : 0 < w)
    (he : sortOf e = some (.bvS w)) (hsh : sortOf sh = some (.bvS w)) :
    sortOf (bvVarRightShift w w e sh) = some (.bvS w) := by
  rw [bvVarRightShift]
  exact sortOf_iteE _ _ _ (.bvS w)
    (sortOf_bvultE _ _ w hsh (sortOf_bvConst32 w w h0))
    (sortOf_varRightChain w e sh h0 he hsh 0) (sortOf_bvZero w h0)

theorem sortOf_bvVarArithRightShift (w : Nat) (e sh : Z3Ast) (h0 : 0 < w)
    (he : sortOf e = some (.bvS w)) (hsh : sortOf sh = some (.bvS w)) :
    sortOf (bvVarArithRightShift w w e sh) = some (.bvS w) := by
  have hsb := sortOf_bvBoolExtract e w (w - 1) he (by omega)
  rw [bvVarArithRightShift]
  exact sortOf_iteE _ _ _ (.bvS w)
    (sortOf_bvultE _ _ w hsh (sortOf_bvConst32 w w h0))
    (sortOf_varAShrChain w e sh _ h0 he hsh hsb 0) (sortOf_bvZero w h0)

theorem sortOf_storeE (a i v : Z3Ast) (d r : Z3Sort)
    (ha : sortOf a = some (.arrS d r)) (hi : sortOf i = some d)
    (hv : sortOf v = some r) : sortOf (.storeE a i v) = some (.arrS d r) := by
  simp [sortOf, ha, hi, hv]

theorem sortOf_selectE (a i : Z3Ast) (d r : Z3Sort)
    (ha : sortOf a = some (.arrS d r)) (hi : sortOf i = some d) :
    sortOf (.selectE a i) = some r := by
  simp [sortOf, ha, hi]

theorem sortOf_mkF80Arr (v0 v1 : Z3Ast) (h0 : sortOf v0 = some f80Sort)
    (h1 : sortOf v1 = some f80Sort) :
    sortOf (mkF80Arr v0 v1) = some f80ArrSort := by
  rw [mkF80Arr]
  refine sortOf_storeE _ _ _ (.bvS 1) f80Sort ?_
    (sortOf_bvOne 1 Nat.one_pos) h1
  exact sortOf_storeE _ _ _ (.bvS 1) f80Sort rfl
    (sortOf_bvZero 1 Nat.one_pos) h0

theorem sortOf_f80ConstArr (bits : Nat) :
    sortOf (f80ConstArr bits) = some f80ArrSort := by
  have hc : sortOf (Z3Ast.fpFpE (.numeral 1 (bits >>> 79 % 2))
      (.numeral 15 (bits >>> 64 % 2 ^ 15))
      (.numeral 63 (bits % 2 ^ 64 % 2 ^ 63))) = some f80Sort := by
    simp [sortOf, f80Sort]
  simp only [f80ConstArr]
  split
  · exact sortOf_mkF80Arr _ (.fpZeroE 15 64) hc rfl
  · exact sortOf_mkF80Arr _ (.fpNanE 15 64) hc rfl

theorem sortOf_wideLoop (w : Nat) : ∀ (v : Nat) (res : Z3Ast) (m : Nat),
    sortOf res = some (.bvS m) →
    sortOf (constantWideLoop v w res) = some (.bvS (m + (w - 64))) := by
  induction w using Nat.strong_induction_on with
  | _ w ih =>
    intro v res m hres
    rw [constantWideLoop]
    by_cases h : 64 < w
    · simp only [if_pos h]
      have hW : 0 < min 64 (w - 64) := by omega
      rw [ih (w - 64) (by omega) _ _ (min 64 (w - 64) + m)
        (sortOf_concatE _ _ _ m (sortOf_bvConst64 _ _ hW) hres)]
      have harith : min 64 (w - 64) + m + (w - 64 - 64) = m + (w - 64) := by
        omega
      rw [harith]
    · simp only [if_neg h]
      rw [hres]
      have harith : m = m + (w - 64) := by omega
      rw [← harith]

theorem sortOf_constantZ3 (w v : Nat) (h : 0 < w) :
    sortOf (constantZ3 w v) =
      some (if w = 1 then Z3Sort.boolS else .bvS w) := by
  rw [constantZ3]
  by_cases h1 : w = 1
  · by_cases hv : v = 1 <;> simp [h1, hv, sortOf]
  by_cases h2 : w ≤ 32
  · simp [h1, h2, sortOf_bvConst32 w v h]
  by_cases h3 : w ≤ 64
  · simp [h1, h2, h3, sortOf_bvConst64 w v h]
  · simp only [h1, h2, h3, if_neg, if_false, ite_false]
    rw [sortOf_wideLoop w v _ 64 (sortOf_bvConst64 64 v (by norm_num))]
    congr 2
    omega

theorem sortOf_buildConstWrites (d r : Nat) (h0d : 0 < d) (hd1 : d ≠ 1)
    (h0r : 0 < r) (hr1 : r ≠ 1) : ∀ (vals : List Nat) (i : Nat) (acc : Z3Ast),
    sortOf acc = some (.arrS (.bvS d) (.bvS r)) →
    sortOf (buildConstWrites d r i vals acc) =
      some (.arrS (.bvS d) (.bvS r)) := by
  intro vals
  induction vals with
  | nil =>
    intro i acc hacc
    simpa [buildConstWrites] using hacc
  | cons v vs ih =>
    intro i acc hacc
    rw [buildConstWrites]
    apply ih
    refine sortOf_storeE _ _ _ (.bvS d) (.bvS r) hacc ?_ ?_
    · rw [sortOf_constantZ3 d i h0d]
      simp [hd1]
    · rw [sortOf_constantZ3 r v h0r]
      simp [hr1]

theorem sortOf_getInitialArray (uid : String) (root : ArrayIR)
    (h0d : 0 < root.domain) (hd1 : root.domain ≠ 1)
    (h0r : 0 < root.range) (hr1 : root.range ≠ 1) :
    sortOf (getInitialArray uid root) =
      some (.arrS (.bvS root.domain) (.bvS root.range)) := by
  rw [getInitialArray]
  by_cases h : root.isConstantArr
  · simp only [h, ite_true]
    exact sortOf_buildConstWrites root.domain root.range h0d hd1 h0r hr1
      root.constantValues 0 _ rfl
  · simp [h, sortOf]

theorem sortOf_sel0 (a : Z3Ast) (ha : sortOf a = some f80ArrSort) :
    sortOf (sel0 a) = some f80Sort := by
  rw [sel0]
  exact sortOf_selectE a _ (.bvS 1) f80Sort ha (sortOf_bvZero 1 Nat.one_pos)

theorem sortOf_sel1 (a : Z3Ast) (ha : sortOf a = some f80ArrSort) :
    sortOf (sel1 a) = some f80Sort := by
  rw [sel1]
  exact sortOf_selectE a _ (.bvS 1) f80Sort ha (sortOf_bvOne 1 Nat.one_pos)

theorem sortOf_isNanE_f80 (a : Z3Ast) (ha : sortOf a = some f80Sort) :
    sortOf (.isNanE a) = some .boolS := by
  simp [sortOf, ha, f80Sort, fpPredS]

theorem sortOf_notE (a : Z3Ast) (ha : sortOf a = some .boolS) :
    sortOf (.notE a) = some .boolS := by
  simp [sortOf, ha]

theorem sortOf_andE (a b : Z3Ast) (ha : sortOf a = some .boolS)
    (hb : sortOf b = some .boolS) : sortOf (.andE a b) = some .boolS := by
  simp [sortOf, boolBinS, ha, hb]

theorem sortOf_orE (a b : Z3Ast) (ha : sortOf a = some .boolS)
    (hb : sortOf b = some .boolS) : sortOf (.orE a b) = some .boolS := by
  simp [sortOf, boolBinS, ha, hb]

theorem sortOf_orE3 (a b c : Z3Ast) (ha : sortOf a = some .boolS)
    (hb : sortOf b = some .boolS) (hc : sortOf c = some .boolS) :
    sortOf (.orE3 a b c) = some .boolS := by
  simp [sortOf, boolBinS, ha, hb, hc]

theorem sortOf_iffE (a b : Z3Ast) (ha : sortOf a = some .boolS)
    (hb : sortOf b = some .boolS) : sortOf (.iffE a b) = some .boolS := by
  simp [sortOf, boolBinS, ha, hb]

theorem sortOf_f80Wrong (la ra : Z3Ast) (hla : sortOf la = some f80ArrSort)
    (hra : sortOf ra = some f80ArrSort) :
    sortOf (f80Wrong la ra) = some .boolS := by
  rw [f80Wrong]
  exact sortOf_orE _ _ (sortOf_isNanE_f80 _ (sortOf_sel1 la hla))
    (sortOf_isNanE_f80 _ (sortOf_sel1 ra hra))

theorem sortOf_bvnotE (a : Z3Ast) (w : Nat) (ha : sortOf a = some (.bvS w)) :
    sortOf (.bvnotE a) = some (.bvS w) := by
  simp [sortOf, ha]

theorem sortOf_bvredorE (a : Z3Ast) (w : Nat) (ha : sortOf a = some (.bvS w)) :
    sortOf (.bvredorE a) = some (.bvS 1) := by
  simp [sortOf, ha]

theorem sortOf_signExtE (i : Nat) (a : Z3Ast) (w : Nat)
    (ha : sortOf a = some (.bvS w)) :
    sortOf (.signExtE i a) = some (.bvS (w + i)) := by
  simp [sortOf, ha]

theorem sortOf_bvandE (a b : Z3Ast) (w : Nat) (ha : sortOf a = some (.bvS w))
    (hb : sortOf b = some (.bvS w)) : sortOf (.bvandE a b) = some (.bvS w) := by
  simp [sortOf, bvBinS, ha, hb]

theorem sortOf_bvorE (a b : Z3Ast) (w : Nat) (ha : sortOf a = some (.bvS w))
    (hb : sortOf b = some (.bvS w)) : sortOf (.bvorE a b) = some (.bvS w) := by
  simp [sortOf, bvBinS, ha, hb]

theorem sortOf_bvxorE (a b : Z3Ast) (w : Nat) (ha : sortOf a = some (.bvS w))
    (hb : sortOf b = some (.bvS w)) : sortOf (.bvxorE a b) = some (.bvS w) := by
  simp [sortOf, bvBinS, ha, hb]

theorem sortOf_bvaddE (a b : Z3Ast) (w : Nat) (ha : sortOf a = some (.bvS w))
    (hb : sortOf b = some (.bvS w)) : sortOf (.bvaddE a b) = some (.bvS w) := by
  simp [sortOf, bvBinS, ha, hb]

theorem sortOf_bvsubE (a b : Z3Ast) (w : Nat) (ha : sortOf a = some (.bvS w))
    (hb : sortOf b = some (.bvS w)) : sortOf (.bvsubE a b) = some (.bvS w) := by
  simp [sortOf, bvBinS, ha, hb]

theorem sortOf_bvmulE (a b : Z3Ast) (w : Nat) (ha : sortOf a = some (.bvS w))
    (hb : sortOf b = some (.bvS w)) : sortOf (.bvmulE a b) = some (.bvS w) := by
  simp [sortOf, bvBinS, ha, hb]

theorem sortOf_bvudivE (a b : Z3Ast) (w : Nat) (ha : sortOf a = some (.bvS w))
    (hb : sortOf b = some (.bvS w)) : sortOf (.bvudivE a b) = some (.bvS w) := by
  simp [sortOf, bvBinS, ha, hb]

theorem sortOf_bvsdivE (a b : Z3Ast) (w : Nat) (ha : sortOf a = some (.bvS w))
    (hb : sortOf b = some (.bvS w)) : sortOf (.bvsdivE a b) = some (.bvS w) := by
  simp [sortOf, bvBinS, ha, hb]

theorem sortOf_bvuremE (a b : Z3Ast) (w : Nat) (ha : sortOf a = some (.bvS w))
    (hb : sortOf b = some (.bvS w)) : sortOf (.bvuremE a b) = some (.bvS w) := by
  simp [sortOf, bvBinS, ha, hb]

theorem sortOf_bvsremE (a b : Z3Ast) (w : Nat) (ha : sortOf a = some (.bvS w))
    (hb : sortOf b = some (.bvS w)) : sortOf (.bvsremE a b) = some (.bvS w) := by
  simp [sortOf, bvBinS, ha, hb]

theorem sortOf_bvuleE (a b : Z3Ast) (w : Nat) (ha : sortOf a = some (.bvS w))
    (hb : sortOf b = some (.bvS w)) : sortOf (.bvuleE a b) = some .boolS := by
  simp [sortOf, bvCmpS, bvBinS, ha, hb]

theorem sortOf_bvsltE (a b : Z3Ast) (w : Nat) (ha : sortOf a = some (.bvS w))
    (hb : sortOf b = some (.bvS w)) : sortOf (.bvsltE a b) = some .boolS := by
  simp [sortOf, bvCmpS, bvBinS, ha, hb]

theorem sortOf_bvsleE (a b : Z3Ast) (w : Nat) (ha : sortOf a = some (.bvS w))
    (hb : sortOf b = some (.bvS w)) : sortOf (.bvsleE a b) = some .boolS := by
  simp [sortOf, bvCmpS, bvBinS, ha, hb]

theorem sortOf_isNanE_fp (a : Z3Ast) (e0 s0 : Nat)
    (ha : sortOf a = some (.fpS e0 s0)) :
    sortOf (.isNanE a) = some .boolS := by
  simp [sortOf, fpPredS, ha]

theorem sortOf_isInfE (a : Z3Ast) (e0 s0 : Nat)
    (ha : sortOf a = some (.fpS e0 s0)) :
    sortOf (.isInfE a) = some .boolS := by
  simp [sortOf, fpPredS, ha]

theorem sortOf_isZeroE (a : Z3Ast) (e0 s0 : Nat)
    (ha : sortOf a = some (.fpS e0 s0)) :
    sortOf (.isZeroE a) = some .boolS := by
  simp [sortOf, fpPredS, ha]

theorem sortOf_isSubnormalE (a : Z3Ast) (e0 s0 : Nat)
    (ha : sortOf a = some (.fpS e0 s0)) :
    sortOf (.isSubnormalE a) = some .boolS := by
  simp [sortOf, fpPredS, ha]

theorem sortOf_isNegE (a : Z3Ast) (e0 s0 : Nat)
    (ha : sortOf a = some (.fpS e0 s0)) :
    sortOf (.isNegE a) = some .boolS := by
  simp [sortOf, fpPredS, ha]

theorem sortOf_fpAbsE (a : Z3Ast) (e0 s0 : Nat)
    (ha : sortOf a = some (.fpS e0 s0)) :
    sortOf (.fpAbsE a) = some (.fpS e0 s0) := by
  simp [sortOf, fpUnS, ha]

theorem sortOf_fpSqrtE (rm : RM) (a : Z3Ast) (e0 s0 : Nat)
    (ha : sortOf a = some (.fpS e0 s0)) :
    sortOf (.fpSqrtE rm a) = some (.fpS e0 s0) := by
  simp [sortOf, fpUnS, ha]

theorem sortOf_fpRoundIntE (rm : RM) (a : Z3Ast) (e0 s0 : Nat)
    (ha : sortOf a = some (.fpS e0 s0)) :
    sortOf (.fpRoundIntE rm a) = some (.fpS e0 s0) := by
  simp [sortOf, fpUnS, ha]

theorem sortOf_fpAddE (rm : RM) (a b : Z3Ast) (e0 s0 : Nat)
    (ha : sortOf a = some (.fpS e0 s0)) (hb : sortOf b = some (.fpS e0 s0)) :
    sortOf (.fpAddE rm a b) = some (.fpS e0 s0) := by
  simp [sortOf, fpBinS, ha, hb]

theorem sortOf_fpSubE (rm : RM) (a b : Z3Ast) (e0 s0 : Nat)
    (ha : sortOf a = some (.fpS e0 s0)) (hb : sortOf b = some (.fpS e0 s0)) :
    sortOf (.fpSubE rm a b) = some (.fpS e0 s0) := by
  simp [sortOf, fpBinS, ha, hb]

theorem sortOf_fpMulE (rm : RM) (a b : Z3Ast) (e0 s0 : Nat)
    (ha : sortOf a = some (.fpS e0 s0)) (hb : sortOf b = some (.fpS e0 s0)) :
    sortOf (.fpMulE rm a b) = some (.fpS e0 s0) := by
  simp [sortOf, fpBinS, ha, hb]

theorem sortOf_fpDivE (rm : RM) (a b : Z3Ast) (e0 s0 : Nat)
    (ha : sortOf a = some (.fpS e0 s0)) (hb : sortOf b = some (.fpS e0 s0)) :
    sortOf (.fpDivE rm a b) = some (.fpS e0 s0) := by
  simp [sortOf, fpBinS, ha, hb]

theorem sortOf_fpRemE (a b : Z3Ast) (e0 s0 : Nat)
    (ha : sortOf a = some (.fpS e0 s0)) (hb : sortOf b = some (.fpS e0 s0)) :
    sortOf (.fpRemE a b) = some (.fpS e0 s0) := by
  simp [sortOf, fpBinS, ha, hb]

theorem sortOf_fpMinE (a b : Z3Ast) (e0 s0 : Nat)
    (ha : sortOf a = some (.fpS e0 s0)) (hb : sortOf b = some (.fpS e0 s0)) :
    sortOf (.fpMinE a b) = some (.fpS e0 s0) := by
  simp [sortOf, fpBinS, ha, hb]

theorem sortOf_fpMaxE (a b : Z3Ast) (e0 s0 : Nat)
    (ha : sortOf a = some (.fpS e0 s0)) (hb : sortOf b = some (.fpS e0 s0)) :
    sortOf (.fpMaxE a b) = some (.fpS e0 s0) := by
  simp [sortOf, fpBinS, ha, hb]

theorem sortOf_fpEqE (a b : Z3Ast) (e0 s0 : Nat)
    (ha : sortOf a = some (.fpS e0 s0)) (hb : sortOf b = some (.fpS e0 s0)) :
    sortOf (.fpEqE a b) = some .boolS := by
  simp [sortOf, fpCmpS, fpBinS, ha, hb]

theorem sortOf_fpLtE (a b : Z3Ast) (e0 s0 : Nat)
    (ha : sortOf a = some (.fpS e0 s0)) (hb : sortOf b = some (.fpS e0 s0)) :
    sortOf (.fpLtE a b) = some .boolS := by
  simp [sortOf, fpCmpS, fpBinS, ha, hb]

theorem sortOf_fpLeqE (a b : Z3Ast) (e0 s0 : Nat)
    (ha : sortOf a = some (.fpS e0 s0)) (hb : sortOf b = some (.fpS e0 s0)) :
    sortOf (.fpLeqE a b) = some .boolS := by
  simp [sortOf, fpCmpS, fpBinS, ha, hb]

theorem sortOf_fpGtE (a b : Z3Ast) (e0 s0 : Nat)
    (ha : sortOf a = some (.fpS e0 s0)) (hb : sortOf b = some (.fpS e0 s0)) :
    sortOf (.fpGtE a b) = some .boolS := by
  simp [sortOf, fpCmpS, fpBinS, ha, hb]

theorem sortOf_fpGeqE (a b : Z3Ast) (e0 s0 : Nat)
    (ha : sortOf a = some (.fpS e0 s0)) (hb : sortOf b = some (.fpS e0 s0)) :
    sortOf (.fpGeqE a b) = some .boolS := by
  simp [sortOf, fpCmpS, fpBinS, ha, hb]

theorem sortOf_fpToFpBvE (a : Z3Ast) (k e s : Nat)
    (ha : sortOf a = some (.bvS k)) (hk : k = e + s) :
    sortOf (.fpToFpBvE a e s) = some (.fpS e s) := by
  simp [sortOf, ha, hk]

theorem sortOf_fpToFpFloatE (rm : RM) (a : Z3Ast) (e0 s0 e s : Nat)
    (ha : sortOf a = some (.fpS e0 s0)) :
    sortOf (.fpToFpFloatE rm a e s) = some (.fpS e s) := by
  simp [sortOf, ha]

theorem sortOf_fpToFpSignedE (rm : RM) (a : Z3Ast) (k e s : Nat)
    (ha : sortOf a = some (.bvS k)) :
    sortOf (.fpToFpSignedE rm a e s) = some (.fpS e s) := by
  simp [sortOf, ha]

theorem sortOf_fpToFpUnsignedE (rm : RM) (a : Z3Ast) (k e s : Nat)
    (ha : sortOf a = some (.bvS k)) :
    sortOf (.fpToFpUnsignedE rm a e s) = some (.fpS e s) := by
  simp [sortOf, ha]

theorem sortOf_fpToUbvE (rm : RM) (a : Z3Ast) (e0 s0 w : Nat)
    (ha : sortOf a = some (.fpS e0 s0)) (h : 0 < w) :
    sortOf (.fpToUbvE rm a w) = some (.bvS w) := by
  simp [sortOf, ha, h]

theorem sortOf_fpToSbvE (rm : RM) (a : Z3Ast) (e0 s0 w : Nat)
    (ha : sortOf a = some (.fpS e0 s0)) (h : 0 < w) :
    sortOf (.fpToSbvE rm a w) = some (.bvS w) := by
  simp [sortOf, ha, h]

theorem sortOf_fpToIeeeBvE (a : Z3Ast) (e0 s0 : Nat)
    (ha : sortOf a = some (.fpS e0 s0)) :
    sortOf (.fpToIeeeBvE a) = some (.bvS (e0 + s0)) := by
  simp [sortOf, ha]

theorem indexOfSingleBitAux_lt : ∀ (fuel x c : Nat), 0 < c → x < 2 ^ c →
    indexOfSingleBitAux fuel x < c := by
  intro fuel
  induction fuel with
  | zero => intro x c hc _; simpa [indexOfSingleBitAux] using hc
  | succ n ih =>
    intro x c hc hx
    rw [indexOfSingleBitAux]
    by_cases h : x ≤ 1
    · simpa [h] using hc
    · simp only [h, if_neg, ite_false]
      have hc2 : 2 ≤ c := by
        by_contra hcon
        have : c = 1 := by omega
        subst this
        simp at hx
        omega
      have hdiv : x / 2 < 2 ^ (c - 1) := by
        have h2 : (2 : Nat) ^ c = 2 ^ (c - 1) * 2 := by
          rw [← pow_succ]
          congr 1
          omega
        refine Nat.div_lt_of_lt_mul ?_
        rw [mul_comm]
        omega
      have := ih (x / 2) (c - 1) (by omega) hdiv
      omega

theorem powerOfTwoShift_shape (r : Expr) (k : Nat)
    (h : powerOfTwoShift r = some k) :
    ∃ cw cv, r = .Constant cw cv ∧ cw ≤ 64 ∧ isPowerOfTwo64 cv = true ∧
      k = indexOfSingleBit64 cv := by
  cases r <;> simp only [powerOfTwoShift] at h
  all_goals try exact Option.noConfusion h
  case Constant cw cv =>
    by_cases hb : (decide (cw ≤ 64) && isPowerOfTwo64 cv) = true
    · simp only [hb, if_pos, ite_true, Option.some.injEq] at h
      simp only [Bool.and_eq_true, decide_eq_true_eq] at hb
      exact ⟨cw, cv, rfl, hb.1, hb.2, h.symm⟩
    · simp [hb] at h

theorem constKindVal_shape (l : Expr) (cw cv : Nat)
    (h : constKindVal l = some (cw, cv)) : l = .Constant cw cv := by
  cases l <;> simp only [constKindVal] at h
  all_goals try exact Option.noConfusion h
  case Constant w v =>
    obtain ⟨h1, h2⟩ := Prod.mk.inj (Option.some.inj h)
    rw [h1, h2]

/-- Sort of the five-way classification chain produced for FpClassify. -/
theorem sortOf_classifyChain (x : Z3Ast) (e0 s0 : Nat)
    (hx : sortOf x = some (.fpS e0 s0)) :
    sortOf (.iteE (.isNanE x) (bvSExtConst 32 fpNanC)
      (.iteE (.isInfE x) (bvSExtConst 32 fpInfiniteC)
        (.iteE (.isZeroE x) (bvSExtConst 32 fpZeroC)
          (.iteE (.isSubnormalE x) (bvSExtConst 32 fpSubnormalC)
            (bvSExtConst 32 fpNormalC))))) = some (.bvS 32) := by
  have h32 : (0 : Nat) < 32 := by norm_num
  refine sortOf_iteE _ _ _ (.bvS 32) (sortOf_isNanE_fp x e0 s0 hx)
    (sortOf_bvSExtConst 32 fpNanC h32) ?_
  refine sortOf_iteE _ _ _ (.bvS 32) (sortOf_isInfE x e0 s0 hx)
    (sortOf_bvSExtConst 32 fpInfiniteC h32) ?_
  refine sortOf_iteE _ _ _ (.bvS 32) (sortOf_isZeroE x e0 s0 hx)
    (sortOf_bvSExtConst 32 fpZeroC h32) ?_
  exact sortOf_iteE _ _ _ (.bvS 32) (sortOf_isSubnormalE x e0 s0 hx)
    (sortOf_bvSExtConst 32 fpSubnormalC h32) (sortOf_bvSExtConst 32 fpNormalC h32)

/-- Sort of the FIsFinite chain. -/
theorem sortOf_finiteChain (x : Z3Ast) (e0 s0 : Nat)
    (hx : sortOf x = some (.fpS e0 s0)) :
    sortOf (.iteE (.orE (.isNanE x) (.isInfE x)) (bvZero 32) (bvOne 32)) =
      some (.bvS 32) :=
  sortOf_iteE _ _ _ (.bvS 32)
    (sortOf_orE _ _ (sortOf_isNanE_fp x e0 s0 hx) (sortOf_isInfE x e0 s0 hx))
    (sortOf_bvZero 32 (by norm_num)) (sortOf_bvOne 32 (by norm_num))

/-- Sort of the FIsNan chain. -/
theorem sortOf_isnanChain (x : Z3Ast) (e0 s0 : Nat)
    (hx : sortOf x = some (.fpS e0 s0)) :
    sortOf (.iteE (.isNanE x) (bvOne 32) (bvZero 32)) = some (.bvS 32) :=
  sortOf_iteE _ _ _ (.bvS 32) (sortOf_isNanE_fp x e0 s0 hx)
    (sortOf_bvOne 32 (by norm_num)) (sortOf_bvZero 32 (by norm_num))

/-- Sort of the FIsInf chain for non-80 operands. -/
theorem sortOf_isinfChain (x : Z3Ast) (e0 s0 : Nat)
    (hx : sortOf x = some (.fpS e0 s0)) :
    sortOf (.iteE (.isInfE x) (.iteE (.isNegE x) (bvMinusOne 32) (bvOne 32))
      (bvZero 32)) = some (.bvS 32) :=
  sortOf_iteE _ _ _ (.bvS 32) (sortOf_isInfE x e0 s0 hx)
    (sortOf_iteE _ _ _ (.bvS 32) (sortOf_isNegE x e0 s0 hx)
      (sortOf_bvMinusOne 32 (by norm_num)) (sortOf_bvOne 32 (by norm_num)))
    (sortOf_bvZero 32 (by norm_num))

/-- Sort of the FIsInf chain for F80 operands, which consults the
sentinel channel for NaN and the number channel for the sign. -/
theorem sortOf_isinf80Chain (a : Z3Ast) (ha : sortOf a = some f80ArrSort) :
    sortOf (.iteE (.isNanE (sel1 a)) (bvZero 32)
      (.iteE (.isInfE (sel0 a))
        (.iteE (.isNegE (sel0 a)) (bvMinusOne 32) (bvOne 32))
        (bvZero 32))) = some (.bvS 32) :=
  sortOf_iteE _ _ _ (.bvS 32) (sortOf_isNanE_fp _ 15 64 (sortOf_sel1 a ha))
    (sortOf_bvZero 32 (by norm_num)) (sortOf_isinfChain (sel0 a) 15 64 (sortOf_sel0 a ha))

mutual

/-- Under well-formedness, constructActual succeeds, reports getWidth,
and produces a term of the expected sort. -/
theorem sortSound (uidOf : ArrayIR → String) (e : Expr) (hw : wfB e = true) :
    ∃ a, constructActual uidOf e = some (a, getWidth e) ∧
      sortOf a = some (outSort e) := by
  cases e with
  | Constant w v =>
    simp only [wfB, Bool.and_eq_true, beq_iff_eq, decide_eq_true_eq] at hw
    obtain ⟨h0, hv⟩ := hw
    refine ⟨constantZ3 w v, rfl, ?_⟩
    rw [sortOf_constantZ3 w v h0]
    rfl
  | FConstant w bits =>
    simp only [wfB, Bool.and_eq_true, beq_iff_eq, decide_eq_true_eq] at hw
    rcases hw with h | h | h <;> subst h
    · exact ⟨.fpNumeral32 bits, rfl, rfl⟩
    · exact ⟨.fpNumeral64 bits, rfl, rfl⟩
    · exact ⟨f80ConstArr bits, rfl, sortOf_f80ConstArr bits⟩
  | NotOptimized s =>
    obtain ⟨a, ha, hs⟩ := sortSound uidOf s hw
    exact ⟨a, by simp [constructActual, getWidth, ha], hs⟩
  | Read root ul idx =>
    simp only [wfB, Bool.and_eq_true, beq_iff_eq, decide_eq_true_eq] at hw
    obtain ⟨⟨⟨⟨⟨⟨hidx, hul⟩, hoidx⟩, h0d⟩, hd1⟩, h0r⟩, hr1⟩ := hw
    obtain ⟨aa, haa, hsaa⟩ := sortSoundU uidOf root ul hul h0d hd1 h0r hr1
    obtain ⟨ia, hia, hsia⟩ := sortSound uidOf idx hidx
    rw [hoidx] at hsia
    refine ⟨.selectE aa ia, by simp [constructActual, getWidth, haa, hia], ?_⟩
    have hout : outSort (.Read root ul idx) = Z3Sort.bvS root.range := rfl
    rw [hout]
    exact sortOf_selectE aa ia (.bvS root.domain) (.bvS root.range) hsaa hsia
  | Select c t f =>
    simp only [wfB, Bool.and_eq_true, beq_iff_eq, decide_eq_true_eq] at hw
    obtain ⟨⟨⟨⟨⟨hc, ht⟩, hf⟩, hoc⟩, hots⟩, hwts⟩ := hw
    obtain ⟨ca, hca, hsc⟩ := sortSound uidOf c hc
    obtain ⟨ta, hta, hst⟩ := sortSound uidOf t ht
    obtain ⟨fa, hfa, hsf⟩ := sortSound uidOf f hf
    rw [hoc] at hsc
    rw [← hots] at hsf
    refine ⟨.iteE ca ta fa,
      by simp [constructActual, getWidth, hca, hta, hfa, hwts], ?_⟩
    have hout : outSort (.Select c t f) = outSort t := rfl
    rw [hout]
    exact sortOf_iteE _ _ _ (outSort t) hsc hst hsf
  | FSelect c t f =>
    simp only [wfB, Bool.and_eq_true, beq_iff_eq, decide_eq_true_eq] at hw
    obtain ⟨⟨⟨⟨⟨hc, ht⟩, hf⟩, hoc⟩, hots⟩, hwts⟩ := hw
    obtain ⟨ca, hca, hsc⟩ := sortSound uidOf c hc
    obtain ⟨ta, hta, hst⟩ := sortSound uidOf t ht
    obtain ⟨fa, hfa, hsf⟩ := sortSound uidOf f hf
    rw [hoc] at hsc
    rw [← hots] at hsf
    refine ⟨.iteE ca ta fa,
      by simp [constructActual, getWidth, hca, hta, hfa, hwts], ?_⟩
    have hout : outSort (.FSelect c t f) = outSort t := rfl
    rw [hout]
    exact sortOf_iteE _ _ _ (outSort t) hsc hst hsf
  | Concat l r =>
    simp only [wfB, Bool.and_eq_true, beq_iff_eq, decide_eq_true_eq] at hw
    obtain ⟨⟨⟨hl, hr⟩, hol⟩, hor⟩ := hw
    obtain ⟨la, hla, hsl⟩ := sortSound uidOf l hl
    obtain ⟨ra, hra, hsr⟩ := sortSound uidOf r hr
    rw [hol] at hsl
    rw [hor] at hsr
    refine ⟨.concatE la ra, by simp [constructActual, getWidth, hla, hra], ?_⟩
    have hout : outSort (.Concat l r) = Z3Sort.bvS (getWidth l + getWidth r) := rfl
    rw [hout]
    exact sortOf_concatE la ra _ _ hsl hsr
  | Extract src off w =>
    simp only [wfB, Bool.and_eq_true, beq_iff_eq, decide_eq_true_eq] at hw
    obtain ⟨⟨⟨hs, hos⟩, h0w⟩, hbound⟩ := hw
    obtain ⟨sa, hsa, hss⟩ := sortSound uidOf src hs
    rw [hos] at hss
    by_cases h1 : w = 1
    · subst h1
      refine ⟨bvBoolExtract sa off, by simp [constructActual, getWidth, hsa], ?_⟩
      have hout : outSort (.Extract src off 1) = Z3Sort.boolS := by simp [outSort]
      rw [hout]
      exact sortOf_bvBoolExtract sa (getWidth src) off hss (by omega)
    · refine ⟨bvExtract sa (off + w - 1) off,
        by simp [constructActual, getWidth, hsa, h1], ?_⟩
      have hout : outSort (.Extract src off w) = Z3Sort.bvS w := by simp [outSort, h1]
      rw [hout, bvExtract,
        sortOf_extractE sa (off + w - 1) off (getWidth src) hss (by omega) (by omega)]
      have harith : off + w - 1 - off + 1 = w := by omega
      rw [harith]
  | ZExt src w =>
    simp only [wfB, Bool.and_eq_true, beq_iff_eq, decide_eq_true_eq] at hw
    obtain ⟨⟨hs, hlt⟩, hos⟩ := hw
    obtain ⟨sa, hsa, hss⟩ := sortSound uidOf src hs
    have h0s := (widthA src hs).1
    by_cases h1 : getWidth src = 1
    · simp [h1] at hos
      rw [hos] at hss
      refine ⟨.iteE sa (bvOne w) (bvZero w), by simp [constructActual, getWidth, hsa, h1], ?_⟩
      have hout : outSort (.ZExt src w) = Z3Sort.bvS w := rfl
      rw [hout]
      exact sortOf_iteE _ _ _ (.bvS w) hss (sortOf_bvOne w (by omega)) (sortOf_bvZero w (by omega))
    · simp [h1] at hos
      rw [hos] at hss
      refine ⟨.concatE (bvZero (w - getWidth src)) sa,
        by simp [constructActual, getWidth, hsa, h1], ?_⟩
      have hout : outSort (.ZExt src w) = Z3Sort.bvS w := rfl
      rw [hout,
        sortOf_concatE _ _ (w - getWidth src) (getWidth src)
          (sortOf_bvZero _ (by omega)) hss]
      have harith : w - getWidth src + getWidth src = w := by omega
      rw [harith]
  | SExt src w =>
    simp only [wfB, Bool.and_eq_true, beq_iff_eq, decide_eq_true_eq] at hw
    obtain ⟨⟨hs, hlt⟩, hos⟩ := hw
    obtain ⟨sa, hsa, hss⟩ := sortSound uidOf src hs
    have h0s := (widthA src hs).1
    by_cases h1 : getWidth src = 1
    · simp [h1] at hos
      rw [hos] at hss
      refine ⟨.iteE sa (bvMinusOne w) (bvZero w), by simp [constructActual, getWidth, hsa, h1], ?_⟩
      have hout : outSort (.SExt src w) = Z3Sort.bvS w := rfl
      rw [hout]
      exact sortOf_iteE _ _ _ (.bvS w) hss (sortOf_bvMinusOne w (by omega)) (sortOf_bvZero w (by omega))
    · simp [h1] at hos
      rw [hos] at hss
      refine ⟨.signExtE (w - getWidth src) sa,
        by simp [constructActual, getWidth, hsa, h1], ?_⟩
      have hout : outSort (.SExt src w) = Z3Sort.bvS w := rfl
      rw [hout, sortOf_signExtE (w - getWidth src) sa (getWidth src) hss]
      have harith : getWidth src + (w - getWidth src) = w := by omega
      rw [harith]
  | FExt rm src w =>
    simp only [wfB, Bool.and_eq_true, beq_iff_eq, decide_eq_true_eq] at hw
    obtain ⟨⟨⟨⟨hs, hset⟩, hos⟩, hwset⟩, hne⟩ := hw
    obtain ⟨sa, hsa, hss⟩ := sortSound uidOf src hs
    rw [hos] at hss
    rcases hwset with hwt | hwt | hwt | hwt | hwt <;> subst hwt
    · by_cases h80 : getWidth src = 80
      · rw [h80] at hss
        refine ⟨.iteE (.isNanE (sel1 sa)) (.fpNanE 5 11)
          (.fpToFpFloatE rm (sel0 sa) 5 11),
          by simp [constructActual, getWidth, hsa, h80,
            show fpDims 16 = some (5, 11) from rfl], ?_⟩
        exact sortOf_iteE _ _ _ (.fpS 5 11)
          (sortOf_isNanE_fp _ 15 64 (sortOf_sel1 sa hss)) rfl
          (sortOf_fpToFpFloatE rm _ 15 64 5 11 (sortOf_sel0 sa hss))
      · rcases hset with h2 | h2 | h2
        · rw [h2] at hss
          refine ⟨.fpToFpFloatE rm sa 5 11,
            by simp [constructActual, getWidth, hsa, h80,
              show fpDims 16 = some (5, 11) from rfl], ?_⟩
          exact sortOf_fpToFpFloatE rm sa 8 24 5 11 hss
        · rw [h2] at hss
          refine ⟨.fpToFpFloatE rm sa 5 11,
            by simp [constructActual, getWidth, hsa, h80,
              show fpDims 16 = some (5, 11) from rfl], ?_⟩
          exact sortOf_fpToFpFloatE rm sa 11 53 5 11 hss
        · exact absurd h2 h80
    · by_cases h80 : getWidth src = 80
      · rw [h80] at hss
        refine ⟨.iteE (.isNanE (sel1 sa)) (.fpNanE 8 24)
          (.fpToFpFloatE rm (sel0 sa) 8 24),
          by simp [constructActual, getWidth, hsa, h80,
            show fpDims 32 = some (8, 24) from rfl], ?_⟩
        exact sortOf_iteE _ _ _ (.fpS 8 24)
          (sortOf_isNanE_fp _ 15 64 (sortOf_sel1 sa hss)) rfl
          (sortOf_fpToFpFloatE rm _ 15 64 8 24 (sortOf_sel0 sa hss))
      · rcases hset with h2 | h2 | h2
        · rw [h2] at hss
          refine ⟨.fpToFpFloatE rm sa 8 24,
            by simp [constructActual, getWidth, hsa, h80,
              show fpDims 32 = some (8, 24) from rfl], ?_⟩
          exact sortOf_fpToFpFloatE rm sa 8 24 8 24 hss
        · rw [h2] at hss
          refine ⟨.fpToFpFloatE rm sa 8 24,
            by simp [constructActual, getWidth, hsa, h80,
              show fpDims 32 = some (8, 24) from rfl], ?_⟩
          exact sortOf_fpToFpFloatE rm sa 11 53 8 24 hss
        · exact absurd h2 h80
    · by_cases h80 : getWidth src = 80
      · rw [h80] at hss
        refine ⟨.iteE (.isNanE (sel1 sa)) (.fpNanE 11 53)
          (.fpToFpFloatE rm (sel0 sa) 11 53),
          by simp [constructActual, getWidth, hsa, h80,
            show fpDims 64 = some (11, 53) from rfl], ?_⟩
        exact sortOf_iteE _ _ _ (.fpS 11 53)
          (sortOf_isNanE_fp _ 15 64 (sortOf_sel1 sa hss)) rfl
          (sortOf_fpToFpFloatE rm _ 15 64 11 53 (sortOf_sel0 sa hss))
      · rcases hset with h2 | h2 | h2
        · rw [h2] at hss
          refine ⟨.fpToFpFloatE rm sa 11 53,
            by simp [constructActual, getWidth, hsa, h80,
              show fpDims 64 = some (11, 53) from rfl], ?_⟩
          exact sortOf_fpToFpFloatE rm sa 8 24 11 53 hss
        · rw [h2] at hss
          refine ⟨.fpToFpFloatE rm sa 11 53,
            by simp [constructActual, getWidth, hsa, h80,
              show fpDims 64 = some (11, 53) from rfl], ?_⟩
          exact sortOf_fpToFpFloatE rm sa 11 53 11 53 hss
        · exact absurd h2 h80
    · have h80 : getWidth src ≠ 80 := fun hh => hne ⟨rfl, hh⟩
      refine ⟨mkF80Arr (.fpToFpFloatE rm sa 15 64) (.fpZeroE 15 64),
        by simp [constructActual, getWidth, hsa], ?_⟩
      refine sortOf_mkF80Arr _ _ ?_ rfl
      rcases hset with h2 | h2 | h2
      · rw [h2] at hss
        exact sortOf_fpToFpFloatE rm sa 8 24 15 64 hss
      · rw [h2] at hss
        exact sortOf_fpToFpFloatE rm sa 11 53 15 64 hss
      · exact absurd h2 h80
    · by_cases h80 : getWidth src = 80
      · rw [h80] at hss
        refine ⟨.iteE (.isNanE (sel1 sa)) (.fpNanE 15 113)
          (.fpToFpFloatE rm (sel0 sa) 15 113),
          by simp [constructActual, getWidth, hsa, h80,
            show fpDims 128 = some (15, 113) from rfl], ?_⟩
        exact sortOf_iteE _ _ _ (.fpS 15 113)
          (sortOf_isNanE_fp _ 15 64 (sortOf_sel1 sa hss)) rfl
          (sortOf_fpToFpFloatE rm _ 15 64 15 113 (sortOf_sel0 sa hss))
      · rcases hset with h2 | h2 | h2
        · rw [h2] at hss
          refine ⟨.fpToFpFloatE rm sa 15 113,
            by simp [constructActual, getWidth, hsa, h80,
              show fpDims 128 = some (15, 113) from rfl], ?_⟩
          exact sortOf_fpToFpFloatE rm sa 8 24 15 113 hss
        · rw [h2] at hss
          refine ⟨.fpToFpFloatE rm sa 15 113,
            by simp [constructActual, getWidth, hsa, h80,
              show fpDims 128 = some (15, 113) from rfl], ?_⟩
          exact sortOf_fpToFpFloatE rm sa 11 53 15 113 hss
        · exact absurd h2 h80
  | FToU rm src w =>
    simp only [wfB, Bool.and_eq_true, beq_iff_eq, decide_eq_true_eq] at hw
    obtain ⟨⟨⟨hs, hset⟩, hos⟩, h1w⟩ := hw
    obtain ⟨sa, hsa, hss⟩ := sortSound uidOf src hs
    rw [hos] at hss
    by_cases h80 : getWidth src = 80
    · rw [h80] at hss
      refine ⟨.iteE (.isNanE (sel1 sa)) (bvZero w) (.fpToUbvE rm (sel0 sa) w),
        by simp [constructActual, getWidth, hsa, h80], ?_⟩
      exact sortOf_iteE _ _ _ (.bvS w)
        (sortOf_isNanE_fp _ 15 64 (sortOf_sel1 sa hss)) (sortOf_bvZero w (by omega))
        (sortOf_fpToUbvE rm _ 15 64 w (sortOf_sel0 sa hss) (by omega))
    · rcases hset with h2 | h2 | h2
      · rw [h2] at hss
        refine ⟨.fpToUbvE rm sa w,
          by simp [constructActual, getWidth, hsa, h80], ?_⟩
        exact sortOf_fpToUbvE rm sa 8 24 w hss (by omega)
      · rw [h2] at hss
        refine ⟨.fpToUbvE rm sa w,
          by simp [constructActual, getWidth, hsa, h80], ?_⟩
        exact sortOf_fpToUbvE rm sa 11 53 w hss (by omega)
      · exact absurd h2 h80
  | FToS rm src w =>
    simp only [wfB, Bool.and_eq_true, beq_iff_eq, decide_eq_true_eq] at hw
    obtain ⟨⟨⟨hs, hset⟩, hos⟩, h1w⟩ := hw
    obtain ⟨sa, hsa, hss⟩ := sortSound uidOf src hs
    rw [hos] at hss
    rcases hset with h2 | h2
    · have h80 : getWidth src ≠ 80 := by omega
      rw [h2] at hss
      refine ⟨.fpToSbvE rm sa w,
        by simp [constructActual, getWidth, hsa, h80], ?_⟩
      exact sortOf_fpToSbvE rm sa 8 24 w hss (by omega)
    · have h80 : getWidth src ≠ 80 := by omega
      rw [h2] at hss
      refine ⟨.fpToSbvE rm sa w,
        by simp [constructActual, getWidth, hsa, h80], ?_⟩
      exact sortOf_fpToSbvE rm sa 11 53 w hss (by omega)
  | UToF rm src w =>
    simp only [wfB, Bool.and_eq_true, beq_iff_eq, decide_eq_true_eq] at hw
    obtain ⟨⟨⟨hs, hn1⟩, hos⟩, hwset⟩ := hw
    obtain ⟨sa, hsa, hss⟩ := sortSound uidOf src hs
    rw [hos] at hss
    rcases hwset with hwt | hwt | hwt | hwt | hwt <;> subst hwt
    · refine ⟨.fpToFpUnsignedE rm sa 5 11,
        by simp [constructActual, getWidth, hsa,
          show fpDims 16 = some (5, 11) from rfl], ?_⟩
      exact sortOf_fpToFpUnsignedE rm sa (getWidth src) 5 11 hss
    · refine ⟨.fpToFpUnsignedE rm sa 8 24,
        by simp [constructActual, getWidth, hsa,
          show fpDims 32 = some (8, 24) from rfl], ?_⟩
      exact sortOf_fpToFpUnsignedE rm sa (getWidth src) 8 24 hss
    · refine ⟨.fpToFpUnsignedE rm sa 11 53,
        by simp [constructActual, getWidth, hsa,
          show fpDims 64 = some (11, 53) from rfl], ?_⟩
      exact sortOf_fpToFpUnsignedE rm sa (getWidth src) 11 53 hss
    · refine ⟨mkF80Arr (.fpToFpUnsignedE rm sa 15 64) (.fpZeroE 15 64),
        by simp [constructActual, getWidth, hsa], ?_⟩
      exact sortOf_mkF80Arr _ _
        (sortOf_fpToFpUnsignedE rm sa (getWidth src) 15 64 hss) rfl
    · refine ⟨.fpToFpUnsignedE rm sa 15 113,
        by simp [constructActual, getWidth, hsa,
          show fpDims 128 = some (15, 113) from rfl], ?_⟩
      exact sortOf_fpToFpUnsignedE rm sa (getWidth src) 15 113 hss
  | SToF rm src w =>
    simp only [wfB, Bool.and_eq_true, beq_iff_eq, decide_eq_true_eq] at hw
    obtain ⟨⟨⟨hs, hn1⟩, hos⟩, hwset⟩ := hw
    obtain ⟨sa, hsa, hss⟩ := sortSound uidOf src hs
    rw [hos] at hss
    rcases hwset with hwt | hwt | hwt | hwt | hwt <;> subst hwt
    · refine ⟨.fpToFpSignedE rm sa 5 11,
        by simp [constructActual, getWidth, hsa,
          show fpDims 16 = some (5, 11) from rfl], ?_⟩
      exact sortOf_fpToFpSignedE rm sa (getWidth src) 5 11 hss
    · refine ⟨.fpToFpSignedE rm sa 8 24,
        by simp [constructActual, getWidth, hsa,
          show fpDims 32 = some (8, 24) from rfl], ?_⟩
      exact sortOf_fpToFpSignedE rm sa (getWidth src) 8 24 hss
    · refine ⟨.fpToFpSignedE rm sa 11 53,
        by simp [constructActual, getWidth, hsa,
          show fpDims 64 = some (11, 53) from rfl], ?_⟩
      exact sortOf_fpToFpSignedE rm sa (getWidth src) 11 53 hss
    · refine ⟨mkF80Arr (.fpToFpUnsignedE rm sa 15 64) (.fpZeroE 15 64),
        by simp [constructActual, getWidth, hsa], ?_⟩
      exact sortOf_mkF80Arr _ _
        (sortOf_fpToFpUnsignedE rm sa (getWidth src) 15 64 hss) rfl
    · refine ⟨.fpToFpSignedE rm sa 15 113,
        by simp [constructActual, getWidth, hsa,
          show fpDims 128 = some (15, 113) from rfl], ?_⟩
      exact sortOf_fpToFpSignedE rm sa (getWidth src) 15 113 hss
  | ExplicitFloat src =>
    simp only [wfB, Bool.and_eq_true, beq_iff_eq, decide_eq_true_eq] at hw
    obtain ⟨⟨hs, hos⟩, hset⟩ := hw
    obtain ⟨sa, hsa, hss⟩ := sortSound uidOf src hs
    rw [hos] at hss
    rcases hset with h2 | h2 | h2 | h2 | h2
    · rw [h2] at hss
      refine ⟨.fpToFpBvE sa 5 11,
        by simp [constructActual, getWidth, hsa, h2,
          show fpDims 16 = some (5, 11) from rfl], ?_⟩
      have hout : outSort (.ExplicitFloat src) =
          Z3Sort.fpS 5 11 := by simp [outSort, floatOutSort, h2]
      rw [hout]
      exact sortOf_fpToFpBvE sa 16 5 11 hss (by norm_num)
    · rw [h2] at hss
      refine ⟨.fpToFpBvE sa 8 24,
        by simp [constructActual, getWidth, hsa, h2,
          show fpDims 32 = some (8, 24) from rfl], ?_⟩
      have hout : outSort (.ExplicitFloat src) =
          Z3Sort.fpS 8 24 := by simp [outSort, floatOutSort, h2]
      rw [hout]
      exact sortOf_fpToFpBvE sa 32 8 24 hss (by norm_num)
    · rw [h2] at hss
      refine ⟨.fpToFpBvE sa 11 53,
        by simp [constructActual, getWidth, hsa, h2,
          show fpDims 64 = some (11, 53) from rfl], ?_⟩
      have hout : outSort (.ExplicitFloat src) =
          Z3Sort.fpS 11 53 := by simp [outSort, floatOutSort, h2]
      rw [hout]
      exact sortOf_fpToFpBvE sa 64 11 53 hss (by norm_num)
    · rw [h2] at hss
      refine ⟨mkF80Arr
        (.fpToFpBvE (.concatE (.concatE (.extractE 79 79 sa) (.extractE 78 64 sa))
          (.extractE 62 0 sa)) 15 64)
        (.iteE (.eqE (.extractE 63 63 sa)
            (.iteE (.eqE (.bvredorE (.extractE 78 64 sa)) (bvZero 1)) (bvZero 1)
              (bvOne 1)))
          (.fpZeroE 15 64) (.fpNanE 15 64)),
        by simp [constructActual, getWidth, hsa, h2], ?_⟩
      have hout : outSort (.ExplicitFloat src) = f80ArrSort := by
        simp [outSort, floatOutSort, h2]
      rw [hout]
      have hsign : sortOf (Z3Ast.extractE 79 79 sa) = some (.bvS 1) :=
        sortOf_extractE sa 79 79 80 hss (by omega) (by omega)
      have hexp : sortOf (Z3Ast.extractE 78 64 sa) = some (.bvS 15) :=
        sortOf_extractE sa 78 64 80 hss (by omega) (by omega)
      have hhid : sortOf (Z3Ast.extractE 63 63 sa) = some (.bvS 1) :=
        sortOf_extractE sa 63 63 80 hss (by omega) (by omega)
      have hmnt : sortOf (Z3Ast.extractE 62 0 sa) = some (.bvS 63) :=
        sortOf_extractE sa 62 0 80 hss (by omega) (by omega)
      refine sortOf_mkF80Arr _ _ ?_ ?_
      · refine sortOf_fpToFpBvE _ 79 15 64 ?_ (by norm_num)
        exact sortOf_concatE _ _ 16 63 (sortOf_concatE _ _ 1 15 hsign hexp) hmnt
      · refine sortOf_iteE _ _ _ f80Sort ?_ rfl rfl
        refine sortOf_eqE _ _ (.bvS 1) hhid ?_
        refine sortOf_iteE _ _ _ (.bvS 1) ?_ (sortOf_bvZero 1 Nat.one_pos)
          (sortOf_bvOne 1 Nat.one_pos)
        refine sortOf_eqE _ _ (.bvS 1) ?_ (sortOf_bvZero 1 Nat.one_pos)
        exact sortOf_bvredorE _ 15 hexp
    · rw [h2] at hss
      refine ⟨.fpToFpBvE sa 15 113,
        by simp [constructActual, getWidth, hsa, h2,
          show fpDims 128 = some (15, 113) from rfl], ?_⟩
      have hout : outSort (.ExplicitFloat src) =
          Z3Sort.fpS 15 113 := by simp [outSort, floatOutSort, h2]
      rw [hout]
      exact sortOf_fpToFpBvE sa 128 15 113 hss (by norm_num)
  | ExplicitInt src =>
    simp only [wfB, Bool.and_eq_true, beq_iff_eq, decide_eq_true_eq] at hw
    obtain ⟨⟨hs, hset⟩, hos⟩ := hw
    obtain ⟨sa, hsa, hss⟩ := sortSound uidOf src hs
    rw [hos] at hss
    rcases hset with h2 | h2
    · have h80 : getWidth src ≠ 80 := by omega
      rw [h2] at hss
      refine ⟨.fpToIeeeBvE sa,
        by simp [constructActual, getWidth, hsa, h80], ?_⟩
      have hout : outSort (.ExplicitInt src) = Z3Sort.bvS (getWidth src) := rfl
      rw [hout, h2]
      exact sortOf_fpToIeeeBvE sa 8 24 hss
    · have h80 : getWidth src ≠ 80 := by omega
      rw [h2] at hss
      refine ⟨.fpToIeeeBvE sa,
        by simp [constructActual, getWidth, hsa, h80], ?_⟩
      have hout : outSort (.ExplicitInt src) = Z3Sort.bvS (getWidth src) := rfl
      rw [hout, h2]
      exact sortOf_fpToIeeeBvE sa 11 53 hss
  | FAbs e =>
    simp only [wfB, Bool.and_eq_true, beq_iff_eq, decide_eq_true_eq] at hw
    obtain ⟨⟨he1, hset⟩, hoe⟩ := hw
    obtain ⟨ea, hea, hse⟩ := sortSound uidOf e he1
    rw [hoe] at hse
    by_cases h80 : getWidth e = 80
    · rw [h80] at hse
      refine ⟨.storeE ea (bvZero 1) (.fpAbsE (sel0 ea)),
        by simp [constructActual, getWidth, hea, h80], ?_⟩
      have hout : outSort (.FAbs e) = f80ArrSort := by
        simp [outSort, floatOutSort, h80]
      rw [hout]
      exact sortOf_storeE _ _ _ (.bvS 1) f80Sort hse
        (sortOf_bvZero 1 Nat.one_pos) (sortOf_fpAbsE _ 15 64 (sortOf_sel0 ea hse))
    · rcases hset with h2 | h2 | h2
      · rw [h2] at hse
        refine ⟨.fpAbsE ea, by simp [constructActual, getWidth, hea, h80], ?_⟩
        have hout : outSort (.FAbs e) =
            Z3Sort.fpS 8 24 := by simp [outSort, floatOutSort, h2]
        rw [hout]
        exact sortOf_fpAbsE ea 8 24 hse
      · rw [h2] at hse
        refine ⟨.fpAbsE ea, by simp [constructActual, getWidth, hea, h80], ?_⟩
        have hout : outSort (.FAbs e) =
            Z3Sort.fpS 11 53 := by simp [outSort, floatOutSort, h2]
        rw [hout]
        exact sortOf_fpAbsE ea 11 53 hse
      · exact absurd h2 h80
  | FpClassify e =>
    simp only [wfB, Bool.and_eq_true, beq_iff_eq, decide_eq_true_eq] at hw
    obtain ⟨⟨he1, hset⟩, hoe⟩ := hw
    obtain ⟨ea, hea, hse⟩ := sortSound uidOf e he1
    rw [hoe] at hse
    by_cases h80 : getWidth e = 80
    · rw [h80] at hse
      refine ⟨_, ?_, sortOf_classifyChain (sel0 ea) 15 64 (sortOf_sel0 ea hse)⟩
      simp [constructActual, getWidth, hea, h80]
    · rcases hset with h2 | h2 | h2
      · rw [h2] at hse
        refine ⟨_, ?_, sortOf_classifyChain ea 8 24 hse⟩
        simp [constructActual, getWidth, hea, h80]
      · rw [h2] at hse
        refine ⟨_, ?_, sortOf_classifyChain ea 11 53 hse⟩
        simp [constructActual, getWidth, hea, h80]
      · exact absurd h2 h80
  | FIsFinite e =>
    simp only [wfB, Bool.and_eq_true, beq_iff_eq, decide_eq_true_eq] at hw
    obtain ⟨⟨he1, hset⟩, hoe⟩ := hw
    obtain ⟨ea, hea, hse⟩ := sortSound uidOf e he1
    rw [hoe] at hse
    by_cases h80 : getWidth e = 80
    · rw [h80] at hse
      refine ⟨_, ?_, sortOf_finiteChain (sel0 ea) 15 64 (sortOf_sel0 ea hse)⟩
      simp [constructActual, getWidth, hea, h80]
    · rcases hset with h2 | h2 | h2
      · rw [h2] at hse
        refine ⟨_, ?_, sortOf_finiteChain ea 8 24 hse⟩
        simp [constructActual, getWidth, hea, h80]
      · rw [h2] at hse
        refine ⟨_, ?_, sortOf_finiteChain ea 11 53 hse⟩
        simp [constructActual, getWidth, hea, h80]
      · exact absurd h2 h80
  | FIsNan e =>
    simp only [wfB, Bool.and_eq_true, beq_iff_eq, decide_eq_true_eq] at hw
    obtain ⟨⟨he1, hset⟩, hoe⟩ := hw
    obtain ⟨ea, hea, hse⟩ := sortSound uidOf e he1
    rw [hoe] at hse
    by_cases h80 : getWidth e = 80
    · rw [h80] at hse
      refine ⟨_, ?_, sortOf_isnanChain (sel0 ea) 15 64 (sortOf_sel0 ea hse)⟩
      simp [constructActual, getWidth, hea, h80]
    · rcases hset with h2 | h2 | h2
      · rw [h2] at hse
        refine ⟨_, ?_, sortOf_isnanChain ea 8 24 hse⟩
        simp [constructActual, getWidth, hea, h80]
      · rw [h2] at hse
        refine ⟨_, ?_, sortOf_isnanChain ea 11 53 hse⟩
        simp [constructActual, getWidth, hea, h80]
      · exact absurd h2 h80
  | FIsInf e =>
    simp only [wfB, Bool.and_eq_true, beq_iff_eq, decide_eq_true_eq] at hw
    obtain ⟨⟨he1, hset⟩, hoe⟩ := hw
    obtain ⟨ea, hea, hse⟩ := sortSound uidOf e he1
    rw [hoe] at hse
    by_cases h80 : getWidth e = 80
    · rw [h80] at hse
      refine ⟨_, ?_, sortOf_isinf80Chain ea hse⟩
      simp [constructActual, getWidth, hea, h80]
    · rcases hset with h2 | h2 | h2
      · rw [h2] at hse
        refine ⟨_, ?_, sortOf_isinfChain ea 8 24 hse⟩
        simp [constructActual, getWidth, hea, h80]
      · rw [h2] at hse
        refine ⟨_, ?_, sortOf_isinfChain ea 11 53 hse⟩
        simp [constructActual, getWidth, hea, h80]
      · exact absurd h2 h80
  | FSqrt rm e =>
    simp only [wfB, Bool.and_eq_true, beq_iff_eq, decide_eq_true_eq] at hw
    obtain ⟨⟨he1, hset⟩, hoe⟩ := hw
    obtain ⟨ea, hea, hse⟩ := sortSound uidOf e he1
    rw [hoe] at hse
    by_cases h80 : getWidth e = 80
    · rw [h80] at hse
      refine ⟨mkF80Arr (.iteE (.isNanE (sel1 ea)) (.fpNanE 15 64)
        (.fpSqrtE rm (sel0 ea))) (.fpZeroE 15 64),
        by simp [constructActual, getWidth, hea, h80], ?_⟩
      have hout : outSort (.FSqrt rm e) = f80ArrSort := by
        simp [outSort, floatOutSort, h80]
      rw [hout]
      refine sortOf_mkF80Arr _ _ ?_ rfl
      exact sortOf_iteE _ _ _ f80Sort
        (sortOf_isNanE_fp _ 15 64 (sortOf_sel1 ea hse)) rfl
        (sortOf_fpSqrtE rm _ 15 64 (sortOf_sel0 ea hse))
    · rcases hset with h2 | h2 | h2
      · rw [h2] at hse
        refine ⟨.fpSqrtE rm ea, by simp [constructActual, getWidth, hea, h80], ?_⟩
        have hout : outSort (.FSqrt rm e) =
            Z3Sort.fpS 8 24 := by simp [outSort, floatOutSort, h2]
        rw [hout]
        exact sortOf_fpSqrtE rm ea 8 24 hse
      · rw [h2] at hse
        refine ⟨.fpSqrtE rm ea, by simp [constructActual, getWidth, hea, h80], ?_⟩
        have hout : outSort (.FSqrt rm e) =
            Z3Sort.fpS 11 53 := by simp [outSort, floatOutSort, h2]
        rw [hout]
        exact sortOf_fpSqrtE rm ea 11 53 hse
      · exact absurd h2 h80
  | FNearbyInt rm e =>
    simp only [wfB, Bool.and_eq_true, beq_iff_eq, decide_eq_true_eq] at hw
    obtain ⟨⟨he1, hset⟩, hoe⟩ := hw
    obtain ⟨ea, hea, hse⟩ := sortSound uidOf e he1
    rw [hoe] at hse
    by_cases h80 : getWidth e = 80
    · rw [h80] at hse
      refine ⟨mkF80Arr (.iteE (.isNanE (sel1 ea)) (.fpNanE 15 64)
        (.fpRoundIntE rm (sel0 ea))) (.fpZeroE 15 64),
        by simp [constructActual, getWidth, hea, h80], ?_⟩
      have hout : outSort (.FNearbyInt rm e) = f80ArrSort := by
        simp [outSort, floatOutSort, h80]
      rw [hout]
      refine sortOf_mkF80Arr _ _ ?_ rfl
      exact sortOf_iteE _ _ _ f80Sort
        (sortOf_isNanE_fp _ 15 64 (sortOf_sel1 ea hse)) rfl
        (sortOf_fpRoundIntE rm _ 15 64 (sortOf_sel0 ea hse))
    · rcases hset with h2 | h2 | h2
      · rw [h2] at hse
        refine ⟨.fpRoundIntE rm ea, by simp [constructActual, getWidth, hea, h80], ?_⟩
        have hout : outSort (.FNearbyInt rm e) =
            Z3Sort.fpS 8 24 := by simp [outSort, floatOutSort, h2]
        rw [hout]
        exact sortOf_fpRoundIntE rm ea 8 24 hse
      · rw [h2] at hse
        refine ⟨.fpRoundIntE rm ea, by simp [constructActual, getWidth, hea, h80], ?_⟩
        have hout : outSort (.FNearbyInt rm e) =
            Z3Sort.fpS 11 53 := by simp [outSort, floatOutSort, h2]
        rw [hout]
        exact sortOf_fpRoundIntE rm ea 11 53 hse
      · exact absurd h2 h80
  | Add l r =>
    simp only [wfB, Bool.and_eq_true, beq_iff_eq, decide_eq_true_eq] at hw
    obtain ⟨⟨⟨⟨⟨hl, hr⟩, hww⟩, hn1⟩, hol⟩, hor⟩ := hw
    obtain ⟨la, hla, hsl⟩ := sortSound uidOf l hl
    obtain ⟨ra, hra, hsr⟩ := sortSound uidOf r hr
    rw [hol] at hsl
    rw [hor] at hsr
    rw [← hww] at hsr
    refine ⟨.bvaddE la ra, by simp [constructActual, getWidth, hla, hra, hww], ?_⟩
    have hout : outSort (.Add l r) = Z3Sort.bvS (getWidth l) := rfl
    rw [hout]
    exact sortOf_bvaddE la ra (getWidth l) hsl hsr
  | Sub l r =>
    simp only [wfB, Bool.and_eq_true, beq_iff_eq, decide_eq_true_eq] at hw
    obtain ⟨⟨⟨⟨⟨hl, hr⟩, hww⟩, hn1⟩, hol⟩, hor⟩ := hw
    obtain ⟨la, hla, hsl⟩ := sortSound uidOf l hl
    obtain ⟨ra, hra, hsr⟩ := sortSound uidOf r hr
    rw [hol] at hsl
    rw [hor] at hsr
    rw [← hww] at hsr
    refine ⟨.bvsubE la ra, by simp [constructActual, getWidth, hla, hra, hww], ?_⟩
    have hout : outSort (.Sub l r) = Z3Sort.bvS (getWidth l) := rfl
    rw [hout]
    exact sortOf_bvsubE la ra (getWidth l) hsl hsr
  | Mul l r =>
    simp only [wfB, Bool.and_eq_true, beq_iff_eq, decide_eq_true_eq] at hw
    obtain ⟨⟨⟨⟨⟨hl, hr⟩, hww⟩, hn1⟩, hol⟩, hor⟩ := hw
    obtain ⟨la, hla, hsl⟩ := sortSound uidOf l hl
    obtain ⟨ra, hra, hsr⟩ := sortSound uidOf r hr
    rw [hol] at hsl
    rw [hor] at hsr
    rw [← hww] at hsr
    refine ⟨.bvmulE la ra, by simp [constructActual, getWidth, hla, hra, hww], ?_⟩
    have hout : outSort (.Mul l r) = Z3Sort.bvS (getWidth l) := rfl
    rw [hout]
    exact sortOf_bvmulE la ra (getWidth l) hsl hsr
  | SDiv l r =>
    simp only [wfB, Bool.and_eq_true, beq_iff_eq, decide_eq_true_eq] at hw
    obtain ⟨⟨⟨⟨⟨hl, hr⟩, hww⟩, hn1⟩, hol⟩, hor⟩ := hw
    obtain ⟨la, hla, hsl⟩ := sortSound uidOf l hl
    obtain ⟨ra, hra, hsr⟩ := sortSound uidOf r hr
    rw [hol] at hsl
    rw [hor] at hsr
    rw [← hww] at hsr
    refine ⟨.bvsdivE la ra, by simp [constructActual, getWidth, hla, hra, hww], ?_⟩
    have hout : outSort (.SDiv l r) = Z3Sort.bvS (getWidth l) := rfl
    rw [hout]
    exact sortOf_bvsdivE la ra (getWidth l) hsl hsr
  | SRem l r =>
    simp only [wfB, Bool.and_eq_true, beq_iff_eq, decide_eq_true_eq] at hw
    obtain ⟨⟨⟨⟨⟨hl, hr⟩, hww⟩, hn1⟩, hol⟩, hor⟩ := hw
    obtain ⟨la, hla, hsl⟩ := sortSound uidOf l hl
    obtain ⟨ra, hra, hsr⟩ := sortSound uidOf r hr
    rw [hol] at hsl
    rw [hor] at hsr
    rw [← hww] at hsr
    refine ⟨.bvsremE la ra, by simp [constructActual, getWidth, hla, hra, hww], ?_⟩
    have hout : outSort (.SRem l r) = Z3Sort.bvS (getWidth l) := rfl
    rw [hout]
    exact sortOf_bvsremE la ra (getWidth l) hsl hsr
  | UDiv l r =>
    simp only [wfB, Bool.and_eq_true, beq_iff_eq, decide_eq_true_eq] at hw
    obtain ⟨⟨⟨⟨⟨hl, hr⟩, hww⟩, hn1⟩, hol⟩, hor⟩ := hw
    obtain ⟨la, hla, hsl⟩ := sortSound uidOf l hl
    have h0 := (widthA l hl).1
    rw [hol] at hsl
    cases hp : powerOfTwoShift r with
    | some k =>
      refine ⟨bvRightShift (getWidth l) la k,
        by simp [constructActual, getWidth, hla, hp], ?_⟩
      have hout : outSort (.UDiv l r) = Z3Sort.bvS (getWidth l) := rfl
      rw [hout]
      exact sortOf_bvRightShift (getWidth l) k la h0 hsl
    | none =>
      obtain ⟨ra, hra, hsr⟩ := sortSound uidOf r hr
      rw [hor] at hsr
      rw [← hww] at hsr
      refine ⟨.bvudivE la ra,
        by simp [constructActual, getWidth, hla, hra, hp, hww], ?_⟩
      have hout : outSort (.UDiv l r) = Z3Sort.bvS (getWidth l) := rfl
      rw [hout]
      exact sortOf_bvudivE la ra (getWidth l) hsl hsr
  | URem l r =>
    simp only [wfB, Bool.and_eq_true, beq_iff_eq, decide_eq_true_eq] at hw
    obtain ⟨⟨⟨⟨⟨hl, hr⟩, hww⟩, hn1⟩, hol⟩, hor⟩ := hw
    obtain ⟨la, hla, hsl⟩ := sortSound uidOf l hl
    have h0 := (widthA l hl).1
    rw [hol] at hsl
    cases hp : powerOfTwoShift r with
    | some k =>
      obtain ⟨cw, cv, hrC, hcw64, hpow, hk⟩ := powerOfTwoShift_shape r k hp
      have hcv : 0 < cw ∧ cv < 2 ^ cw := by
        rw [hrC] at hr
        simp only [wfB, Bool.and_eq_true, decide_eq_true_eq] at hr
        exact hr
      have hwl : getWidth l = cw := by
        rw [hrC] at hww
        simpa [getWidth] using hww
      have hkw : k < getWidth l := by
        rw [hk, indexOfSingleBit64, hwl]
        exact indexOfSingleBitAux_lt 64 cv cw hcv.1 hcv.2
      by_cases hk0 : k = 0
      · refine ⟨bvZero (getWidth l),
          by simp [constructActual, getWidth, hla, hp, hk0], ?_⟩
        have hout : outSort (.URem l r) = Z3Sort.bvS (getWidth l) := rfl
        rw [hout]
        exact sortOf_bvZero _ h0
      · refine ⟨.concatE (bvZero (getWidth l - k)) (bvExtract la (k - 1) 0),
          by simp [constructActual, getWidth, hla, hp, hk0], ?_⟩
        have hout : outSort (.URem l r) = Z3Sort.bvS (getWidth l) := rfl
        rw [hout]
        have he : sortOf (bvExtract la (k - 1) 0) = some (.bvS k) := by
          rw [bvExtract,
            sortOf_extractE la (k - 1) 0 (getWidth l) hsl (by omega) (by omega)]
          have harith : k - 1 - 0 + 1 = k := by omega
          rw [harith]
        rw [sortOf_concatE _ _ (getWidth l - k) k
          (sortOf_bvZero _ (by omega)) he]
        have harith2 : getWidth l - k + k = getWidth l := by omega
        rw [harith2]
    | none =>
      obtain ⟨ra, hra, hsr⟩ := sortSound uidOf r hr
      rw [hor] at hsr
      rw [← hww] at hsr
      refine ⟨.bvuremE la ra,
        by simp [constructActual, getWidth, hla, hra, hp, hww], ?_⟩
      have hout : outSort (.URem l r) = Z3Sort.bvS (getWidth l) := rfl
      rw [hout]
      exact sortOf_bvuremE la ra (getWidth l) hsl hsr
  | Not e =>
    simp only [wfB, Bool.and_eq_true, beq_iff_eq, decide_eq_true_eq] at hw
    obtain ⟨he1, hoe⟩ := hw
    obtain ⟨ea, hea, hse⟩ := sortSound uidOf e he1
    by_cases h1 : getWidth e = 1
    · simp [h1] at hoe
      rw [hoe] at hse
      refine ⟨.notE ea, by simp [constructActual, getWidth, hea, h1], ?_⟩
      have hout : outSort (.Not e) = Z3Sort.boolS := by simp [outSort, h1]
      rw [hout]
      exact sortOf_notE ea hse
    · simp [h1] at hoe
      rw [hoe] at hse
      refine ⟨.bvnotE ea, by simp [constructActual, getWidth, hea, h1], ?_⟩
      have hout : outSort (.Not e) = Z3Sort.bvS (getWidth e) := by simp [outSort, h1]
      rw [hout]
      exact sortOf_bvnotE ea (getWidth e) hse
  | And l r =>
    simp only [wfB, Bool.and_eq_true, beq_iff_eq, decide_eq_true_eq] at hw
    obtain ⟨⟨⟨⟨hl, hr⟩, hww⟩, hol⟩, hor⟩ := hw
    obtain ⟨la, hla, hsl⟩ := sortSound uidOf l hl
    obtain ⟨ra, hra, hsr⟩ := sortSound uidOf r hr
    by_cases h1 : getWidth r = 1
    · have hl1 : getWidth l = 1 := by omega
      simp [hl1] at hol
      simp [h1] at hor
      rw [hol] at hsl
      rw [hor] at hsr
      refine ⟨.andE la ra,
        by simp [constructActual, getWidth, hla, hra, h1, hww], ?_⟩
      have hout : outSort (.And l r) = Z3Sort.boolS := by simp [outSort, hl1]
      rw [hout]
      exact sortOf_andE la ra hsl hsr
    · have hl1 : getWidth l ≠ 1 := by omega
      simp [hl1] at hol
      simp [h1] at hor
      rw [hol] at hsl
      rw [hor] at hsr
      rw [hww] at hsl
      refine ⟨.bvandE la ra,
        by simp [constructActual, getWidth, hla, hra, h1, hww], ?_⟩
      have hout : outSort (.And l r) = Z3Sort.bvS (getWidth l) := by
        simp [outSort, hl1]
      rw [hout, hww]
      exact sortOf_bvandE la ra (getWidth r) hsl hsr
  | Or l r =>
    simp only [wfB, Bool.and_eq_true, beq_iff_eq, decide_eq_true_eq] at hw
    obtain ⟨⟨⟨⟨hl, hr⟩, hww⟩, hol⟩, hor⟩ := hw
    obtain ⟨la, hla, hsl⟩ := sortSound uidOf l hl
    obtain ⟨ra, hra, hsr⟩ := sortSound uidOf r hr
    by_cases h1 : getWidth r = 1
    · have hl1 : getWidth l = 1 := by omega
      simp [hl1] at hol
      simp [h1] at hor
      rw [hol] at hsl
      rw [hor] at hsr
      refine ⟨.orE la ra,
        by simp [constructActual, getWidth, hla, hra, h1, hww], ?_⟩
      have hout : outSort (.Or l r) = Z3Sort.boolS := by simp [outSort, hl1]
      rw [hout]
      exact sortOf_orE la ra hsl hsr
    · have hl1 : getWidth l ≠ 1 := by omega
      simp [hl1] at hol
      simp [h1] at hor
      rw [hol] at hsl
      rw [hor] at hsr
      rw [hww] at hsl
      refine ⟨.bvorE la ra,
        by simp [constructActual, getWidth, hla, hra, h1, hww], ?_⟩
      have hout : outSort (.Or l r) = Z3Sort.bvS (getWidth l) := by
        simp [outSort, hl1]
      rw [hout, hww]
      exact sortOf_bvorE la ra (getWidth r) hsl hsr
  | Xor l r =>
    simp only [wfB, Bool.and_eq_true, beq_iff_eq, decide_eq_true_eq] at hw
    obtain ⟨⟨⟨⟨hl, hr⟩, hww⟩, hol⟩, hor⟩ := hw
    obtain ⟨la, hla, hsl⟩ := sortSound uidOf l hl
    obtain ⟨ra, hra, hsr⟩ := sortSound uidOf r hr
    by_cases h1 : getWidth r = 1
    · have hl1 : getWidth l = 1 := by omega
      simp [hl1] at hol
      simp [h1] at hor
      rw [hol] at hsl
      rw [hor] at hsr
      refine ⟨.iteE la (.notE ra) ra,
        by simp [constructActual, getWidth, hla, hra, h1, hww], ?_⟩
      have hout : outSort (.Xor l r) = Z3Sort.boolS := by simp [outSort, hl1]
      rw [hout]
      exact sortOf_iteE _ _ _ .boolS hsl (sortOf_notE ra hsr) hsr
    · have hl1 : getWidth l ≠ 1 := by omega
      simp [hl1] at hol
      simp [h1] at hor
      rw [hol] at hsl
      rw [hor] at hsr
      rw [hww] at hsl
      refine ⟨.bvxorE la ra,
        by simp [constructActual, getWidth, hla, hra, h1, hww], ?_⟩
      have hout : outSort (.Xor l r) = Z3Sort.bvS (getWidth l) := by
        simp [outSort, hl1]
      rw [hout, hww]
      exact sortOf_bvxorE la ra (getWidth r) hsl hsr
  | Shl l r =>
    simp only [wfB, Bool.and_eq_true, beq_iff_eq, decide_eq_true_eq] at hw
    obtain ⟨⟨⟨⟨⟨hl, hr⟩, hww⟩, hn1⟩, hol⟩, hor⟩ := hw
    obtain ⟨la, hla, hsl⟩ := sortSound uidOf l hl
    have h0 := (widthA l hl).1
    rw [hol] at hsl
    cases hca : constShiftAmount r with
    | some k =>
      refine ⟨bvLeftShift (getWidth l) la k,
        by simp [constructActual, getWidth, hla, hca], ?_⟩
      have hout : outSort (.Shl l r) = Z3Sort.bvS (getWidth l) := rfl
      rw [hout]
      exact sortOf_bvLeftShift (getWidth l) k la h0 hsl
    | none =>
      obtain ⟨ra, hra, hsr⟩ := sortSound uidOf r hr
      rw [hor] at hsr
      refine ⟨bvVarLeftShift (getWidth l) (getWidth r) la ra,
        by simp [constructActual, getWidth, hla, hra, hca], ?_⟩
      have hout : outSort (.Shl l r) = Z3Sort.bvS (getWidth l) := rfl
      rw [hout, hww]
      rw [hww] at hsl h0
      exact sortOf_bvVarLeftShift (getWidth r) la ra h0 hsl hsr
  | LShr l r =>
    simp only [wfB, Bool.and_eq_true, beq_iff_eq, decide_eq_true_eq] at hw
    obtain ⟨⟨⟨⟨⟨hl, hr⟩, hww⟩, hn1⟩, hol⟩, hor⟩ := hw
    obtain ⟨la, hla, hsl⟩ := sortSound uidOf l hl
    have h0 := (widthA l hl).1
    rw [hol] at hsl
    cases hca : constShiftAmount r with
    | some k =>
      refine ⟨bvRightShift (getWidth l) la k,
        by simp [constructActual, getWidth, hla, hca], ?_⟩
      have hout : outSort (.LShr l r) = Z3Sort.bvS (getWidth l) := rfl
      rw [hout]
      exact sortOf_bvRightShift (getWidth l) k la h0 hsl
    | none =>
      obtain ⟨ra, hra, hsr⟩ := sortSound uidOf r hr
      rw [hor] at hsr
      refine ⟨bvVarRightShift (getWidth l) (getWidth r) la ra,
        by simp [constructActual, getWidth, hla, hra, hca], ?_⟩
      have hout : outSort (.LShr l r) = Z3Sort.bvS (getWidth l) := rfl
      rw [hout, hww]
      rw [hww] at hsl h0
      exact sortOf_bvVarRightShift (getWidth r) la ra h0 hsl hsr
  | AShr l r =>
    simp only [wfB, Bool.and_eq_true, beq_iff_eq, decide_eq_true_eq] at hw
    obtain ⟨⟨⟨⟨⟨hl, hr⟩, hww⟩, hn1⟩, hol⟩, hor⟩ := hw
    obtain ⟨la, hla, hsl⟩ := sortSound uidOf l hl
    have h0 := (widthA l hl).1
    rw [hol] at hsl
    cases hca : constShiftAmount r with
    | some k =>
      refine ⟨constructAShrByConstant (getWidth l) la k (bvBoolExtract la (getWidth l - 1)),
        by simp [constructActual, getWidth, hla, hca], ?_⟩
      have hout : outSort (.AShr l r) = Z3Sort.bvS (getWidth l) := rfl
      rw [hout]
      exact sortOf_constructAShrByConstant (getWidth l) k la _ h0 hsl
        (sortOf_bvBoolExtract la (getWidth l) (getWidth l - 1) hsl (by omega))
    | none =>
      obtain ⟨ra, hra, hsr⟩ := sortSound uidOf r hr
      rw [hor] at hsr
      refine ⟨bvVarArithRightShift (getWidth l) (getWidth r) la ra,
        by simp [constructActual, getWidth, hla, hra, hca], ?_⟩
      have hout : outSort (.AShr l r) = Z3Sort.bvS (getWidth l) := rfl
      rw [hout, hww]
      rw [hww] at hsl h0
      exact sortOf_bvVarArithRightShift (getWidth r) la ra h0 hsl hsr
  | FAdd rm l r =>
    simp only [wfB, Bool.and_eq_true, beq_iff_eq, decide_eq_true_eq] at hw
    obtain ⟨⟨⟨⟨⟨hl, hr⟩, hww⟩, hset⟩, hol⟩, hor⟩ := hw
    obtain ⟨la, hla, hsl⟩ := sortSound uidOf l hl
    obtain ⟨ra, hra, hsr⟩ := sortSound uidOf r hr
    rw [hol] at hsl
    rw [hor] at hsr
    by_cases h80 : getWidth r = 80
    · rw [hww, h80] at hsl
      rw [h80] at hsr
      refine ⟨mkF80Arr (.iteE (f80Wrong la ra) (.fpNanE 15 64)
        (.fpAddE rm (sel0 la) (sel0 ra))) (.fpZeroE 15 64),
        by simp [constructActual, getWidth, hla, hra, hww, h80], ?_⟩
      have hout : outSort (.FAdd rm l r) = f80ArrSort := by
        simp [outSort, floatOutSort, hww, h80]
      rw [hout]
      refine sortOf_mkF80Arr _ _ ?_ rfl
      exact sortOf_iteE _ _ _ f80Sort (sortOf_f80Wrong la ra hsl hsr) rfl
        (sortOf_fpAddE rm _ _ 15 64 (sortOf_sel0 la hsl) (sortOf_sel0 ra hsr))
    · have hl80 : getWidth l ≠ 80 := by omega
      rcases hset with h2 | h2 | h2
      · have hr2 : getWidth r = getWidth l := hww.symm
        rw [h2] at hsl
        rw [hr2, h2] at hsr
        refine ⟨.fpAddE rm la ra,
          by simp [constructActual, getWidth, hla, hra, hww, h80], ?_⟩
        have hout : outSort (.FAdd rm l r) =
            Z3Sort.fpS 8 24 := by simp [outSort, floatOutSort, h2]
        rw [hout]
        exact sortOf_fpAddE rm la ra 8 24 hsl hsr
      · have hr2 : getWidth r = getWidth l := hww.symm
        rw [h2] at hsl
        rw [hr2, h2] at hsr
        refine ⟨.fpAddE rm la ra,
          by simp [constructActual, getWidth, hla, hra, hww, h80], ?_⟩
        have hout : outSort (.FAdd rm l r) =
            Z3Sort.fpS 11 53 := by simp [outSort, floatOutSort, h2]
        rw [hout]
        exact sortOf_fpAddE rm la ra 11 53 hsl hsr
      · exact absurd h2 hl80
  | FSub rm l r =>
    simp only [wfB, Bool.and_eq_true, beq_iff_eq, decide_eq_true_eq] at hw
    obtain ⟨⟨⟨⟨⟨hl, hr⟩, hww⟩, hset⟩, hol⟩, hor⟩ := hw
    obtain ⟨la, hla, hsl⟩ := sortSound uidOf l hl
    obtain ⟨ra, hra, hsr⟩ := sortSound uidOf r hr
    rw [hol] at hsl
    rw [hor] at hsr
    by_cases h80 : getWidth r = 80
    · rw [hww, h80] at hsl
      rw [h80] at hsr
      refine ⟨mkF80Arr (.iteE (f80Wrong la ra) (.fpNanE 15 64)
        (.fpSubE rm (sel0 la) (sel0 ra))) (.fpZeroE 15 64),
        by simp [constructActual, getWidth, hla, hra, hww, h80], ?_⟩
      have hout : outSort (.FSub rm l r) = f80ArrSort := by
        simp [outSort, floatOutSort, hww, h80]
      rw [hout]
      refine sortOf_mkF80Arr _ _ ?_ rfl
      exact sortOf_iteE _ _ _ f80Sort (sortOf_f80Wrong la ra hsl hsr) rfl
        (sortOf_fpSubE rm _ _ 15 64 (sortOf_sel0 la hsl) (sortOf_sel0 ra hsr))
    · have hl80 : getWidth l ≠ 80 := by omega
      rcases hset with h2 | h2 | h2
      · have hr2 : getWidth r = getWidth l := hww.symm
        rw [h2] at hsl
        rw [hr2, h2] at hsr
        refine ⟨.fpSubE rm la ra,
          by simp [constructActual, getWidth, hla, hra, hww, h80], ?_⟩
        have hout : outSort (.FSub rm l r) =
            Z3Sort.fpS 8 24 := by simp [outSort, floatOutSort, h2]
        rw [hout]
        exact sortOf_fpSubE rm la ra 8 24 hsl hsr
      · have hr2 : getWidth r = getWidth l := hww.symm
        rw [h2] at hsl
        rw [hr2, h2] at hsr
        refine ⟨.fpSubE rm la ra,
          by simp [constructActual, getWidth, hla, hra, hww, h80], ?_⟩
        have hout : outSort (.FSub rm l r) =
            Z3Sort.fpS 11 53 := by simp [outSort, floatOutSort, h2]
        rw [hout]
        exact sortOf_fpSubE rm la ra 11 53 hsl hsr
      · exact absurd h2 hl80
  | FMul rm l r =>
    simp only [wfB, Bool.and_eq_true, beq_iff_eq, decide_eq_true_eq] at hw
    obtain ⟨⟨⟨⟨⟨hl, hr⟩, hww⟩, hset⟩, hol⟩, hor⟩ := hw
    obtain ⟨la, hla, hsl⟩ := sortSound uidOf l hl
    obtain ⟨ra, hra, hsr⟩ := sortSound uidOf r hr
    rw [hol] at hsl
    rw [hor] at hsr
    by_cases h80 : getWidth r = 80
    · rw [hww, h80] at hsl
      rw [h80] at hsr
      refine ⟨mkF80Arr (.iteE (f80Wrong la ra) (.fpNanE 15 64)
        (.fpMulE rm (sel0 la) (sel0 ra))) (.fpZeroE 15 64),
        by simp [constructActual, getWidth, hla, hra, hww, h80], ?_⟩
      have hout : outSort (.FMul rm l r) = f80ArrSort := by
        simp [outSort, floatOutSort, hww, h80]
      rw [hout]
      refine sortOf_mkF80Arr _ _ ?_ rfl
      exact sortOf_iteE _ _ _ f80Sort (sortOf_f80Wrong la ra hsl hsr) rfl
        (sortOf_fpMulE rm _ _ 15 64 (sortOf_sel0 la hsl) (sortOf_sel0 ra hsr))
    · have hl80 : getWidth l ≠ 80 := by omega
      rcases hset with h2 | h2 | h2
      · have hr2 : getWidth r = getWidth l := hww.symm
        rw [h2] at hsl
        rw [hr2, h2] at hsr
        refine ⟨.fpMulE rm la ra,
          by simp [constructActual, getWidth, hla, hra, hww, h80], ?_⟩
        have hout : outSort (.FMul rm l r) =
            Z3Sort.fpS 8 24 := by simp [outSort, floatOutSort, h2]
        rw [hout]
        exact sortOf_fpMulE rm la ra 8 24 hsl hsr
      · have hr2 : getWidth r = getWidth l := hww.symm
        rw [h2] at hsl
        rw [hr2, h2] at hsr
        refine ⟨.fpMulE rm la ra,
          by simp [constructActual, getWidth, hla, hra, hww, h80], ?_⟩
        have hout : outSort (.FMul rm l r) =
            Z3Sort.fpS 11 53 := by simp [outSort, floatOutSort, h2]
        rw [hout]
        exact sortOf_fpMulE rm la ra 11 53 hsl hsr
      · exact absurd h2 hl80
  | FDiv rm l r =>
    simp only [wfB, Bool.and_eq_true, beq_iff_eq, decide_eq_true_eq] at hw
    obtain ⟨⟨⟨⟨⟨hl, hr⟩, hww⟩, hset⟩, hol⟩, hor⟩ := hw
    obtain ⟨la, hla, hsl⟩ := sortSound uidOf l hl
    obtain ⟨ra, hra, hsr⟩ := sortSound uidOf r hr
    rw [hol] at hsl
    rw [hor] at hsr
    by_cases h80 : getWidth r = 80
    · rw [hww, h80] at hsl
      rw [h80] at hsr
      refine ⟨mkF80Arr (.iteE (f80Wrong la ra) (.fpNanE 15 64)
        (.fpDivE rm (sel0 la) (sel0 ra))) (.fpZeroE 15 64),
        by simp [constructActual, getWidth, hla, hra, hww, h80], ?_⟩
      have hout : outSort (.FDiv rm l r) = f80ArrSort := by
        simp [outSort, floatOutSort, hww, h80]
      rw [hout]
      refine sortOf_mkF80Arr _ _ ?_ rfl
      exact sortOf_iteE _ _ _ f80Sort (sortOf_f80Wrong la ra hsl hsr) rfl
        (sortOf_fpDivE rm _ _ 15 64 (sortOf_sel0 la hsl) (sortOf_sel0 ra hsr))
    · have hl80 : getWidth l ≠ 80 := by omega
      rcases hset with h2 | h2 | h2
      · have hr2 : getWidth r = getWidth l := hww.symm
        rw [h2] at hsl
        rw [hr2, h2] at hsr
        refine ⟨.fpDivE rm la ra,
          by simp [constructActual, getWidth, hla, hra, hww, h80], ?_⟩
        have hout : outSort (.FDiv rm l r) =
            Z3Sort.fpS 8 24 := by simp [outSort, floatOutSort, h2]
        rw [hout]
        exact sortOf_fpDivE rm la ra 8 24 hsl hsr
      · have hr2 : getWidth r = getWidth l := hww.symm
        rw [h2] at hsl
        rw [hr2, h2] at hsr
        refine ⟨.fpDivE rm la ra,
          by simp [constructActual, getWidth, hla, hra, hww, h80], ?_⟩
        have hout : outSort (.FDiv rm l r) =
            Z3Sort.fpS 11 53 := by simp [outSort, floatOutSort, h2]
        rw [hout]
        exact sortOf_fpDivE rm la ra 11 53 hsl hsr
      · exact absurd h2 hl80
  | FRem l r =>
    simp only [wfB, Bool.and_eq_true, beq_iff_eq, decide_eq_true_eq] at hw
    obtain ⟨⟨⟨⟨⟨hl, hr⟩, hww⟩, hset⟩, hol⟩, hor⟩ := hw
    obtain ⟨la, hla, hsl⟩ := sortSound uidOf l hl
    obtain ⟨ra, hra, hsr⟩ := sortSound uidOf r hr
    rw [hol] at hsl
    rw [hor] at hsr
    by_cases h80 : getWidth r = 80
    · rw [hww, h80] at hsl
      rw [h80] at hsr
      refine ⟨mkF80Arr (.iteE (f80Wrong la ra) (.fpNanE 15 64)
        (.fpRemE (sel0 la) (sel0 ra))) (.fpZeroE 15 64),
        by simp [constructActual, getWidth, hla, hra, hww, h80], ?_⟩
      have hout : outSort (.FRem l r) = f80ArrSort := by
        simp [outSort, floatOutSort, hww, h80]
      rw [hout]
      refine sortOf_mkF80Arr _ _ ?_ rfl
      exact sortOf_iteE _ _ _ f80Sort (sortOf_f80Wrong la ra hsl hsr) rfl
        (sortOf_fpRemE _ _ 15 64 (sortOf_sel0 la hsl) (sortOf_sel0 ra hsr))
    · have hl80 : getWidth l ≠ 80 := by omega
      rcases hset with h2 | h2 | h2
      · have hr2 : getWidth r = getWidth l := hww.symm
        rw [h2] at hsl
        rw [hr2, h2] at hsr
        refine ⟨.fpRemE la ra,
          by simp [constructActual, getWidth, hla, hra, hww, h80], ?_⟩
        have hout : outSort (.FRem l r) =
            Z3Sort.fpS 8 24 := by simp [outSort, floatOutSort, h2]
        rw [hout]
        exact sortOf_fpRemE la ra 8 24 hsl hsr
      · have hr2 : getWidth r = getWidth l := hww.symm
        rw [h2] at hsl
        rw [hr2, h2] at hsr
        refine ⟨.fpRemE la ra,
          by simp [constructActual, getWidth, hla, hra, hww, h80], ?_⟩
        have hout : outSort (.FRem l r) =
            Z3Sort.fpS 11 53 := by simp [outSort, floatOutSort, h2]
        rw [hout]
        exact sortOf_fpRemE la ra 11 53 hsl hsr
      · exact absurd h2 hl80
  | FMin l r =>
    simp only [wfB, Bool.and_eq_true, beq_iff_eq, decide_eq_true_eq] at hw
    obtain ⟨⟨⟨⟨⟨hl, hr⟩, hww⟩, hset⟩, hol⟩, hor⟩ := hw
    obtain ⟨la, hla, hsl⟩ := sortSound uidOf l hl
    obtain ⟨ra, hra, hsr⟩ := sortSound uidOf r hr
    rw [hol] at hsl
    rw [hor] at hsr
    by_cases h80 : getWidth r = 80
    · rw [hww, h80] at hsl
      rw [h80] at hsr
      refine ⟨mkF80Arr
        (.iteE (.isNanE (sel1 la))
          (.iteE (.isNanE (sel1 ra)) (sel0 la) (sel0 ra))
          (.iteE (.isNanE (sel1 ra)) (sel0 la) (.fpMinE (sel0 la) (sel0 ra))))
        (.fpZeroE 15 64),
        by simp [constructActual, getWidth, hla, hra, hww, h80], ?_⟩
      have hout : outSort (.FMin l r) = f80ArrSort := by
        simp [outSort, floatOutSort, hww, h80]
      rw [hout]
      refine sortOf_mkF80Arr _ _ ?_ rfl
      refine sortOf_iteE _ _ _ f80Sort
        (sortOf_isNanE_fp _ 15 64 (sortOf_sel1 la hsl)) ?_ ?_
      · exact sortOf_iteE _ _ _ f80Sort
          (sortOf_isNanE_fp _ 15 64 (sortOf_sel1 ra hsr))
          (sortOf_sel0 la hsl) (sortOf_sel0 ra hsr)
      · exact sortOf_iteE _ _ _ f80Sort
          (sortOf_isNanE_fp _ 15 64 (sortOf_sel1 ra hsr))
          (sortOf_sel0 la hsl) (sortOf_fpMinE _ _ 15 64 (sortOf_sel0 la hsl) (sortOf_sel0 ra hsr))
    · have hl80 : getWidth l ≠ 80 := by omega
      rcases hset with h2 | h2 | h2
      · have hr2 : getWidth r = getWidth l := hww.symm
        rw [h2] at hsl
        rw [hr2, h2] at hsr
        refine ⟨.fpMinE la ra,
          by simp [constructActual, getWidth, hla, hra, hww, h80], ?_⟩
        have hout : outSort (.FMin l r) =
            Z3Sort.fpS 8 24 := by simp [outSort, floatOutSort, h2]
        rw [hout]
        exact sortOf_fpMinE la ra 8 24 hsl hsr
      · have hr2 : getWidth r = getWidth l := hww.symm
        rw [h2] at hsl
        rw [hr2, h2] at hsr
        refine ⟨.fpMinE la ra,
          by simp [constructActual, getWidth, hla, hra, hww, h80], ?_⟩
        have hout : outSort (.FMin l r) =
            Z3Sort.fpS 11 53 := by simp [outSort, floatOutSort, h2]
        rw [hout]
        exact sortOf_fpMinE la ra 11 53 hsl hsr
      · exact absurd h2 hl80
  | FMax l r =>
    simp only [wfB, Bool.and_eq_true, beq_iff_eq, decide_eq_true_eq] at hw
    obtain ⟨⟨⟨⟨⟨hl, hr⟩, hww⟩, hset⟩, hol⟩, hor⟩ := hw
    obtain ⟨la, hla, hsl⟩ := sortSound uidOf l hl
    obtain ⟨ra, hra, hsr⟩ := sortSound uidOf r hr
    rw [hol] at hsl
    rw [hor] at hsr
    by_cases h80 : getWidth r = 80
    · rw [hww, h80] at hsl
      rw [h80] at hsr
      refine ⟨mkF80Arr
        (.iteE (.isNanE (sel1 la))
          (.iteE (.isNanE (sel1 ra)) (sel0 la) (sel0 ra))
          (.iteE (.isNanE (sel1 ra)) (sel0 la) (.fpMaxE (sel0 la) (sel0 ra))))
        (.fpZeroE 15 64),
        by simp [constructActual, getWidth, hla, hra, hww, h80], ?_⟩
      have hout : outSort (.FMax l r) = f80ArrSort := by
        simp [outSort, floatOutSort, hww, h80]
      rw [hout]
      refine sortOf_mkF80Arr _ _ ?_ rfl
      refine sortOf_iteE _ _ _ f80Sort
        (sortOf_isNanE_fp _ 15 64 (sortOf_sel1 la hsl)) ?_ ?_
      · exact sortOf_iteE _ _ _ f80Sort
          (sortOf_isNanE_fp _ 15 64 (sortOf_sel1 ra hsr))
          (sortOf_sel0 la hsl) (sortOf_sel0 ra hsr)
      · exact sortOf_iteE _ _ _ f80Sort
          (sortOf_isNanE_fp _ 15 64 (sortOf_sel1 ra hsr))
          (sortOf_sel0 la hsl) (sortOf_fpMaxE _ _ 15 64 (sortOf_sel0 la hsl) (sortOf_sel0 ra hsr))
    · have hl80 : getWidth l ≠ 80 := by omega
      rcases hset with h2 | h2 | h2
      · have hr2 : getWidth r = getWidth l := hww.symm
        rw [h2] at hsl
        rw [hr2, h2] at hsr
        refine ⟨.fpMaxE la ra,
          by simp [constructActual, getWidth, hla, hra, hww, h80], ?_⟩
        have hout : outSort (.FMax l r) =
            Z3Sort.fpS 8 24 := by simp [outSort, floatOutSort, h2]
        rw [hout]
        exact sortOf_fpMaxE la ra 8 24 hsl hsr
      · have hr2 : getWidth r = getWidth l := hww.symm
        rw [h2] at hsl
        rw [hr2, h2] at hsr
        refine ⟨.fpMaxE la ra,
          by simp [constructActual, getWidth, hla, hra, hww, h80], ?_⟩
        have hout : outSort (.FMax l r) =
            Z3Sort.fpS 11 53 := by simp [outSort, floatOutSort, h2]
        rw [hout]
        exact sortOf_fpMaxE la ra 11 53 hsl hsr
      · exact absurd h2 hl80
  | Eq l r =>
    simp only [wfB, Bool.and_eq_true, beq_iff_eq, decide_eq_true_eq] at hw
    obtain ⟨⟨⟨⟨hl, hr⟩, hww⟩, holr⟩, hbool⟩ := hw
    obtain ⟨la, hla, hsl⟩ := sortSound uidOf l hl
    obtain ⟨ra, hra, hsr⟩ := sortSound uidOf r hr
    by_cases h1 : getWidth r = 1
    · simp [h1] at hbool
      cases hcl : constKindVal l with
      | some p =>
        obtain ⟨cw, cv⟩ := p
        by_cases hb : cw = 1 ∧ cv = 1
        · obtain ⟨hb1, hb2⟩ := hb
          subst hb1
          subst hb2
          refine ⟨ra, by simp [constructActual, getWidth, hla, hra, h1, hcl], ?_⟩
          rw [hbool] at hsr
          exact hsr
        · refine ⟨.notE ra,
            by simp [constructActual, getWidth, hla, hra, h1, hcl, hb], ?_⟩
          rw [hbool] at hsr
          exact sortOf_notE ra hsr
      | none =>
        refine ⟨.iffE la ra,
          by simp [constructActual, getWidth, hla, hra, h1, hcl], ?_⟩
        rw [holr, hbool] at hsl
        rw [hbool] at hsr
        exact sortOf_iffE la ra hsl hsr
    · refine ⟨.eqE la ra, by simp [constructActual, getWidth, hla, hra, h1], ?_⟩
      rw [holr] at hsl
      exact sortOf_eqE la ra (outSort r) hsl hsr
  | Ult l r =>
    simp only [wfB, Bool.and_eq_true, beq_iff_eq, decide_eq_true_eq] at hw
    obtain ⟨⟨⟨⟨⟨hl, hr⟩, hww⟩, hn1⟩, hol⟩, hor⟩ := hw
    obtain ⟨la, hla, hsl⟩ := sortSound uidOf l hl
    obtain ⟨ra, hra, hsr⟩ := sortSound uidOf r hr
    rw [hol] at hsl
    rw [hor] at hsr
    rw [← hww] at hsr
    refine ⟨.bvultE la ra, by simp [constructActual, getWidth, hla, hra], ?_⟩
    exact sortOf_bvultE la ra (getWidth l) hsl hsr
  | Ule l r =>
    simp only [wfB, Bool.and_eq_true, beq_iff_eq, decide_eq_true_eq] at hw
    obtain ⟨⟨⟨⟨⟨hl, hr⟩, hww⟩, hn1⟩, hol⟩, hor⟩ := hw
    obtain ⟨la, hla, hsl⟩ := sortSound uidOf l hl
    obtain ⟨ra, hra, hsr⟩ := sortSound uidOf r hr
    rw [hol] at hsl
    rw [hor] at hsr
    rw [← hww] at hsr
    refine ⟨.bvuleE la ra, by simp [constructActual, getWidth, hla, hra], ?_⟩
    exact sortOf_bvuleE la ra (getWidth l) hsl hsr
  | Slt l r =>
    simp only [wfB, Bool.and_eq_true, beq_iff_eq, decide_eq_true_eq] at hw
    obtain ⟨⟨⟨⟨⟨hl, hr⟩, hww⟩, hn1⟩, hol⟩, hor⟩ := hw
    obtain ⟨la, hla, hsl⟩ := sortSound uidOf l hl
    obtain ⟨ra, hra, hsr⟩ := sortSound uidOf r hr
    rw [hol] at hsl
    rw [hor] at hsr
    rw [← hww] at hsr
    refine ⟨.bvsltE la ra, by simp [constructActual, getWidth, hla, hra], ?_⟩
    exact sortOf_bvsltE la ra (getWidth l) hsl hsr
  | Sle l r =>
    simp only [wfB, Bool.and_eq_true, beq_iff_eq, decide_eq_true_eq] at hw
    obtain ⟨⟨⟨⟨⟨hl, hr⟩, hww⟩, hn1⟩, hol⟩, hor⟩ := hw
    obtain ⟨la, hla, hsl⟩ := sortSound uidOf l hl
    obtain ⟨ra, hra, hsr⟩ := sortSound uidOf r hr
    rw [hol] at hsl
    rw [hor] at hsr
    rw [← hww] at hsr
    refine ⟨.bvsleE la ra, by simp [constructActual, getWidth, hla, hra], ?_⟩
    exact sortOf_bvsleE la ra (getWidth l) hsl hsr
  | FOrd l r =>
    simp only [wfB, Bool.and_eq_true, beq_iff_eq, decide_eq_true_eq] at hw
    obtain ⟨⟨⟨⟨⟨hl, hr⟩, hww⟩, hset⟩, hol⟩, hor⟩ := hw
    obtain ⟨la, hla, hsl⟩ := sortSound uidOf l hl
    obtain ⟨ra, hra, hsr⟩ := sortSound uidOf r hr
    rw [hol] at hsl
    rw [hor] at hsr
    by_cases h80 : getWidth r = 80
    · rw [hww, h80] at hsl
      rw [h80] at hsr
      refine ⟨.andE (.notE (.isNanE (sel0 la))) (.notE (.isNanE (sel0 ra))),
        by simp [constructActual, getWidth, hla, hra, h80], ?_⟩
      exact sortOf_andE _ _ (sortOf_notE _ (sortOf_isNanE_fp _ 15 64 (sortOf_sel0 la hsl)))
        (sortOf_notE _ (sortOf_isNanE_fp _ 15 64 (sortOf_sel0 ra hsr)))
    · have hl80 : getWidth l ≠ 80 := by omega
      rcases hset with h2 | h2 | h2
      · have hr2 : getWidth r = getWidth l := hww.symm
        rw [h2] at hsl
        rw [hr2, h2] at hsr
        refine ⟨.andE (.notE (.isNanE la)) (.notE (.isNanE ra)),
          by simp [constructActual, getWidth, hla, hra, h80], ?_⟩
        exact sortOf_andE _ _ (sortOf_notE _ (sortOf_isNanE_fp _ 8 24 hsl))
          (sortOf_notE _ (sortOf_isNanE_fp _ 8 24 hsr))
      · have hr2 : getWidth r = getWidth l := hww.symm
        rw [h2] at hsl
        rw [hr2, h2] at hsr
        refine ⟨.andE (.notE (.isNanE la)) (.notE (.isNanE ra)),
          by simp [constructActual, getWidth, hla, hra, h80], ?_⟩
        exact sortOf_andE _ _ (sortOf_notE _ (sortOf_isNanE_fp _ 11 53 hsl))
          (sortOf_notE _ (sortOf_isNanE_fp _ 11 53 hsr))
      · exact absurd h2 hl80
  | FUno l r =>
    simp only [wfB, Bool.and_eq_true, beq_iff_eq, decide_eq_true_eq] at hw
    obtain ⟨⟨⟨⟨⟨hl, hr⟩, hww⟩, hset⟩, hol⟩, hor⟩ := hw
    obtain ⟨la, hla, hsl⟩ := sortSound uidOf l hl
    obtain ⟨ra, hra, hsr⟩ := sortSound uidOf r hr
    rw [hol] at hsl
    rw [hor] at hsr
    by_cases h80 : getWidth r = 80
    · rw [hww, h80] at hsl
      rw [h80] at hsr
      refine ⟨.orE (.isNanE (sel0 la)) (.isNanE (sel0 ra)),
        by simp [constructActual, getWidth, hla, hra, h80], ?_⟩
      exact sortOf_orE _ _ (sortOf_isNanE_fp _ 15 64 (sortOf_sel0 la hsl))
        (sortOf_isNanE_fp _ 15 64 (sortOf_sel0 ra hsr))
    · have hl80 : getWidth l ≠ 80 := by omega
      rcases hset with h2 | h2 | h2
      · have hr2 : getWidth r = getWidth l := hww.symm
        rw [h2] at hsl
        rw [hr2, h2] at hsr
        refine ⟨.orE (.isNanE la) (.isNanE ra),
          by simp [constructActual, getWidth, hla, hra, h80], ?_⟩
        exact sortOf_orE _ _ (sortOf_isNanE_fp _ 8 24 hsl)
          (sortOf_isNanE_fp _ 8 24 hsr)
      · have hr2 : getWidth r = getWidth l := hww.symm
        rw [h2] at hsl
        rw [hr2, h2] at hsr
        refine ⟨.orE (.isNanE la) (.isNanE ra),
          by simp [constructActual, getWidth, hla, hra, h80], ?_⟩
        exact sortOf_orE _ _ (sortOf_isNanE_fp _ 11 53 hsl)
          (sortOf_isNanE_fp _ 11 53 hsr)
      · exact absurd h2 hl80
  | FUeq l r =>
    simp only [wfB, Bool.and_eq_true, beq_iff_eq, decide_eq_true_eq] at hw
    obtain ⟨⟨⟨⟨⟨hl, hr⟩, hww⟩, hset⟩, hol⟩, hor⟩ := hw
    obtain ⟨la, hla, hsl⟩ := sortSound uidOf l hl
    obtain ⟨ra, hra, hsr⟩ := sortSound uidOf r hr
    rw [hol] at hsl
    rw [hor] at hsr
    by_cases h80 : getWidth r = 80
    · rw [hww, h80] at hsl
      rw [h80] at hsr
      refine ⟨.andE (.notE (f80Wrong la ra))
        (.orE3 (.isNanE (sel0 la)) (.isNanE (sel0 ra)) (.fpEqE (sel0 la) (sel0 ra))),
        by simp [constructActual, getWidth, hla, hra, h80], ?_⟩
      exact sortOf_andE _ _ (sortOf_notE _ (sortOf_f80Wrong la ra hsl hsr))
        (sortOf_orE3 _ _ _ (sortOf_isNanE_fp _ 15 64 (sortOf_sel0 la hsl))
          (sortOf_isNanE_fp _ 15 64 (sortOf_sel0 ra hsr))
          (sortOf_fpEqE _ _ 15 64 (sortOf_sel0 la hsl) (sortOf_sel0 ra hsr)))
    · have hl80 : getWidth l ≠ 80 := by omega
      rcases hset with h2 | h2 | h2
      · have hr2 : getWidth r = getWidth l := hww.symm
        rw [h2] at hsl
        rw [hr2, h2] at hsr
        refine ⟨.orE3 (.isNanE la) (.isNanE ra) (.fpEqE la ra),
          by simp [constructActual, getWidth, hla, hra, h80], ?_⟩
        exact sortOf_orE3 _ _ _ (sortOf_isNanE_fp _ 8 24 hsl)
          (sortOf_isNanE_fp _ 8 24 hsr)
          (sortOf_fpEqE la ra 8 24 hsl hsr)
      · have hr2 : getWidth r = getWidth l := hww.symm
        rw [h2] at hsl
        rw [hr2, h2] at hsr
        refine ⟨.orE3 (.isNanE la) (.isNanE ra) (.fpEqE la ra),
          by simp [constructActual, getWidth, hla, hra, h80], ?_⟩
        exact sortOf_orE3 _ _ _ (sortOf_isNanE_fp _ 11 53 hsl)
          (sortOf_isNanE_fp _ 11 53 hsr)
          (sortOf_fpEqE la ra 11 53 hsl hsr)
      · exact absurd h2 hl80
  | FUgt l r =>
    simp only [wfB, Bool.and_eq_true, beq_iff_eq, decide_eq_true_eq] at hw
    obtain ⟨⟨⟨⟨⟨hl, hr⟩, hww⟩, hset⟩, hol⟩, hor⟩ := hw
    obtain ⟨la, hla, hsl⟩ := sortSound uidOf l hl
    obtain ⟨ra, hra, hsr⟩ := sortSound uidOf r hr
    rw [hol] at hsl
    rw [hor] at hsr
    by_cases h80 : getWidth r = 80
    · rw [hww, h80] at hsl
      rw [h80] at hsr
      refine ⟨.andE (.notE (f80Wrong la ra))
        (.orE3 (.isNanE (sel0 la)) (.isNanE (sel0 ra)) (.fpGtE (sel0 la) (sel0 ra))),
        by simp [constructActual, getWidth, hla, hra, h80], ?_⟩
      exact sortOf_andE _ _ (sortOf_notE _ (sortOf_f80Wrong la ra hsl hsr))
        (sortOf_orE3 _ _ _ (sortOf_isNanE_fp _ 15 64 (sortOf_sel0 la hsl))
          (sortOf_isNanE_fp _ 15 64 (sortOf_sel0 ra hsr))
          (sortOf_fpGtE _ _ 15 64 (sortOf_sel0 la hsl) (sortOf_sel0 ra hsr)))
    · have hl80 : getWidth l ≠ 80 := by omega
      rcases hset with h2 | h2 | h2
      · have hr2 : getWidth r = getWidth l := hww.symm
        rw [h2] at hsl
        rw [hr2, h2] at hsr
        refine ⟨.orE3 (.isNanE la) (.isNanE ra) (.fpGtE la ra),
          by simp [constructActual, getWidth, hla, hra, h80], ?_⟩
        exact sortOf_orE3 _ _ _ (sortOf_isNanE_fp _ 8 24 hsl)
          (sortOf_isNanE_fp _ 8 24 hsr)
          (sortOf_fpGtE la ra 8 24 hsl hsr)
      · have hr2 : getWidth r = getWidth l := hww.symm
        rw [h2] at hsl
        rw [hr2, h2] at hsr
        refine ⟨.orE3 (.isNanE la) (.isNanE ra) (.fpGtE la ra),
          by simp [constructActual, getWidth, hla, hra, h80], ?_⟩
        exact sortOf_orE3 _ _ _ (sortOf_isNanE_fp _ 11 53 hsl)
          (sortOf_isNanE_fp _ 11 53 hsr)
          (sortOf_fpGtE la ra 11 53 hsl hsr)
      · exact absurd h2 hl80
  | FUge l r =>
    simp only [wfB, Bool.and_eq_true, beq_iff_eq, decide_eq_true_eq] at hw
    obtain ⟨⟨⟨⟨⟨hl, hr⟩, hww⟩, hset⟩, hol⟩, hor⟩ := hw
    obtain ⟨la, hla, hsl⟩ := sortSound uidOf l hl
    obtain ⟨ra, hra, hsr⟩ := sortSound uidOf r hr
    rw [hol] at hsl
    rw [hor] at hsr
    by_cases h80 : getWidth r = 80
    · rw [hww, h80] at hsl
      rw [h80] at hsr
      refine ⟨.andE (.notE (f80Wrong la ra))
        (.orE3 (.isNanE (sel0 la)) (.isNanE (sel0 ra)) (.fpGeqE (sel0 la) (sel0 ra))),
        by simp [constructActual, getWidth, hla, hra, h80], ?_⟩
      exact sortOf_andE _ _ (sortOf_notE _ (sortOf_f80Wrong la ra hsl hsr))
        (sortOf_orE3 _ _ _ (sortOf_isNanE_fp _ 15 64 (sortOf_sel0 la hsl))
          (sortOf_isNanE_fp _ 15 64 (sortOf_sel0 ra hsr))
          (sortOf_fpGeqE _ _ 15 64 (sortOf_sel0 la hsl) (sortOf_sel0 ra hsr)))
    · have hl80 : getWidth l ≠ 80 := by omega
      rcases hset with h2 | h2 | h2
      · have hr2 : getWidth r = getWidth l := hww.symm
        rw [h2] at hsl
        rw [hr2, h2] at hsr
        refine ⟨.orE3 (.isNanE la) (.isNanE ra) (.fpGeqE la ra),
          by simp [constructActual, getWidth, hla, hra, h80], ?_⟩
        exact sortOf_orE3 _ _ _ (sortOf_isNanE_fp _ 8 24 hsl)
          (sortOf_isNanE_fp _ 8 24 hsr)
          (sortOf_fpGeqE la ra 8 24 hsl hsr)
      · have hr2 : getWidth r = getWidth l := hww.symm
        rw [h2] at hsl
        rw [hr2, h2] at hsr
        refine ⟨.orE3 (.isNanE la) (.isNanE ra) (.fpGeqE la ra),
          by simp [constructActual, getWidth, hla, hra, h80], ?_⟩
        exact sortOf_orE3 _ _ _ (sortOf_isNanE_fp _ 11 53 hsl)
          (sortOf_isNanE_fp _ 11 53 hsr)
          (sortOf_fpGeqE la ra 11 53 hsl hsr)
      · exact absurd h2 hl80
  | FUlt l r =>
    simp only [wfB, Bool.and_eq_true, beq_iff_eq, decide_eq_true_eq] at hw
    obtain ⟨⟨⟨⟨⟨hl, hr⟩, hww⟩, hset⟩, hol⟩, hor⟩ := hw
    obtain ⟨la, hla, hsl⟩ := sortSound uidOf l hl
    obtain ⟨ra, hra, hsr⟩ := sortSound uidOf r hr
    rw [hol] at hsl
    rw [hor] at hsr
    by_cases h80 : getWidth r = 80
    · rw [hww, h80] at hsl
      rw [h80] at hsr
      refine ⟨.andE (.notE (f80Wrong la ra))
        (.orE3 (.isNanE (sel0 la)) (.isNanE (sel0 ra)) (.fpLtE (sel0 la) (sel0 ra))),
        by simp [constructActual, getWidth, hla, hra, h80], ?_⟩
      exact sortOf_andE _ _ (sortOf_notE _ (sortOf_f80Wrong la ra hsl hsr))
        (sortOf_orE3 _ _ _ (sortOf_isNanE_fp _ 15 64 (sortOf_sel0 la hsl))
          (sortOf_isNanE_fp _ 15 64 (sortOf_sel0 ra hsr))
          (sortOf_fpLtE _ _ 15 64 (sortOf_sel0 la hsl) (sortOf_sel0 ra hsr)))
    · have hl80 : getWidth l ≠ 80 := by omega
      rcases hset with h2 | h2 | h2
      · have hr2 : getWidth r = getWidth l := hww.symm
        rw [h2] at hsl
        rw [hr2, h2] at hsr
        refine ⟨.orE3 (.isNanE la) (.isNanE ra) (.fpLtE la ra),
          by simp [constructActual, getWidth, hla, hra, h80], ?_⟩
        exact sortOf_orE3 _ _ _ (sortOf_isNanE_fp _ 8 24 hsl)
          (sortOf_isNanE_fp _ 8 24 hsr)
          (sortOf_fpLtE la ra 8 24 hsl hsr)
      · have hr2 : getWidth r = getWidth l := hww.symm
        rw [h2] at hsl
        rw [hr2, h2] at hsr
        refine ⟨.orE3 (.isNanE la) (.isNanE ra) (.fpLtE la ra),
          by simp [constructActual, getWidth, hla, hra, h80], ?_⟩
        exact sortOf_orE3 _ _ _ (sortOf_isNanE_fp _ 11 53 hsl)
          (sortOf_isNanE_fp _ 11 53 hsr)
          (sortOf_fpLtE la ra 11 53 hsl hsr)
      · exact absurd h2 hl80
  | FUle l r =>
    simp only [wfB, Bool.and_eq_true, beq_iff_eq, decide_eq_true_eq] at hw
    obtain ⟨⟨⟨⟨⟨hl, hr⟩, hww⟩, hset⟩, hol⟩, hor⟩ := hw
    obtain ⟨la, hla, hsl⟩ := sortSound uidOf l hl
    obtain ⟨ra, hra, hsr⟩ := sortSound uidOf r hr
    rw [hol] at hsl
    rw [hor] at hsr
    by_cases h80 : getWidth r = 80
    · rw [hww, h80] at hsl
      rw [h80] at hsr
      refine ⟨.andE (.notE (f80Wrong la ra))
        (.orE3 (.isNanE (sel0 la)) (.isNanE (sel0 ra)) (.fpLeqE (sel0 la) (sel0 ra))),
        by simp [constructActual, getWidth, hla, hra, h80], ?_⟩
      exact sortOf_andE _ _ (sortOf_notE _ (sortOf_f80Wrong la ra hsl hsr))
        (sortOf_orE3 _ _ _ (sortOf_isNanE_fp _ 15 64 (sortOf_sel0 la hsl))
          (sortOf_isNanE_fp _ 15 64 (sortOf_sel0 ra hsr))
          (sortOf_fpLeqE _ _ 15 64 (sortOf_sel0 la hsl) (sortOf_sel0 ra hsr)))
    · have hl80 : getWidth l ≠ 80 := by omega
      rcases hset with h2 | h2 | h2
      · have hr2 : getWidth r = getWidth l := hww.symm
        rw [h2] at hsl
        rw [hr2, h2] at hsr
        refine ⟨.orE3 (.isNanE la) (.isNanE ra) (.fpLeqE la ra),
          by simp [constructActual, getWidth, hla, hra, h80], ?_⟩
        exact sortOf_orE3 _ _ _ (sortOf_isNanE_fp _ 8 24 hsl)
          (sortOf_isNanE_fp _ 8 24 hsr)
          (sortOf_fpLeqE la ra 8 24 hsl hsr)
      · have hr2 : getWidth r = getWidth l := hww.symm
        rw [h2] at hsl
        rw [hr2, h2] at hsr
        refine ⟨.orE3 (.isNanE la) (.isNanE ra) (.fpLeqE la ra),
          by simp [constructActual, getWidth, hla, hra, h80], ?_⟩
        exact sortOf_orE3 _ _ _ (sortOf_isNanE_fp _ 11 53 hsl)
          (sortOf_isNanE_fp _ 11 53 hsr)
          (sortOf_fpLeqE la ra 11 53 hsl hsr)
      · exact absurd h2 hl80
  | FOeq l r =>
    simp only [wfB, Bool.and_eq_true, beq_iff_eq, decide_eq_true_eq] at hw
    obtain ⟨⟨⟨⟨⟨hl, hr⟩, hww⟩, hset⟩, hol⟩, hor⟩ := hw
    obtain ⟨la, hla, hsl⟩ := sortSound uidOf l hl
    obtain ⟨ra, hra, hsr⟩ := sortSound uidOf r hr
    rw [hol] at hsl
    rw [hor] at hsr
    by_cases h80 : getWidth r = 80
    · rw [hww, h80] at hsl
      rw [h80] at hsr
      refine ⟨.andE (.notE (f80Wrong la ra)) (.fpEqE (sel0 la) (sel0 ra)),
        by simp [constructActual, getWidth, hla, hra, h80], ?_⟩
      exact sortOf_andE _ _ (sortOf_notE _ (sortOf_f80Wrong la ra hsl hsr))
        (sortOf_fpEqE _ _ 15 64 (sortOf_sel0 la hsl) (sortOf_sel0 ra hsr))
    · have hl80 : getWidth l ≠ 80 := by omega
      rcases hset with h2 | h2 | h2
      · have hr2 : getWidth r = getWidth l := hww.symm
        rw [h2] at hsl
        rw [hr2, h2] at hsr
        refine ⟨.fpEqE la ra,
          by simp [constructActual, getWidth, hla, hra, h80], ?_⟩
        exact sortOf_fpEqE la ra 8 24 hsl hsr
      · have hr2 : getWidth r = getWidth l := hww.symm
        rw [h2] at hsl
        rw [hr2, h2] at hsr
        refine ⟨.fpEqE la ra,
          by simp [constructActual, getWidth, hla, hra, h80], ?_⟩
        exact sortOf_fpEqE la ra 11 53 hsl hsr
      · exact absurd h2 hl80
  | FOgt l r =>
    simp only [wfB, Bool.and_eq_true, beq_iff_eq, decide_eq_true_eq] at hw
    obtain ⟨⟨⟨⟨⟨hl, hr⟩, hww⟩, hset⟩, hol⟩, hor⟩ := hw
    obtain ⟨la, hla, hsl⟩ := sortSound uidOf l hl
    obtain ⟨ra, hra, hsr⟩ := sortSound uidOf r hr
    rw [hol] at hsl
    rw [hor] at hsr
    by_cases h80 : getWidth r = 80
    · rw [hww, h80] at hsl
      rw [h80] at hsr
      refine ⟨.andE (.notE (f80Wrong la ra)) (.fpGtE (sel0 la) (sel0 ra)),
        by simp [constructActual, getWidth, hla, hra, h80], ?_⟩
      exact sortOf_andE _ _ (sortOf_notE _ (sortOf_f80Wrong la ra hsl hsr))
        (sortOf_fpGtE _ _ 15 64 (sortOf_sel0 la hsl) (sortOf_sel0 ra hsr))
    · have hl80 : getWidth l ≠ 80 := by omega
      rcases hset with h2 | h2 | h2
      · have hr2 : getWidth r = getWidth l := hww.symm
        rw [h2] at hsl
        rw [hr2, h2] at hsr
        refine ⟨.fpGtE la ra,
          by simp [constructActual, getWidth, hla, hra, h80], ?_⟩
        exact sortOf_fpGtE la ra 8 24 hsl hsr
      · have hr2 : getWidth r = getWidth l := hww.symm
        rw [h2] at hsl
        rw [hr2, h2] at hsr
        refine ⟨.fpGtE la ra,
          by simp [constructActual, getWidth, hla, hra, h80], ?_⟩
        exact sortOf_fpGtE la ra 11 53 hsl hsr
      · exact absurd h2 hl80
  | FOge l r =>
    simp only [wfB, Bool.and_eq_true, beq_iff_eq, decide_eq_true_eq] at hw
    obtain ⟨⟨⟨⟨⟨hl, hr⟩, hww⟩, hset⟩, hol⟩, hor⟩ := hw
    obtain ⟨la, hla, hsl⟩ := sortSound uidOf l hl
    obtain ⟨ra, hra, hsr⟩ := sortSound uidOf r hr
    rw [hol] at hsl
    rw [hor] at hsr
    by_cases h80 : getWidth r = 80
    · rw [hww, h80] at hsl
      rw [h80] at hsr
      refine ⟨.andE (.notE (f80Wrong la ra)) (.fpGeqE (sel0 la) (sel0 ra)),
        by simp [constructActual, getWidth, hla, hra, h80], ?_⟩
      exact sortOf_andE _ _ (sortOf_notE _ (sortOf_f80Wrong la ra hsl hsr))
        (sortOf_fpGeqE _ _ 15 64 (sortOf_sel0 la hsl) (sortOf_sel0 ra hsr))
    · have hl80 : getWidth l ≠ 80 := by omega
      rcases hset with h2 | h2 | h2
      · have hr2 : getWidth r = getWidth l := hww.symm
        rw [h2] at hsl
        rw [hr2, h2] at hsr
        refine ⟨.fpGeqE la ra,
          by simp [constructActual, getWidth, hla, hra, h80], ?_⟩
        exact sortOf_fpGeqE la ra 8 24 hsl hsr
      · have hr2 : getWidth r = getWidth l := hww.symm
        rw [h2] at hsl
        rw [hr2, h2] at hsr
        refine ⟨.fpGeqE la ra,
          by simp [constructActual, getWidth, hla, hra, h80], ?_⟩
        exact sortOf_fpGeqE la ra 11 53 hsl hsr
      · exact absurd h2 hl80
  | FOlt l r =>
    simp only [wfB, Bool.and_eq_true, beq_iff_eq, decide_eq_true_eq] at hw
    obtain ⟨⟨⟨⟨⟨hl, hr⟩, hww⟩, hset⟩, hol⟩, hor⟩ := hw
    obtain ⟨la, hla, hsl⟩ := sortSound uidOf l hl
    obtain ⟨ra, hra, hsr⟩ := sortSound uidOf r hr
    rw [hol] at hsl
    rw [hor] at hsr
    by_cases h80 : getWidth r = 80
    · rw [hww, h80] at hsl
      rw [h80] at hsr
      refine ⟨.andE (.notE (f80Wrong la ra)) (.fpLtE (sel0 la) (sel0 ra)),
        by simp [constructActual, getWidth, hla, hra, h80], ?_⟩
      exact sortOf_andE _ _ (sortOf_notE _ (sortOf_f80Wrong la ra hsl hsr))
        (sortOf_fpLtE _ _ 15 64 (sortOf_sel0 la hsl) (sortOf_sel0 ra hsr))
    · have hl80 : getWidth l ≠ 80 := by omega
      rcases hset with h2 | h2 | h2
      · have hr2 : getWidth r = getWidth l := hww.symm
        rw [h2] at hsl
        rw [hr2, h2] at hsr
        refine ⟨.fpLtE la ra,
          by simp [constructActual, getWidth, hla, hra, h80], ?_⟩
        exact sortOf_fpLtE la ra 8 24 hsl hsr
      · have hr2 : getWidth r = getWidth l := hww.symm
        rw [h2] at hsl
        rw [hr2, h2] at hsr
        refine ⟨.fpLtE la ra,
          by simp [constructActual, getWidth, hla, hra, h80], ?_⟩
        exact sortOf_fpLtE la ra 11 53 hsl hsr
      · exact absurd h2 hl80
  | FOle l r =>
    simp only [wfB, Bool.and_eq_true, beq_iff_eq, decide_eq_true_eq] at hw
    obtain ⟨⟨⟨⟨⟨hl, hr⟩, hww⟩, hset⟩, hol⟩, hor⟩ := hw
    obtain ⟨la, hla, hsl⟩ := sortSound uidOf l hl
    obtain ⟨ra, hra, hsr⟩ := sortSound uidOf r hr
    rw [hol] at hsl
    rw [hor] at hsr
    by_cases h80 : getWidth r = 80
    · rw [hww, h80] at hsl
      rw [h80] at hsr
      refine ⟨.andE (.notE (f80Wrong la ra)) (.fpLeqE (sel0 la) (sel0 ra)),
        by simp [constructActual, getWidth, hla, hra, h80], ?_⟩
      exact sortOf_andE _ _ (sortOf_notE _ (sortOf_f80Wrong la ra hsl hsr))
        (sortOf_fpLeqE _ _ 15 64 (sortOf_sel0 la hsl) (sortOf_sel0 ra hsr))
    · have hl80 : getWidth l ≠ 80 := by omega
      rcases hset with h2 | h2 | h2
      · have hr2 : getWidth r = getWidth l := hww.symm
        rw [h2] at hsl
        rw [hr2, h2] at hsr
        refine ⟨.fpLeqE la ra,
          by simp [constructActual, getWidth, hla, hra, h80], ?_⟩
        exact sortOf_fpLeqE la ra 8 24 hsl hsr
      · have hr2 : getWidth r = getWidth l := hww.symm
        rw [h2] at hsl
        rw [hr2, h2] at hsr
        refine ⟨.fpLeqE la ra,
          by simp [constructActual, getWidth, hla, hra, h80], ?_⟩
        exact sortOf_fpLeqE la ra 11 53 hsl hsr
      · exact absurd h2 hl80
  | FUne l r =>
    simp only [wfB, Bool.and_eq_true, beq_iff_eq, decide_eq_true_eq] at hw
    obtain ⟨⟨⟨⟨⟨hl, hr⟩, hww⟩, hset⟩, hol⟩, hor⟩ := hw
    obtain ⟨la, hla, hsl⟩ := sortSound uidOf l hl
    obtain ⟨ra, hra, hsr⟩ := sortSound uidOf r hr
    rw [hol] at hsl
    rw [hor] at hsr
    by_cases h80 : getWidth r = 80
    · rw [hww, h80] at hsl
      rw [h80] at hsr
      refine ⟨.orE (f80Wrong la ra) (.notE (.fpEqE (sel0 la) (sel0 ra))),
        by simp [constructActual, getWidth, hla, hra, h80], ?_⟩
      exact sortOf_orE _ _ (sortOf_f80Wrong la ra hsl hsr)
        (sortOf_notE _ (sortOf_fpEqE _ _ 15 64 (sortOf_sel0 la hsl) (sortOf_sel0 ra hsr)))
    · have hl80 : getWidth l ≠ 80 := by omega
      rcases hset with h2 | h2 | h2
      · have hr2 : getWidth r = getWidth l := hww.symm
        rw [h2] at hsl
        rw [hr2, h2] at hsr
        refine ⟨.notE (.fpEqE la ra),
          by simp [constructActual, getWidth, hla, hra, h80], ?_⟩
        exact sortOf_notE _ (sortOf_fpEqE la ra 8 24 hsl hsr)
      · have hr2 : getWidth r = getWidth l := hww.symm
        rw [h2] at hsl
        rw [hr2, h2] at hsr
        refine ⟨.notE (.fpEqE la ra),
          by simp [constructActual, getWidth, hla, hra, h80], ?_⟩
        exact sortOf_notE _ (sortOf_fpEqE la ra 11 53 hsl hsr)
      · exact absurd h2 hl80
  | FOne l r =>
    simp only [wfB, Bool.and_eq_true, beq_iff_eq, decide_eq_true_eq] at hw
    obtain ⟨⟨⟨⟨⟨hl, hr⟩, hww⟩, hset⟩, hol⟩, hor⟩ := hw
    obtain ⟨la, hla, hsl⟩ := sortSound uidOf l hl
    obtain ⟨ra, hra, hsr⟩ := sortSound uidOf r hr
    rw [hol] at hsl
    rw [hor] at hsr
    by_cases h80 : getWidth r = 80
    · rw [hww, h80] at hsl
      rw [h80] at hsr
      refine ⟨.orE (f80Wrong la ra)
        (.notE (.orE3 (.isNanE (sel0 la)) (.isNanE (sel0 ra))
          (.fpEqE (sel0 la) (sel0 ra)))),
        by simp [constructActual, getWidth, hla, hra, h80], ?_⟩
      exact sortOf_orE _ _ (sortOf_f80Wrong la ra hsl hsr)
        (sortOf_notE _ (sortOf_orE3 _ _ _
          (sortOf_isNanE_fp _ 15 64 (sortOf_sel0 la hsl))
          (sortOf_isNanE_fp _ 15 64 (sortOf_sel0 ra hsr))
          (sortOf_fpEqE _ _ 15 64 (sortOf_sel0 la hsl) (sortOf_sel0 ra hsr))))
    · have hl80 : getWidth l ≠ 80 := by omega
      rcases hset with h2 | h2 | h2
      · have hr2 : getWidth r = getWidth l := hww.symm
        rw [h2] at hsl
        rw [hr2, h2] at hsr
        refine ⟨.notE (.orE3 (.isNanE la) (.isNanE ra) (.fpEqE la ra)),
          by simp [constructActual, getWidth, hla, hra, h80], ?_⟩
        exact sortOf_notE _ (sortOf_orE3 _ _ _ (sortOf_isNanE_fp _ 8 24 hsl)
          (sortOf_isNanE_fp _ 8 24 hsr) (sortOf_fpEqE la ra 8 24 hsl hsr))
      · have hr2 : getWidth r = getWidth l := hww.symm
        rw [h2] at hsl
        rw [hr2, h2] at hsr
        refine ⟨.notE (.orE3 (.isNanE la) (.isNanE ra) (.fpEqE la ra)),
          by simp [constructActual, getWidth, hla, hra, h80], ?_⟩
        exact sortOf_notE _ (sortOf_orE3 _ _ _ (sortOf_isNanE_fp _ 11 53 hsl)
          (sortOf_isNanE_fp _ 11 53 hsr) (sortOf_fpEqE la ra 11 53 hsl hsr))
      · exact absurd h2 hl80

/-- Under well-formedness, getArrayForUpdate succeeds and produces an
array of the root's domain/range sorts. -/
theorem sortSoundU (uidOf : ArrayIR → String) (root : ArrayIR) (ul : UpdList)
    (hw : wfUB root ul = true) (h0d : 0 < root.domain) (hd1 : root.domain ≠ 1)
    (h0r : 0 < root.range) (hr1 : root.range ≠ 1) :
    ∃ a, constructUpdates uidOf root ul = some a ∧
      sortOf a = some (.arrS (.bvS root.domain) (.bvS root.range)) := by
  cases ul with
  | nil =>
    exact ⟨getInitialArray (uidOf root) root, rfl,
      sortOf_getInitialArray (uidOf root) root h0d hd1 h0r hr1⟩
  | cons i v rest =>
    simp only [wfUB, Bool.and_eq_true, beq_iff_eq] at hw
    obtain ⟨⟨⟨⟨hi, hv⟩, hoi⟩, hov⟩, hrest⟩ := hw
    obtain ⟨aa, haa, hsaa⟩ := sortSoundU uidOf root rest hrest h0d hd1 h0r hr1
    obtain ⟨ia, hia, hsia⟩ := sortSound uidOf i hi
    obtain ⟨va, hva, hsva⟩ := sortSound uidOf v hv
    rw [hoi] at hsia
    rw [hov] at hsva
    exact ⟨.storeE aa ia va, by simp [constructUpdates, haa, hia, hva],
      sortOf_storeE _ _ _ _ _ hsaa hsia hsva⟩

end

/-- C1 counterexample: the translation of a 32-bit FAdd reports width 32
but is a floating-point-sorted term, not a Boolean, bitvector or
F80-array term, contradicting the claim that every non-predicate result
is a bitvector (or F80-array) term of the reported width. -/
theorem c1_counterexample :
    ∃ a, construct uidOf0 (.FAdd .rne (.FConstant 32 0) (.FConstant 32 0)) =
        some (a, 32) ∧
      sortOf a = some (.fpS 8 24) ∧
      (∀ w, sortOf a ≠ some (.bvS w)) ∧
      sortOf a ≠ some .boolS ∧
      (∀ d r, sortOf a ≠ some (.arrS d r)) := by
  refine ⟨.fpAddE .rne (.fpNumeral32 0) (.fpNumeral32 0), rfl, rfl, ?_, ?_, ?_⟩
  · intro w h
    exact Z3Sort.noConfusion (Option.some.inj h)
  · intro h
    exact Z3Sort.noConfusion (Option.some.inj h)
  · intro d r h
    exact Z3Sort.noConfusion (Option.some.inj h)

/-- C1 (amended): for every well-formed IR node, construct writes
getWidth to width_out and returns a term of the node's expected sort —
Boolean exactly when the reported width is 1, an FP sort for 32/64-bit
float results, the F80 array sort for 80-bit float results, and a
bitvector of the reported width otherwise — and the sort's bit width
always equals the reported width.  The two paths on which the C++ hands
Z3 an ill-sorted application (ExplicitInt of an 80-bit float, FToS of an
80-bit float) are excluded: on them construction succeeds syntactically
but the emitted term has no sort. -/
theorem c1_width_sort_invariant :
    (∀ (uidOf : ArrayIR → String) (e : Expr), wfB e = true →
      ∃ a, construct uidOf e = some (a, getWidth e) ∧
        sortOf a = some (outSort e) ∧
        sortWidth (outSort e) = getWidth e ∧
        (getWidth e = 1 ↔ outSort e = Z3Sort.boolS)) ∧
    ((construct uidOf0 (.ExplicitInt (.FConstant 80 0))).map
      (fun p => sortOf p.1) = some none) ∧
    ((construct uidOf0 (.FToS .rne (.FConstant 80 0) 32)).map
      (fun p => sortOf p.1) = some none) := by
  refine ⟨?_, rfl, rfl⟩
  intro uidOf e hw
  obtain ⟨a, ha, hs⟩ := sortSound uidOf e hw
  have hA := widthA e hw
  exact ⟨a, ha, hs, hA.2.1, hA.2.2⟩

/-- Instantiation of the C1 invariant at a concrete well-formed 80-bit
FAdd node. -/
theorem c1_width_sort_invariant_witness :
    wfB (.FAdd .rne (.FConstant 80 0) (.FConstant 80 0)) = true ∧
    ∃ a, construct uidOf0 (.FAdd .rne (.FConstant 80 0) (.FConstant 80 0)) =
        some (a, getWidth (.FAdd .rne (.FConstant 80 0) (.FConstant 80 0))) ∧
      sortOf a =
        some (outSort (.FAdd .rne (.FConstant 80 0) (.FConstant 80 0))) ∧
      sortWidth (outSort (.FAdd .rne (.FConstant 80 0) (.FConstant 80 0))) =
        getWidth (.FAdd .rne (.FConstant 80 0) (.FConstant 80 0)) ∧
      (getWidth (.FAdd .rne (.FConstant 80 0) (.FConstant 80 0)) = 1 ↔
        outSort (.FAdd .rne (.FConstant 80 0) (.FConstant 80 0)) =
          Z3Sort.boolS) :=
  ⟨by decide, c1_width_sort_invariant.1 uidOf0 _ (by decide)⟩

end KleeZ3

